import Mathlib

/-!
# node-postgres native binding (`src/binding.cc`): the `Connection` class

A shallow embedding of the C++ class `Connection` of `src/binding.cc`.

* The fields of the C++ object are the structure `Connection`.
* The protocol engine (libpq) is an external collaborator.  A handle `PGconn`
  is a script: for every engine function the list of answers it will give, in
  call order.  A call pops the head of its list; an exhausted list answers
  like a quiescent engine (no result, no notification, no copy data).  Calls
  made through a NULL handle are answered from the script `nullConn`.
* Every engine call and every libuv call is appended to `World.calls`, every
  event passed to the JavaScript `emit` function is appended to `World.events`;
  the listeners `emit` runs are outside the source and are not run.
* libuv runs the callback `io_event` only for a poll handle that was
  initialised (`Op.deliverable`); the methods can be called at any time.
* The three `while` loops that drain the engine are given one unit of fuel more
  than the script they consume is long; they always leave through their own
  test (`HandleCopyOut_loop_fuel`, `resultLoop_fuel`, `notifyLoop_fuel`).
* Where the code does not return to its caller the flag `World.halted` is set,
  and nothing is done from then on: in `HandleErrorResult`, which dereferences
  a handle that holds no object, in `MallocCHexString`, whose loop does not
  end on a buffer of `2^31 - 2` bytes or more, and in `ArgToCStringArray`,
  whose `new char*[len]` throws on a negative `len`.
* The v8 conversions `ToString` and `Int32Value` are outside the source; the
  entry points take their results (`String`, `Bool`, `Int`) and take a
  `JsValue` where the source tests the dynamic type of an argument.
* Allocation (`malloc`, `new`) of a size that is not negative is assumed to
  succeed.
* Machine integers: the counters of `MallocCHexString` are `uint32_t` and wrap
  at `2^32` (`uint32`); the type id `PQftype` returns, the length of the array
  of parameters and the length of a chunk handed to `PQputCopyData` are
  unsigned numbers that the source stores in an `int` (`toInt32`).
* `MallocCHexString` works on the block it allocates, every load from the
  buffer and every store to the block being recorded with its index; a load
  from outside the buffer yields an arbitrary byte, a store outside the block
  leaves the block as it is.  Every cell of the block is stored to before the
  block is returned, so what `malloc` left in it does not matter.
* The code is built with `SINGLE_ROW_SUPPORTED` (libpq 9.2 or later).
* The engine invokes the notice receiver on its own initiative; it is the
  separate operation `HandleNotice`.
-/

namespace PgBinding

/-! ## Values exchanged with the engine and with JavaScript -/

/-- Byte buffers (`char*` with a length); every element stands for one byte. -/
abbrev Bytes := List Nat

/-- Type `ConnStatusType` of libpq; the source only tests for `CONNECTION_BAD`. -/
inductive ConnStatusType where
  | CONNECTION_OK
  | CONNECTION_BAD
  | CONNECTION_STARTED
  | CONNECTION_MADE
  | CONNECTION_AWAITING_RESPONSE
  | CONNECTION_AUTH_OK
  | CONNECTION_SETENV
  | CONNECTION_SSL_STARTUP
  | CONNECTION_NEEDED
  deriving DecidableEq, Repr

/-- Type `PostgresPollingStatusType` of libpq, the answers of `PQconnectPoll`. -/
inductive PostgresPollingStatusType where
  | PGRES_POLLING_FAILED
  | PGRES_POLLING_READING
  | PGRES_POLLING_WRITING
  | PGRES_POLLING_OK
  | PGRES_POLLING_ACTIVE
  deriving DecidableEq, Repr

/-- Type `ExecStatusType` of libpq, the answers of `PQresultStatus`. -/
inductive ExecStatusType where
  | PGRES_EMPTY_QUERY
  | PGRES_COMMAND_OK
  | PGRES_TUPLES_OK
  | PGRES_COPY_OUT
  | PGRES_COPY_IN
  | PGRES_BAD_RESPONSE
  | PGRES_NONFATAL_ERROR
  | PGRES_FATAL_ERROR
  | PGRES_COPY_BOTH
  | PGRES_SINGLE_TUPLE
  deriving DecidableEq, Repr

/-- Error field codes of libpq (`PG_DIAG_*`), passed to `PQresultErrorField`. -/
inductive DiagField where
  | PG_DIAG_SEVERITY
  | PG_DIAG_SQLSTATE
  | PG_DIAG_MESSAGE_PRIMARY
  | PG_DIAG_MESSAGE_DETAIL
  | PG_DIAG_MESSAGE_HINT
  | PG_DIAG_STATEMENT_POSITION
  | PG_DIAG_INTERNAL_POSITION
  | PG_DIAG_INTERNAL_QUERY
  | PG_DIAG_CONTEXT
  | PG_DIAG_SOURCE_FILE
  | PG_DIAG_SOURCE_LINE
  | PG_DIAG_SOURCE_FUNCTION
  deriving DecidableEq, Repr

/-- A result object `PGresult`, seen through the accessor functions the source
calls on it: `PQresultStatus`, `PQnfields`, `PQfname`, `PQftype`, `PQntuples`,
`PQgetisnull`, `PQgetvalue`, `PQcmdStatus`, `PQcmdTuples`, `PQresultErrorField`.
`PQftype` returns an `Oid`, an `unsigned int`: a type id is a natural number
(below `2^32`). -/
structure PGresult where
  resultStatus : ExecStatusType
  nfields : Nat
  fname : Nat → String
  ftype : Nat → Nat
  ntuples : Nat
  getisnull : Nat → Nat → Bool
  getvalue : Nat → Nat → String
  cmdStatus : String
  cmdTuples : String
  resultErrorField : DiagField → Option String

/-- A notification `PGnotify`: channel name `relname` and payload `extra`. -/
structure PGnotify where
  relname : String
  extra : String
  deriving DecidableEq, Repr

/-- One answer of `PQgetCopyData`: the return value and the buffer it hands out. -/
structure CopyResp where
  copied : Int
  buffer : Bytes
  deriving DecidableEq, Repr

/-- An engine handle `PGconn*`: for each engine function, the answers it will
give on this handle, in call order. -/
structure PGconn where
  status : List ConnStatusType
  setnonblocking : List Int
  socket : List Int
  connectPoll : List PostgresPollingStatusType
  send : List Int
  cancel : List Int
  flush : List Int
  consumeInput : List Int
  isBusy : List Int
  getResult : List (Option PGresult)
  getCopyData : List CopyResp
  notifies : List (Option PGnotify)
  errorMessage : List String

/-- The JavaScript values whose dynamic type the source inspects. -/
inductive JsValue where
  | undefined
  | null
  | boolean (b : Bool)
  | number (n : Int)
  | string (s : String)
  | buffer (data : Bytes)
  | array (elems : List JsValue)
  | object

/-- The argument of an `_error` event: the `Error` exception built by
`EmitError`.  (`HandleErrorResult` never gets as far as its own `Emit`.) -/
inductive ErrorArg where
  | exception (message : String)
  deriving DecidableEq, Repr

/-- What the binding passes to the JavaScript `emit` function. -/
inductive Event where
  | connect
  | notice (message : String)
  | notification (channel payload : String)
  | _rowDescription (fields : List (String × Int))
  | _row (values : List (Option String))
  | _cmdStatus (command value : String)
  | _error (arg : ErrorArg)
  | copyInResponse
  | copyOutResponse
  | copyData (chunk : Bytes)
  | _end
  | _readyForQuery
  deriving DecidableEq, Repr

/-- The two poll handles of the object. -/
inductive Watcher where
  | read_watcher_
  | write_watcher_
  deriving DecidableEq, Repr

/-- Engine (libpq) and notifier (libuv) calls, with the arguments the source
passes; `PQgetResult` also records the status of the object it returned. -/
inductive Fn where
  | PQconnectStart (conninfo : String)
  | PQstatus
  | PQsetnonblocking
  | PQsocket
  | PQsetNoticeProcessor
  | PQsendQuery (queryText : String)
  | PQsendQueryParams (command : String) (nParams : Int) (paramValues : List (Option String))
  | PQsendPrepare (name command : String) (nParams : Int)
  | PQsendQueryPrepared (name : String) (nParams : Int) (paramValues : List (Option String))
  | PQsetSingleRowMode
  | PQgetCancel
  | PQcancel
  | PQfreeCancel
  | PQflush
  | PQfinish
  | PQconnectPoll
  | PQconsumeInput
  | PQisBusy
  | PQgetResult (returned : Option ExecStatusType)
  | PQgetCopyData
  | PQnotifies
  | PQerrorMessage
  | PQputCopyData (buffer : Bytes) (nbytes : Int)
  | PQputCopyEnd (errormsg : Option String)
  | uv_poll_init (w : Watcher) (fd : Int)
  | uv_poll_start (w : Watcher)
  | uv_poll_stop (w : Watcher)
  deriving DecidableEq, Repr

/-- One logged call: the function, and whether `connection_` was non-NULL
when it was made. -/
structure Call where
  live : Bool
  fn : Fn
  deriving DecidableEq, Repr

/-! ## The object and its environment -/

/-- The data members of the C++ class `Connection`. -/
structure Connection where
  connection_ : Option PGconn
  connecting_ : Bool
  ioInitialized_ : Bool
  copyOutMode_ : Bool
  copyInMode_ : Bool
  reading_ : Bool
  writing_ : Bool
  ended_ : Bool

/-- The object together with its environment: the answers the engine gives
through a NULL handle, the handles `PQconnectStart` will return, the log of
emitted events and of calls, and whether the process still runs.  `halted` is
set where the code does not return to its caller: the process died (a NULL
object is dereferenced in `HandleErrorResult`) or it is caught in a loop that
does not end (`MallocCHexString`); nothing is done after that. -/
structure World where
  conn : Connection
  nullConn : PGconn
  connectStart : List (Option PGconn)
  events : List Event
  calls : List Call
  halted : Bool

/-- The constructor `Connection ()`. -/
def Connection.new : Connection :=
  { connection_ := none, connecting_ := false, ioInitialized_ := false,
    copyOutMode_ := false, copyInMode_ := false, reading_ := false,
    writing_ := false, ended_ := false }

/-- A handle on which every script is exhausted. -/
def PGconn.quiet : PGconn :=
  { status := [], setnonblocking := [], socket := [], connectPoll := [], send := [],
    cancel := [], flush := [], consumeInput := [], isBusy := [], getResult := [],
    getCopyData := [], notifies := [], errorMessage := [] }

/-- A freshly constructed object in a given environment. -/
def World.fresh (nullConn : PGconn) (connectStart : List (Option PGconn)) : World :=
  { conn := Connection.new, nullConn := nullConn, connectStart := connectStart,
    events := [], calls := [], halted := false }

/-- The script that answers calls made with the current value of `connection_`. -/
def World.engine (w : World) : PGconn :=
  match w.conn.connection_ with
  | some c => c
  | none => w.nullConn

/-- Store the script back after a call consumed an answer. -/
def World.setEngine (w : World) (c : PGconn) : World :=
  match w.conn.connection_ with
  | some _ => { w with conn := { w.conn with connection_ := some c } }
  | none => { w with nullConn := c }

/-- Append a call to the log. -/
def World.log (w : World) (f : Fn) : World :=
  { w with calls := w.calls ++ [{ live := w.conn.connection_.isSome, fn := f }] }

/-- The private method `Emit`: hand an event to the JavaScript `emit` function. -/
def Emit (e : Event) (w : World) : World :=
  { w with events := w.events ++ [e] }

/-! ## Engine primitives -/

def PQstatus (w : World) : ConnStatusType × World :=
  let e := w.engine
  (e.status.headD ConnStatusType.CONNECTION_BAD,
    (w.setEngine { e with status := e.status.tail }).log Fn.PQstatus)

def PQsetnonblocking (w : World) : Int × World :=
  let e := w.engine
  (e.setnonblocking.headD 0,
    (w.setEngine { e with setnonblocking := e.setnonblocking.tail }).log Fn.PQsetnonblocking)

def PQsocket (w : World) : Int × World :=
  let e := w.engine
  (e.socket.headD (-1), (w.setEngine { e with socket := e.socket.tail }).log Fn.PQsocket)

def PQconnectPoll (w : World) : PostgresPollingStatusType × World :=
  let e := w.engine
  (e.connectPoll.headD PostgresPollingStatusType.PGRES_POLLING_FAILED,
    (w.setEngine { e with connectPoll := e.connectPoll.tail }).log Fn.PQconnectPoll)

/-- The four send primitives share one answer script; `f` is the logged call. -/
def PQsend (f : Fn) (w : World) : Int × World :=
  let e := w.engine
  (e.send.headD 0, (w.setEngine { e with send := e.send.tail }).log f)

def PQcancel (w : World) : Int × World :=
  let e := w.engine
  (e.cancel.headD 0, (w.setEngine { e with cancel := e.cancel.tail }).log Fn.PQcancel)

def PQflush (w : World) : Int × World :=
  let e := w.engine
  (e.flush.headD 0, (w.setEngine { e with flush := e.flush.tail }).log Fn.PQflush)

def PQconsumeInput (w : World) : Int × World :=
  let e := w.engine
  (e.consumeInput.headD 1,
    (w.setEngine { e with consumeInput := e.consumeInput.tail }).log Fn.PQconsumeInput)

def PQisBusy (w : World) : Int × World :=
  let e := w.engine
  (e.isBusy.headD 0, (w.setEngine { e with isBusy := e.isBusy.tail }).log Fn.PQisBusy)

def PQgetResult (w : World) : Option PGresult × World :=
  let e := w.engine
  let r := e.getResult.headD none
  (r, (w.setEngine { e with getResult := e.getResult.tail }).log
        (Fn.PQgetResult (r.map PGresult.resultStatus)))

def PQgetCopyData (w : World) : CopyResp × World :=
  let e := w.engine
  (e.getCopyData.headD { copied := 0, buffer := [] },
    (w.setEngine { e with getCopyData := e.getCopyData.tail }).log Fn.PQgetCopyData)

def PQnotifies (w : World) : Option PGnotify × World :=
  let e := w.engine
  (e.notifies.headD none,
    (w.setEngine { e with notifies := e.notifies.tail }).log Fn.PQnotifies)

def PQerrorMessage (w : World) : String × World :=
  let e := w.engine
  (e.errorMessage.headD "",
    (w.setEngine { e with errorMessage := e.errorMessage.tail }).log Fn.PQerrorMessage)

/-- The call `PQconnectStart`: the next handle of the environment, or NULL. -/
def PQconnectStart (conninfo : String) (w : World) : Option PGconn × World :=
  (w.connectStart.headD none,
    ({ w with connectStart := w.connectStart.tail }).log (Fn.PQconnectStart conninfo))

/-! ## Poll handle bookkeeping (`StopWrite`, `StartWrite`, `StopRead`, `StartRead`) -/

def StopWrite (w : World) : World :=
  if w.conn.ioInitialized_ && w.conn.writing_ then
    let w1 := w.log (Fn.uv_poll_stop Watcher.write_watcher_)
    { w1 with conn := { w1.conn with writing_ := false } }
  else w

def StopRead (w : World) : World :=
  if w.conn.ioInitialized_ && w.conn.reading_ then
    let w1 := w.log (Fn.uv_poll_stop Watcher.read_watcher_)
    { w1 with conn := { w1.conn with reading_ := false } }
  else w

def StartWrite (w : World) : World :=
  let w1 := if w.conn.reading_ then StopRead w else w
  let w2 := w1.log (Fn.uv_poll_start Watcher.write_watcher_)
  { w2 with conn := { w2.conn with writing_ := true } }

def StartRead (w : World) : World :=
  let w1 := if w.conn.writing_ then StopWrite w else w
  let w2 := w1.log (Fn.uv_poll_start Watcher.read_watcher_)
  { w2 with conn := { w2.conn with reading_ := true } }

/-! ## Errors, teardown -/

def EmitError (message : String) (w : World) : World :=
  Emit (Event._error (ErrorArg.exception message)) w

def EmitLastError (w : World) : World :=
  let r := PQerrorMessage w
  EmitError r.1 r.2

def GetLastError (w : World) : String × World :=
  PQerrorMessage w

/-- Method `DestroyConnection`: "safely destroys the connection at most 1 time". -/
def DestroyConnection (w : World) : World :=
  if w.conn.connection_.isSome then
    let w1 := w.log Fn.PQfinish
    { w1 with conn := { w1.conn with connection_ := none } }
  else w

def End (w : World) : World :=
  let w1 := StopRead w
  let w2 := StopWrite w1
  let w3 := DestroyConnection w2
  let w4 := Emit Event._end w3
  { w4 with conn := { w4.conn with ended_ := true } }

/-! ## Query dispatch -/

/-- Method `enableSingleRowMode`; the answer of `PQsetSingleRowMode` is only traced. -/
def enableSingleRowMode (enable : Bool) (w : World) : World :=
  if enable then w.log Fn.PQsetSingleRowMode else w

def Send (queryText : String) (singleRowMode : Bool) (w : World) : Int × World :=
  let rv := PQsend (Fn.PQsendQuery queryText) w
  let w1 := enableSingleRowMode singleRowMode rv.2
  (rv.1, StartWrite w1)

def SendQueryParams (command : String) (nParams : Int) (paramValues : List (Option String))
    (singleRowMode : Bool) (w : World) : Int × World :=
  let rv := PQsend (Fn.PQsendQueryParams command nParams paramValues) w
  let w1 := enableSingleRowMode singleRowMode rv.2
  (rv.1, StartWrite w1)

def SendPrepare (name command : String) (nParams : Int) (singleRowMode : Bool) (w : World) :
    Int × World :=
  let rv := PQsend (Fn.PQsendPrepare name command nParams) w
  let w1 := enableSingleRowMode singleRowMode rv.2
  (rv.1, StartWrite w1)

def SendPreparedQuery (name : String) (nParams : Int) (paramValues : List (Option String))
    (singleRowMode : Bool) (w : World) : Int × World :=
  let rv := PQsend (Fn.PQsendQueryPrepared name nParams paramValues) w
  let w1 := enableSingleRowMode singleRowMode rv.2
  (rv.1, StartWrite w1)

/-- Method `Cancel`; the `int` answer of `PQcancel` is returned as `bool`. -/
def Cancel (w : World) : Bool × World :=
  let w1 := w.log Fn.PQgetCancel
  let result := PQcancel w1
  let w2 := StartWrite result.2
  let w3 := w2.log Fn.PQfreeCancel
  (result.1 != 0, w3)

def Flush (w : World) : World :=
  let r := PQflush w
  if r.1 == 1 then r.2.log (Fn.uv_poll_start Watcher.write_watcher_) else r.2

/-- Method `Connect`.  The `assert (PQisnonblocking (connection_))` is taken to
hold after `PQsetnonblocking` succeeded; `Ref ()` has no effect on the fields. -/
def Connect (conninfo : String) (w : World) : Bool × World :=
  if w.conn.ended_ then (true, w) else
  let c := PQconnectStart conninfo w
  let w1 : World := { c.2 with conn := { c.2.conn with connection_ := c.1 } }
  let status := PQstatus w1
  if status.1 = ConnStatusType.CONNECTION_BAD then (false, status.2) else
  let nb := PQsetnonblocking status.2
  if nb.1 = -1 then (false, nb.2) else
  let fd := PQsocket nb.2
  if fd.1 < 0 then (false, fd.2) else
  let w2 := fd.2.log Fn.PQsetNoticeProcessor
  let w3 := w2.log (Fn.uv_poll_init Watcher.read_watcher_ fd.1)
  let w4 := w3.log (Fn.uv_poll_init Watcher.write_watcher_ fd.1)
  let w5 : World := { w4 with conn := { w4.conn with ioInitialized_ := true } }
  let w6 : World := { w5 with conn := { w5.conn with connecting_ := true } }
  (true, StartWrite w6)

/-! ## Argument conversion -/

/-- The C string `*utf8String` of a `String::Utf8Value`: the text up to the
first NUL. -/
def cString (utf8String : String) : String :=
  String.mk (utf8String.data.takeWhile (fun ch => ch != Char.ofNat 0))

/-- Helper `MallocCString` on a string: `strcpy` copies the C string. -/
def MallocCString (v8String : String) : String :=
  cString v8String

/-- The memory `MallocCHexString` works on: the allocated block `cHexString`,
and the indices at which `bufferData` was read and `cHexString` was written. -/
structure HexMem where
  cHexString : List Char
  reads : List Nat
  writes : List Nat
  deriving DecidableEq, Repr

/-- A store `cHexString[k] = ch`; a store outside the block leaves it as it is
and is recorded all the same. -/
def HexMem.store (m : HexMem) (k : Nat) (ch : Char) : HexMem :=
  { m with cHexString := m.cHexString.set k ch, writes := m.writes ++ [k] }

/-- The table `hex[]` of `MallocCHexString`. -/
def hex : List Char :=
  "0123456789abcdef".data

/-- Arithmetic of the type `uint32_t`: the value modulo `2^32`. -/
def uint32 (n : Nat) : Nat :=
  n % 4294967296

/-- The implicit conversion of an unsigned number to `int`, as in
`int fieldType = PQftype (result, fieldNumber)`, in `int len =
params->Length ()` and in the `size_t` handed to the `int nbytes` of
`PQputCopyData`: the value modulo `2^32`, read as a two's complement number of
32 bits. -/
def toInt32 (n : Nat) : Int :=
  if n % 4294967296 < 2147483648 then Int.ofNat (n % 4294967296)
  else Int.ofNat (n % 4294967296) - 4294967296

/-- The `for` loop of `MallocCHexString`, one unit of fuel per evaluation of
its test; `none` when the fuel runs out.  The counters `i` and `k` are
`uint32_t` and wrap at `2^32`; the bound `hexStringLen` is a `size_t`, against
which `k` is compared without loss.  A load outside `bufferData` yields the
byte `garbage`. -/
def MallocCHexString.loop (bufferData : Bytes) (garbage : Nat) (hexStringLen : Nat) :
    Nat → Nat → Nat → HexMem → Option HexMem
  | 0, _, _, _ => none
  | fuel + 1, i, k, m =>
    if k < hexStringLen then
      let val := (bufferData.getD i garbage) % 256
      let m1 : HexMem := { m with reads := m.reads ++ [i] }
      let m2 := m1.store (uint32 (k + 0)) (hex.getD (val >>> 4) (Char.ofNat 0))
      let m3 := m2.store (uint32 (k + 1)) (hex.getD (val &&& 15) (Char.ofNat 0))
      MallocCHexString.loop bufferData garbage hexStringLen fuel (uint32 (i + 1)) (uint32 (k + 2))
        m3
    else some m

/-- The body of `MallocCHexString` on the bytes of the buffer; `none` when the
loop does not end.  The loop is given `n + 2` units of fuel on a buffer of `n`
bytes: it leaves through its test after `n + 1` rounds when `n < 2^31 - 2`
(`MallocCHexString_loop_spec`), and for a longer buffer no amount of fuel is
enough (`MallocCHexString_loop_never_ends`).  The `size_t` product
`Buffer::Length (buf) * 2 + 3` does not overflow for a buffer that fits in
memory. -/
def MallocCHexString.run (bufferData : Bytes) (garbage : Nat) : Option HexMem :=
  let hexStringLen := bufferData.length * 2 + 3
  let m0 : HexMem :=
    { cHexString := List.replicate hexStringLen (Char.ofNat 0), reads := [], writes := [] }
  let m1 := ((m0.store 0 (Char.ofNat 92)).store 1 'x').store 2 (Char.ofNat 0)
  match MallocCHexString.loop bufferData garbage hexStringLen (bufferData.length + 2) 0 2 m1 with
  | none => none
  | some m2 => some (m2.store (hexStringLen - 1) (Char.ofNat 0))

/-- Helper `MallocCHexString`: the C string found in the returned block; `none`
when the call does not return. -/
def MallocCHexString (bufferData : Bytes) : Option String :=
  match MallocCHexString.run bufferData 0 with
  | none => none
  | some m => some (String.mk (m.cHexString.takeWhile (fun ch => ch != Char.ofNat 0)))

/-- The loop of `ArgToCStringArray` over the elements of the array.  The outer
`none`: the call does not return (a call of `MallocCHexString` does not);
`some none`: the `return 0` of a parameter that is neither a string, null nor a
buffer; `some (some paramValues)`: the array returned. -/
def ArgToCStringArray.loop :
    List JsValue → List (Option String) → Option (Option (List (Option String)))
  | [], paramValues => some (some paramValues)
  | val :: rest, paramValues =>
    match val with
    | JsValue.string s => ArgToCStringArray.loop rest (paramValues ++ [some (MallocCString s)])
    | JsValue.null => ArgToCStringArray.loop rest (paramValues ++ [none])
    | JsValue.buffer data =>
      if data.length > 0 then
        match MallocCHexString data with
        | none => none
        | some cHexString => ArgToCStringArray.loop rest (paramValues ++ [some cHexString])
      else
        ArgToCStringArray.loop rest (paramValues ++ [some (MallocCString "")])
    | _ => some none

/-- Function `ArgToCStringArray`.  `int len = params->Length ()` takes the
length of the array, an unsigned 32-bit number, as an `int`: from `2^31`
elements on `len` is negative, `new char*[len]` throws, nothing catches it, and
the call does not return.  The loop runs over the first `len` elements. -/
def ArgToCStringArray (params : List JsValue) : Option (Option (List (Option String))) :=
  let len := toInt32 params.length
  if len < 0 then none else ArgToCStringArray.loop (params.take len.toNat) []

/-! ## Result handling -/

def HandleNotice (message : String) (w : World) : World :=
  Emit (Event.notice message) w

/-- The `while (copied > 0)` loop of `HandleCopyOut`, the call of
`PQgetCopyData` placed at the head of each round.  `Nan::NewBuffer (buffer,
copied)` takes the first `copied` bytes of the buffer.  Every round consumes
one answer of the script and the caller gives one unit of fuel more than the
script is long, so the loop leaves through its own test. -/
def HandleCopyOut.loop : Nat → World → Int × World
  | 0, w => (0, w)
  | fuel + 1, w =>
    let r := PQgetCopyData w
    if r.1.copied > 0 then
      HandleCopyOut.loop fuel (Emit (Event.copyData (r.1.buffer.take r.1.copied.toNat)) r.2)
    else (r.1.copied, r.2)

def HandleCopyOut (w : World) : Bool × World :=
  let r := HandleCopyOut.loop (w.engine.getCopyData.length + 1) w
  let copied := r.1
  if copied = 0 then (false, r.2)
  else if copied = -1 then (true, { r.2 with conn := { r.2.conn with copyOutMode_ := false } })
  else if copied = -2 then (true, { r.2 with conn := { r.2.conn with copyOutMode_ := false } })
  else (false, r.2)

def EmitRowDescription (result : PGresult) (w : World) : World :=
  let fieldCount := result.nfields
  let row := (List.range fieldCount).foldl
    (fun row fieldNumber =>
      let fieldType : Int := toInt32 (result.ftype fieldNumber)
      row ++ [(result.fname fieldNumber, fieldType)]) []
  Emit (Event._rowDescription row) w

def EmitCommandMetaData (result : PGresult) (w : World) : World :=
  Emit (Event._cmdStatus result.cmdStatus result.cmdTuples) w

def HandleTuplesResult (result : PGresult) (w : World) : World :=
  let rowCount := result.ntuples
  (List.range rowCount).foldl
    (fun w1 rowNumber =>
      let fieldCount := result.nfields
      let row := (List.range fieldCount).foldl
        (fun row fieldNumber =>
          if result.getisnull rowNumber fieldNumber then row ++ [none]
          else row ++ [some (result.getvalue rowNumber fieldNumber)]) []
      Emit (Event._row row) w1) w

/-- Method `HandleErrorResult`.  Without a primary message it returns at once.
With one, the source declares `Local<Object> msg;`, a handle that holds no
object, and calls `msg->Set (...)` on it as its next statement: the NULL object
is dereferenced and the process dies there.  The calls of `AttachErrorField`
and the `Emit ("_error", &m)` that follow in the source are not reached. -/
def HandleErrorResult (result : PGresult) (w : World) : World :=
  match result.resultErrorField DiagField.PG_DIAG_MESSAGE_PRIMARY with
  | none => w
  | some _ => { w with halted := true }

/-- Method `HandleResult`.  When `HandleErrorResult` does not return, the value
`true` is never handed to the caller: the callers test `halted` first. -/
def HandleResult (result : PGresult) (w : World) : Bool × World :=
  match result.resultStatus with
  | ExecStatusType.PGRES_TUPLES_OK | ExecStatusType.PGRES_SINGLE_TUPLE =>
    (true, EmitCommandMetaData result (HandleTuplesResult result (EmitRowDescription result w)))
  | ExecStatusType.PGRES_FATAL_ERROR => (true, HandleErrorResult result w)
  | ExecStatusType.PGRES_COMMAND_OK | ExecStatusType.PGRES_EMPTY_QUERY =>
    (true, EmitCommandMetaData result w)
  | ExecStatusType.PGRES_COPY_IN =>
    let w1 : World := { w with conn := { w.conn with copyInMode_ := true } }
    (false, Emit Event.copyInResponse w1)
  | ExecStatusType.PGRES_COPY_OUT =>
    let w1 : World := { w with conn := { w.conn with copyOutMode_ := true } }
    HandleCopyOut (Emit Event.copyOutResponse w1)
  | _ => (true, w)

/-! ## Readiness callbacks -/

def UV_READABLE : Nat := 1

def UV_WRITABLE : Nat := 2

def HandleConnectionIO (w : World) : World :=
  let status := PQconnectPoll w
  match status.1 with
  | PostgresPollingStatusType.PGRES_POLLING_READING => StartRead status.2
  | PostgresPollingStatusType.PGRES_POLLING_WRITING => StartWrite status.2
  | PostgresPollingStatusType.PGRES_POLLING_FAILED =>
    EmitLastError (StopWrite (StopRead status.2))
  | PostgresPollingStatusType.PGRES_POLLING_OK =>
    let w1 : World := { status.2 with conn := { status.2.conn with connecting_ := false } }
    Emit Event.connect (StartRead w1)
  | _ => status.2

/-- The `while ((result = PQgetResult (connection_)))` loop of `HandleIOEvent`,
carrying `didHandleResult`.  Every round consumes one answer of the script and
the caller gives one unit of fuel more than the script is long, so the loop
leaves through NULL or through `break`, unless the process dies in
`HandleResult`: then nothing follows. -/
def HandleIOEvent.resultLoop : Nat → Bool → World → Bool × World
  | 0, didHandleResult, w => (didHandleResult, w)
  | fuel + 1, didHandleResult, w =>
    let r := PQgetResult w
    match r.1 with
    | none => (didHandleResult, r.2)
    | some result =>
      let h := HandleResult result r.2
      if h.2.halted then (h.1, h.2)
      else if !h.1 then (h.1, h.2) else HandleIOEvent.resultLoop fuel h.1 h.2

/-- The block of `HandleIOEvent` guarded by
`!copyInMode_ && !copyOutMode_ && PQisBusy (connection_) == 0`. -/
def HandleIOEvent.results (w : World) : World :=
  if !w.conn.copyInMode_ && !w.conn.copyOutMode_ then
    let busy := PQisBusy w
    if busy.1 = 0 then
      let r := HandleIOEvent.resultLoop (busy.2.engine.getResult.length + 1) false busy.2
      if r.2.halted then r.2
      else if r.1 then Emit Event._readyForQuery r.2 else r.2
    else busy.2
  else w

/-- The `while ((notify = PQnotifies (connection_)))` loop of `HandleIOEvent`. -/
def HandleIOEvent.notifyLoop : Nat → World → World
  | 0, w => w
  | fuel + 1, w =>
    let r := PQnotifies w
    match r.1 with
    | none => r.2
    | some notify =>
      HandleIOEvent.notifyLoop fuel (Emit (Event.notification notify.relname notify.extra) r.2)

/-- The block `if (revents & UV_WRITABLE)` of `HandleIOEvent`. -/
def HandleIOEvent.writable (revents : Nat) (w : World) : World :=
  if revents &&& UV_WRITABLE ≠ 0 then
    let r := PQflush w
    if r.1 = 0 then StartRead r.2 else r.2
  else w

def HandleIOEvent (revents : Nat) (w : World) : World :=
  if w.conn.connecting_ then HandleConnectionIO w
  else if revents &&& UV_READABLE ≠ 0 then
    let consumed := PQconsumeInput w
    if consumed.1 = 0 then EmitLastError (End consumed.2)
    else
      let w1 := if consumed.2.conn.copyOutMode_ then (HandleCopyOut consumed.2).2 else consumed.2
      let w2 := HandleIOEvent.results w1
      if w2.halted then w2
      else
        let w3 := HandleIOEvent.notifyLoop (w2.engine.notifies.length + 1) w2
        HandleIOEvent.writable revents w3
  else HandleIOEvent.writable revents w

/-! ## Bulk upload -/

def SendCopyFromChunk (chunk : Bytes) (w : World) : World :=
  w.log (Fn.PQputCopyData chunk (toInt32 chunk.length))

def EndCopyFrom (error_msg : Option String) (w : World) : World :=
  let w1 := w.log (Fn.PQputCopyEnd error_msg)
  { w1 with conn := { w1.conn with copyInMode_ := false } }

/-! ## The methods exported to JavaScript

`info` is the argument list of the call, `info[i]` is `undefined` past its end.
The first component of the result is the exception thrown, if any. -/

/-- The access `info[i]`. -/
def arg (info : List JsValue) (i : Nat) : JsValue :=
  info.getD i JsValue.undefined

/-- The bytes `Buffer::Data`, `Buffer::Length` find; no bytes outside a buffer. -/
def bufferData : JsValue → Bytes
  | JsValue.buffer data => data
  | _ => []

def NAN_METHOD_Connect (info : List JsValue) (w : World) : Option String × World :=
  match arg info 0 with
  | JsValue.string conninfo =>
    let success := Connect (cString conninfo) w
    if !success.1 then (none, DestroyConnection (EmitLastError success.2))
    else (none, success.2)
  | _ => (some "Must include connection string as only argument to connect", w)

def NAN_METHOD_Cancel (w : World) : Option String × World :=
  let success := Cancel w
  if !success.1 then (none, DestroyConnection (EmitLastError success.2))
  else (none, success.2)

/-- Method `_sendQuery`; `singleRowMode` is `(bool) info[1]->Int32Value ()`. -/
def NAN_METHOD_SendQuery (info : List JsValue) (singleRowMode : Bool) (w : World) :
    Option String × World :=
  match arg info 0 with
  | JsValue.string s =>
    let queryText := MallocCString s
    let result := Send queryText singleRowMode w
    if result.1 = 0 then
      let lastErrorMessage := GetLastError result.2
      (some lastErrorMessage.1, lastErrorMessage.2)
    else (none, Flush result.2)
  | _ => (some "First parameter must be a string query", w)

/-- Method `_sendPrepare`, on the converted arguments `info[0]` to `info[3]`;
`*queryName` and `*queryText` are the C strings of the two `String::Utf8Value`. -/
def NAN_METHOD_SendPrepare (queryName queryText : String) (length : Int) (singleRowMode : Bool)
    (w : World) : Option String × World :=
  (none, (SendPrepare (cString queryName) (cString queryText) length singleRowMode w).2)

/-- Function `DispatchParameterizedQuery`; `singleRowMode` is
`(bool) info[2]->Int32Value ()`. -/
def DispatchParameterizedQuery (info : List JsValue) (singleRowMode : Bool) (isPrepared : Bool)
    (w : World) : Option String × World :=
  match arg info 0 with
  | JsValue.string s =>
    match arg info 1 with
    | JsValue.array jsParams =>
      let len := toInt32 jsParams.length
      match ArgToCStringArray jsParams with
      | none => (none, { w with halted := true })
      | some none =>
        (some "Unable to allocate char **paramValues from Local<Array> of v8 params", w)
      | some (some paramValues) =>
        let queryText := MallocCString s
        let result :=
          if isPrepared then SendPreparedQuery queryText len paramValues singleRowMode w
          else SendQueryParams queryText len paramValues singleRowMode w
        if result.1 = 1 then (none, result.2)
        else (some "Postgres returned non-1 result from query dispatch.", EmitLastError result.2)
    | _ => (some "Values must be an array", w)
  | _ => (some "First parameter must be a string", w)

def NAN_METHOD_SendQueryWithParams (info : List JsValue) (singleRowMode : Bool) (w : World) :
    Option String × World :=
  DispatchParameterizedQuery info singleRowMode false w

def NAN_METHOD_SendQueryPrepared (info : List JsValue) (singleRowMode : Bool) (w : World) :
    Option String × World :=
  DispatchParameterizedQuery info singleRowMode true w

def NAN_METHOD_End (w : World) : Option String × World :=
  (none, End w)

def NAN_METHOD_SendCopyFromChunk (info : List JsValue) (w : World) : Option String × World :=
  if info.length < 1 && !(arg info 0 matches JsValue.buffer _) then
    (some "SendCopyFromChunk requires 1 Buffer argument", w)
  else (none, SendCopyFromChunk (bufferData (arg info 0)) w)

def NAN_METHOD_EndCopyFrom (info : List JsValue) (w : World) : Option String × World :=
  let error_msg : Option String :=
    match arg info 0 with
    | JsValue.string s => some (MallocCString s)
    | _ => none
  (none, EndCopyFrom error_msg w)

/-! ## Sequences of operations -/

/-- The public operations of the object and the callbacks it receives. -/
inductive Op where
  | connect (info : List JsValue)
  | _sendQuery (info : List JsValue) (singleRowMode : Bool)
  | _sendQueryWithParams (info : List JsValue) (singleRowMode : Bool)
  | _sendPrepare (queryName queryText : String) (length : Int) (singleRowMode : Bool)
  | _sendQueryPrepared (info : List JsValue) (singleRowMode : Bool)
  | cancel
  | end_
  | _sendCopyFromChunk (info : List JsValue)
  | _endCopyFrom (info : List JsValue)
  | io_event (revents : Nat)
  | notice (message : String)

/-- The code an operation runs; an exception goes to the JavaScript caller. -/
def Op.exec (w : World) : Op → World
  | Op.connect info => (NAN_METHOD_Connect info w).2
  | Op._sendQuery info singleRowMode => (NAN_METHOD_SendQuery info singleRowMode w).2
  | Op._sendQueryWithParams info singleRowMode =>
    (NAN_METHOD_SendQueryWithParams info singleRowMode w).2
  | Op._sendPrepare queryName queryText length singleRowMode =>
    (NAN_METHOD_SendPrepare queryName queryText length singleRowMode w).2
  | Op._sendQueryPrepared info singleRowMode =>
    (NAN_METHOD_SendQueryPrepared info singleRowMode w).2
  | Op.cancel => (NAN_METHOD_Cancel w).2
  | Op.end_ => (NAN_METHOD_End w).2
  | Op._sendCopyFromChunk info => (NAN_METHOD_SendCopyFromChunk info w).2
  | Op._endCopyFrom info => (NAN_METHOD_EndCopyFrom info w).2
  | Op.io_event revents => HandleIOEvent revents w
  | Op.notice message => HandleNotice message w

/-- One operation: it runs its code while the process runs, and nothing is done
once the process is halted. -/
def step (w : World) (op : Op) : World :=
  if w.halted then w else op.exec w

/-- A finite sequence of operations, applied in order. -/
def run (w : World) (ops : List Op) : World :=
  ops.foldl step w

/-! ## Notions used to state the properties -/

/-- The flags the interest discipline is about: `ioInitialized_`, `reading_`,
`writing_`. -/
def World.interest (w : World) : Bool × Bool × Bool :=
  (w.conn.ioInitialized_, w.conn.reading_, w.conn.writing_)

/-- Read interest and write interest are not both set. -/
def Exclusive (w : World) : Prop :=
  ¬ (w.conn.reading_ = true ∧ w.conn.writing_ = true)

/-- Once the poll handles are initialised, the interests are exclusive. -/
def ExclusiveOnceInitialized (w : World) : Prop :=
  w.conn.ioInitialized_ = true → Exclusive w

/-- Before the poll handles are initialised no read interest is registered. -/
def Quiet (w : World) : Prop :=
  w.conn.ioInitialized_ = false → w.conn.reading_ = false

/-- Whether the environment can deliver an operation to the object in state
`w`.  libuv runs `io_event` only for a poll handle that `uv_poll_init` has
initialised, which `Connect` does right before it sets `ioInitialized_`; the
methods can be called at any time. -/
def Op.deliverable (w : World) : Op → Bool
  | Op.io_event _ => w.conn.ioInitialized_
  | _ => true

/-- A sequence of operations the object can receive, from state `w` on. -/
def receivable : World → List Op → Bool
  | _, [] => true
  | w, op :: ops => op.deliverable w && receivable (step w op) ops

/-- A result on which `HandleErrorResult` does not return: a fatal error with a
primary message. -/
def PGresult.fatal (result : PGresult) : Bool :=
  result.resultStatus = ExecStatusType.PGRES_FATAL_ERROR &&
    (result.resultErrorField DiagField.PG_DIAG_MESSAGE_PRIMARY).isSome

/-- The notifications the engine has pending: the answers `PQnotifies` will
give up to its first NULL. -/
def pendingNotifications : List (Option PGnotify) → List PGnotify
  | some notify :: rest => notify :: pendingNotifications rest
  | _ => []

/-- The event a notification is delivered as: its channel and its payload. -/
def notificationEvent (notify : PGnotify) : Event :=
  Event.notification notify.relname notify.extra

/-- The row description of a result: name and type id of every field, in
field order. -/
def rowDescriptionOf (result : PGresult) : List (String × Int) :=
  (List.range result.nfields).map (fun i => (result.fname i, Int.ofNat (result.ftype i)))

/-- The row description the code emits: the type id of every field goes
through an `int`. -/
def emittedRowDescription (result : PGresult) : List (String × Int) :=
  (List.range result.nfields).map (fun i => (result.fname i, toInt32 (result.ftype i)))

/-- The values of tuple `r` of a result: one per field, in field order, null
where the engine reports null. -/
def rowOf (result : PGresult) (r : Nat) : List (Option String) :=
  (List.range result.nfields).map
    (fun f => if result.getisnull r f then none else some (result.getvalue r f))

/-- The calls logged between two states of the same run. -/
def callsSince (w0 w1 : World) : List Call :=
  w1.calls.drop w0.calls.length

/-- The events emitted between two states of the same run. -/
def eventsSince (w0 w1 : World) : List Event :=
  w1.events.drop w0.events.length

/-- The four send primitives of the engine. -/
def Fn.isSend : Fn → Bool
  | Fn.PQsendQuery _ => true
  | Fn.PQsendQueryParams _ _ _ => true
  | Fn.PQsendPrepare _ _ _ => true
  | Fn.PQsendQueryPrepared _ _ _ => true
  | _ => false

/-- The flags of the object other than the two interest flags. -/
def Connection.modeFlags (c : Connection) : Bool × Bool × Bool × Bool × Bool :=
  (c.connecting_, c.ioInitialized_, c.copyOutMode_, c.copyInMode_, c.ended_)

/-- All seven flags of the object. -/
def Connection.flags (c : Connection) : Bool × Bool × Bool × Bool × Bool × Bool × Bool :=
  (c.connecting_, c.ioInitialized_, c.copyOutMode_, c.copyInMode_, c.reading_, c.writing_,
    c.ended_)

/-- The event a copy chunk is delivered as: the first `copied` bytes of the
buffer the engine handed out. -/
def copyDataEvent (x : CopyResp) : Event :=
  Event.copyData (x.buffer.take x.copied.toNat)

/-- The logs of `w1` extend those of `w` by calls of functions that all
satisfy `Pc` and by events that all satisfy `Pe`. -/
def Extends (Pc : Fn → Prop) (Pe : Event → Prop) (w w1 : World) : Prop :=
  ∃ cs es, w1.calls = w.calls ++ cs ∧ w1.events = w.events ++ es ∧
    (∀ c ∈ cs, Pc c.fn) ∧ (∀ e ∈ es, Pe e)

/-- The events `HandleResult` emits for a result other than a copy-in result:
row description, row, command status, copy-out response, copy data. -/
def Event.isData : Event → Bool
  | Event._rowDescription _ => true
  | Event._row _ => true
  | Event._cmdStatus _ _ => true
  | Event.copyOutResponse => true
  | Event.copyData _ => true
  | _ => false

/-- Notification events. -/
def Event.isNotification : Event → Bool
  | Event.notification _ _ => true
  | _ => false

/-- Calls of `PQgetResult`, whatever they return. -/
def Fn.isGetResult : Fn → Bool
  | Fn.PQgetResult _ => true
  | _ => false

/-- The calls that fetch a result, a copy chunk or a notification. -/
def Fn.isFetch : Fn → Bool
  | Fn.PQgetResult _ => true
  | Fn.PQgetCopyData => true
  | Fn.PQnotifies => true
  | _ => false

/-- Calls of `PQgetResult` that returned a copy-in result. -/
def Fn.isCopyInFetch : Fn → Bool
  | Fn.PQgetResult (some ExecStatusType.PGRES_COPY_IN) => true
  | _ => false

/-- A stretch of a cycle without a copy-in fetch: no such call, no
`copyInResponse` event. -/
def NoCopyIn (cs : List Call) (es : List Event) : Prop :=
  (∀ c ∈ cs, c.fn.isCopyInFetch = false) ∧ Event.copyInResponse ∉ es

/-- A stretch of a cycle that ends with a copy-in fetch: the fetch is the last
call and the only copy-in fetch, one `copyInResponse` event is emitted and no
`_readyForQuery` event. -/
def EndsInCopyIn (cs : List Call) (es : List Event) : Prop :=
  ∃ pre c, cs = pre ++ [c] ∧ c.fn.isCopyInFetch = true ∧
    (∀ x ∈ pre, x.fn.isCopyInFetch = false) ∧ es.count Event.copyInResponse = 1 ∧
    Event._readyForQuery ∉ es

/-! ## Concrete inputs -/

/-- A handle on which connecting succeeds: the status is not bad, non-blocking
mode is accepted, the socket is 5, the handshake asks for a read and is then
done, and sends are accepted. -/
def connectedHandle : PGconn :=
  { PGconn.quiet with
    status := [ConnStatusType.CONNECTION_STARTED], setnonblocking := [0], socket := [5],
    connectPoll := [PostgresPollingStatusType.PGRES_POLLING_READING,
      PostgresPollingStatusType.PGRES_POLLING_OK],
    send := [1, 1, 1, 1] }

/-- A result with two fields and two tuples; the second value of the second
tuple is null. -/
def twoRows : PGresult :=
  { resultStatus := ExecStatusType.PGRES_TUPLES_OK,
    nfields := 2,
    fname := fun i => if i = 0 then "id" else "name",
    ftype := fun i => if i = 0 then 23 else 25,
    ntuples := 2,
    getisnull := fun r f => r = 1 && f = 1,
    getvalue := fun r f => if f = 0 then (if r = 0 then "1" else "2") else (if r = 0 then "a" else ""),
    cmdStatus := "SELECT 2",
    cmdTuples := "2",
    resultErrorField := fun _ => none }

/-- A connected object with no interest flag but `reading_` set, on a given
handle. -/
def World.idle (c : PGconn) : World :=
  { conn := { connection_ := some c, connecting_ := false, ioInitialized_ := true,
              copyOutMode_ := false, copyInMode_ := false, reading_ := true,
              writing_ := false, ended_ := false },
    nullConn := PGconn.quiet, connectStart := [], events := [], calls := [],
    halted := false }

/-- A result that announces the copy-in mode. -/
def copyInResult : PGresult :=
  { resultStatus := ExecStatusType.PGRES_COPY_IN, nfields := 0, fname := fun _ => "",
    ftype := fun _ => 0, ntuples := 0, getisnull := fun _ _ => false,
    getvalue := fun _ _ => "", cmdStatus := "", cmdTuples := "",
    resultErrorField := fun _ => none }

/-- A run that ends connected and idle: connect and the handshake. -/
def connectedRun : World :=
  run (World.fresh PGconn.quiet [some connectedHandle])
    [Op.connect [JsValue.string "host=db"], Op.io_event UV_WRITABLE, Op.io_event UV_READABLE]

/-- An object in the copy-out mode whose engine has two chunks and then the
end of the copy stream. -/
def copyOutWorld : World :=
  { conn := { connection_ := some { PGconn.quiet with
                getCopyData := [{ copied := 3, buffer := [1, 2, 3] },
                  { copied := 2, buffer := [4, 5] }, { copied := -1, buffer := [] }] },
              connecting_ := false, ioInitialized_ := true, copyOutMode_ := true,
              copyInMode_ := false, reading_ := true, writing_ := false, ended_ := false },
    nullConn := PGconn.quiet, connectStart := [], events := [Event.copyOutResponse],
    calls := [], halted := false }

/-- An object that sent a `COPY ... FROM STDIN` query and whose engine now
holds the copy-in result. -/
def copyInPending : World :=
  World.idle { PGconn.quiet with getResult := [some copyInResult] }

/-- An idle connected object listening on a channel: two notifications are
pending at the engine, and nothing else. -/
def listening : World :=
  World.idle { PGconn.quiet with
    notifies := [some { relname := "jobs", extra := "7" }, some { relname := "jobs", extra := "8" }] }

/-- A connected object whose socket broke: the run of a connect and its
handshake on a handle whose `PQconsumeInput` then fails and which holds the
error text of the failure.  Through a NULL handle the engine answers
`PQerrorMessage` with its fixed text. -/
def brokenSocket : World :=
  run
    (World.fresh { PGconn.quiet with errorMessage := ["connection pointer is NULL"] }
      [some { connectedHandle with
        consumeInput := [0],
        errorMessage := ["server closed the connection unexpectedly"] }])
    [Op.connect [JsValue.string "host=db"], Op.io_event UV_WRITABLE, Op.io_event UV_READABLE]

/-- An object in the handshake, right after a successful `connect`. -/
def handshaking (c : PGconn) : World :=
  { conn := { connection_ := some c, connecting_ := true, ioInitialized_ := true,
              copyOutMode_ := false, copyInMode_ := false, reading_ := false,
              writing_ := true, ended_ := false },
    nullConn := PGconn.quiet, connectStart := [], events := [], calls := [],
    halted := false }


/-- A handle on which connecting starts and the handshake then fails. -/
def failingHandle : PGconn :=
  { connectedHandle with
    connectPoll := [PostgresPollingStatusType.PGRES_POLLING_FAILED],
    errorMessage := ["could not connect to server"] }

/-- A run whose handshake fails: a connect that succeeds, and a first callback
to which `PQconnectPoll` answers `PGRES_POLLING_FAILED`. -/
def failedHandshake : World :=
  run
    (World.fresh PGconn.quiet
      [some failingHandle])
    [Op.connect [JsValue.string "host=db"], Op.io_event UV_WRITABLE]


/-- The lowercase hexadecimal digit of a value below sixteen, as the words of
the specification have it: `0` to `9`, then `a` to `f`. -/
def hexDigit (d : Nat) : Char :=
  if d < 10 then Char.ofNat (48 + d) else Char.ofNat (87 + d)

/-- The two hexadecimal digits of a byte, high nibble first; an element of a
buffer stands for the byte `b % 256`. -/
def hexPair (b : Nat) : List Char :=
  [hexDigit (b % 256 / 16), hexDigit (b % 256 % 16)]

/-- The hex-escaped text of a buffer, as the words of the specification have
it: a backslash, an `x`, and the two digits of every byte in buffer order. -/
def hexText (data : Bytes) : List Char :=
  Char.ofNat 92 :: 'x' :: data.flatMap hexPair

/-- A result with rows whose one field `geom` has a type id above `2^31`, as
the engine gives to types created late in the life of a database; one tuple. -/
def wideOid : PGresult :=
  { resultStatus := ExecStatusType.PGRES_TUPLES_OK,
    nfields := 1,
    fname := fun _ => "geom",
    ftype := fun _ => 3000000000,
    ntuples := 1,
    getisnull := fun _ _ => false,
    getvalue := fun _ _ => "0101",
    cmdStatus := "SELECT 1",
    cmdTuples := "1",
    resultErrorField := fun _ => none }

/-- A connected object that sent a query and flushed it, and whose engine now
holds the result `wideOid`: the run of a connect, its handshake, the query and
the write-readiness callback that follows. -/
def wideOidPending : World :=
  run (World.fresh PGconn.quiet [some { connectedHandle with getResult := [some wideOid, none] }])
    [Op.connect [JsValue.string "host=db"], Op.io_event UV_WRITABLE, Op.io_event UV_READABLE,
     Op._sendQuery [JsValue.string "SELECT geom FROM t"] false, Op.io_event UV_WRITABLE]

/-- The result of a query that failed: `PGRES_FATAL_ERROR`, with its primary
message, severity and SQLSTATE. -/
def errorResult : PGresult :=
  { resultStatus := ExecStatusType.PGRES_FATAL_ERROR, nfields := 0, fname := fun _ => "",
    ftype := fun _ => 0, ntuples := 0, getisnull := fun _ _ => false,
    getvalue := fun _ _ => "", cmdStatus := "", cmdTuples := "",
    resultErrorField := fun field =>
      match field with
      | DiagField.PG_DIAG_MESSAGE_PRIMARY => some "relation \"t\" does not exist"
      | DiagField.PG_DIAG_SEVERITY => some "ERROR"
      | DiagField.PG_DIAG_SQLSTATE => some "42P01"
      | _ => none }

/-- A connected object that sent a query and flushed it, and whose engine now
holds the error result of the query and one notification: the run of a connect,
its handshake, the query and the write-readiness callback that follows. -/
def errorPending : World :=
  run
    (World.fresh PGconn.quiet
      [some { connectedHandle with
        getResult := [some errorResult, none],
        notifies := [some { relname := "jobs", extra := "7" }] }])
    [Op.connect [JsValue.string "host=db"], Op.io_event UV_WRITABLE, Op.io_event UV_READABLE,
     Op._sendQuery [JsValue.string "SELECT * FROM t"] false, Op.io_event UV_WRITABLE]

/-! # Properties -/

/-! ## Basic facts: what the primitives leave alone -/

@[simp] theorem engine_setEngine (w : World) (c : PGconn) : (w.setEngine c).engine = c := by
  unfold World.setEngine World.engine
  cases h : w.conn.connection_ <;> simp [h]

@[simp] theorem setEngine_connecting (w : World) (c : PGconn) :
    (w.setEngine c).conn.connecting_ = w.conn.connecting_ := by
  unfold World.setEngine; cases w.conn.connection_ <;> rfl

@[simp] theorem setEngine_ioInitialized (w : World) (c : PGconn) :
    (w.setEngine c).conn.ioInitialized_ = w.conn.ioInitialized_ := by
  unfold World.setEngine; cases w.conn.connection_ <;> rfl

@[simp] theorem setEngine_copyOutMode (w : World) (c : PGconn) :
    (w.setEngine c).conn.copyOutMode_ = w.conn.copyOutMode_ := by
  unfold World.setEngine; cases w.conn.connection_ <;> rfl

@[simp] theorem setEngine_copyInMode (w : World) (c : PGconn) :
    (w.setEngine c).conn.copyInMode_ = w.conn.copyInMode_ := by
  unfold World.setEngine; cases w.conn.connection_ <;> rfl

@[simp] theorem setEngine_reading (w : World) (c : PGconn) :
    (w.setEngine c).conn.reading_ = w.conn.reading_ := by
  unfold World.setEngine; cases w.conn.connection_ <;> rfl

@[simp] theorem setEngine_writing (w : World) (c : PGconn) :
    (w.setEngine c).conn.writing_ = w.conn.writing_ := by
  unfold World.setEngine; cases w.conn.connection_ <;> rfl

@[simp] theorem setEngine_ended (w : World) (c : PGconn) :
    (w.setEngine c).conn.ended_ = w.conn.ended_ := by
  unfold World.setEngine; cases w.conn.connection_ <;> rfl

@[simp] theorem setEngine_isSome (w : World) (c : PGconn) :
    (w.setEngine c).conn.connection_.isSome = w.conn.connection_.isSome := by
  unfold World.setEngine; cases h : w.conn.connection_ <;> simp [h]

@[simp] theorem setEngine_events (w : World) (c : PGconn) :
    (w.setEngine c).events = w.events := by
  unfold World.setEngine; cases w.conn.connection_ <;> rfl

@[simp] theorem setEngine_calls (w : World) (c : PGconn) :
    (w.setEngine c).calls = w.calls := by
  unfold World.setEngine; cases w.conn.connection_ <;> rfl

@[simp] theorem setEngine_connectStart (w : World) (c : PGconn) :
    (w.setEngine c).connectStart = w.connectStart := by
  unfold World.setEngine; cases w.conn.connection_ <;> rfl

@[simp] theorem setEngine_halted (w : World) (c : PGconn) :
    (w.setEngine c).halted = w.halted := by
  unfold World.setEngine; cases w.conn.connection_ <;> rfl

@[simp] theorem log_halted (w : World) (f : Fn) : (w.log f).halted = w.halted := rfl

@[simp] theorem Emit_halted (e : Event) (w : World) : (Emit e w).halted = w.halted := rfl

@[simp] theorem log_conn (w : World) (f : Fn) : (w.log f).conn = w.conn := rfl

@[simp] theorem log_events (w : World) (f : Fn) : (w.log f).events = w.events := rfl

@[simp] theorem log_engine (w : World) (f : Fn) : (w.log f).engine = w.engine := rfl

@[simp] theorem log_calls (w : World) (f : Fn) :
    (w.log f).calls = w.calls ++ [{ live := w.conn.connection_.isSome, fn := f }] := rfl

@[simp] theorem Emit_conn (e : Event) (w : World) : (Emit e w).conn = w.conn := rfl

@[simp] theorem Emit_engine (e : Event) (w : World) : (Emit e w).engine = w.engine := rfl

@[simp] theorem Emit_events (e : Event) (w : World) : (Emit e w).events = w.events ++ [e] := rfl

@[simp] theorem Emit_calls (e : Event) (w : World) : (Emit e w).calls = w.calls := rfl

@[simp] theorem interest_setEngine (w : World) (c : PGconn) :
    (w.setEngine c).interest = w.interest := by
  simp [World.interest]

@[simp] theorem interest_log (w : World) (f : Fn) : (w.log f).interest = w.interest := rfl

@[simp] theorem interest_Emit (e : Event) (w : World) : (Emit e w).interest = w.interest := rfl

theorem ExclusiveOnceInitialized_of_interest {w w1 : World} (h : w1.interest = w.interest)
    (hw : ExclusiveOnceInitialized w) : ExclusiveOnceInitialized w1 := by
  simp only [World.interest, Prod.mk.injEq] at h
  unfold ExclusiveOnceInitialized Exclusive at *
  rw [h.1, h.2.1, h.2.2]
  exact hw

/-! ## The interest flags along the code -/

@[simp] theorem interest_PQstatus (w : World) : (PQstatus w).2.interest = w.interest := by
  simp [PQstatus]

@[simp] theorem interest_PQsetnonblocking (w : World) :
    (PQsetnonblocking w).2.interest = w.interest := by
  simp [PQsetnonblocking]

@[simp] theorem interest_PQsocket (w : World) : (PQsocket w).2.interest = w.interest := by
  simp [PQsocket]

@[simp] theorem interest_PQconnectPoll (w : World) :
    (PQconnectPoll w).2.interest = w.interest := by
  simp [PQconnectPoll]

@[simp] theorem interest_PQsend (f : Fn) (w : World) : (PQsend f w).2.interest = w.interest := by
  simp [PQsend]

@[simp] theorem interest_PQcancel (w : World) : (PQcancel w).2.interest = w.interest := by
  simp [PQcancel]

@[simp] theorem interest_PQflush (w : World) : (PQflush w).2.interest = w.interest := by
  simp [PQflush]

@[simp] theorem interest_PQconsumeInput (w : World) :
    (PQconsumeInput w).2.interest = w.interest := by
  simp [PQconsumeInput]

@[simp] theorem interest_PQisBusy (w : World) : (PQisBusy w).2.interest = w.interest := by
  simp [PQisBusy]

@[simp] theorem interest_PQgetResult (w : World) : (PQgetResult w).2.interest = w.interest := by
  simp [PQgetResult]

@[simp] theorem interest_PQgetCopyData (w : World) :
    (PQgetCopyData w).2.interest = w.interest := by
  simp [PQgetCopyData]

@[simp] theorem interest_PQnotifies (w : World) : (PQnotifies w).2.interest = w.interest := by
  simp [PQnotifies]

@[simp] theorem interest_PQerrorMessage (w : World) :
    (PQerrorMessage w).2.interest = w.interest := by
  simp [PQerrorMessage]

@[simp] theorem interest_EmitLastError (w : World) : (EmitLastError w).interest = w.interest := by
  simp [EmitLastError, EmitError]

@[simp] theorem interest_DestroyConnection (w : World) :
    (DestroyConnection w).interest = w.interest := by
  unfold DestroyConnection
  split <;> rfl

@[simp] theorem interest_enableSingleRowMode (b : Bool) (w : World) :
    (enableSingleRowMode b w).interest = w.interest := by
  unfold enableSingleRowMode
  split <;> rfl

@[simp] theorem interest_Flush (w : World) : (Flush w).interest = w.interest := by
  simp only [Flush]
  split <;> simp

theorem interest_HandleCopyOut_loop (fuel : Nat) (w : World) :
    (HandleCopyOut.loop fuel w).2.interest = w.interest := by
  induction fuel generalizing w with
  | zero => rfl
  | succ n ih =>
    simp only [HandleCopyOut.loop]
    split
    · rw [ih]; simp
    · simp

@[simp] theorem interest_HandleCopyOut (w : World) : (HandleCopyOut w).2.interest = w.interest := by
  have h := interest_HandleCopyOut_loop (w.engine.getCopyData.length + 1) w
  simp only [HandleCopyOut]
  split_ifs <;> exact h

@[simp] theorem interest_HandleTuplesResult (result : PGresult) (w : World) :
    (HandleTuplesResult result w).interest = w.interest := by
  simp only [HandleTuplesResult]
  generalize List.range result.ntuples = l
  induction l generalizing w with
  | nil => rfl
  | cons a t ih => simp only [List.foldl_cons]; rw [ih]; rfl

@[simp] theorem interest_HandleErrorResult (result : PGresult) (w : World) :
    (HandleErrorResult result w).interest = w.interest := by
  simp only [HandleErrorResult]
  split <;> rfl

@[simp] theorem interest_HandleResult (result : PGresult) (w : World) :
    (HandleResult result w).2.interest = w.interest := by
  simp only [HandleResult]
  split <;> simp [EmitCommandMetaData, EmitRowDescription] <;> rfl

theorem interest_resultLoop (fuel : Nat) (d : Bool) (w : World) :
    (HandleIOEvent.resultLoop fuel d w).2.interest = w.interest := by
  induction fuel generalizing w d with
  | zero => rfl
  | succ n ih =>
    simp only [HandleIOEvent.resultLoop]
    split
    · simp
    · split
      · simp
      · split
        · simp
        · rw [ih]; simp

@[simp] theorem interest_results (w : World) : (HandleIOEvent.results w).interest = w.interest := by
  simp only [HandleIOEvent.results]
  split
  · split
    · split
      · simp [interest_resultLoop]
      · split <;> simp [interest_resultLoop]
    · simp
  · rfl

theorem interest_notifyLoop (fuel : Nat) (w : World) :
    (HandleIOEvent.notifyLoop fuel w).interest = w.interest := by
  induction fuel generalizing w with
  | zero => rfl
  | succ n ih =>
    simp only [HandleIOEvent.notifyLoop]
    split
    · simp
    · rw [ih]; simp

theorem exclusive_StartWrite (w : World) : ExclusiveOnceInitialized (StartWrite w) := by
  obtain ⟨⟨c, cg, io, co, ci, r, wr, e⟩, n, cs, ev, cl, ht⟩ := w
  cases io <;> cases r <;>
    simp [StartWrite, StopRead, World.log, ExclusiveOnceInitialized, Exclusive]

theorem exclusive_StartRead (w : World) : ExclusiveOnceInitialized (StartRead w) := by
  obtain ⟨⟨c, cg, io, co, ci, r, wr, e⟩, n, cs, ev, cl, ht⟩ := w
  cases io <;> cases wr <;>
    simp [StartRead, StopWrite, World.log, ExclusiveOnceInitialized, Exclusive]

theorem exclusive_StopRead {w : World} (h : ExclusiveOnceInitialized w) :
    ExclusiveOnceInitialized (StopRead w) := by
  obtain ⟨⟨c, cg, io, co, ci, r, wr, e⟩, n, cs, ev, cl, ht⟩ := w
  cases io <;> cases r <;>
    simp_all [StopRead, World.log, ExclusiveOnceInitialized, Exclusive]

theorem exclusive_StopWrite {w : World} (h : ExclusiveOnceInitialized w) :
    ExclusiveOnceInitialized (StopWrite w) := by
  obtain ⟨⟨c, cg, io, co, ci, r, wr, e⟩, n, cs, ev, cl, ht⟩ := w
  cases io <;> cases wr <;>
    simp_all [StopWrite, World.log, ExclusiveOnceInitialized, Exclusive]

theorem exclusive_End {w : World} (h : ExclusiveOnceInitialized w) :
    ExclusiveOnceInitialized (End w) := by
  have h2 := exclusive_StopWrite (exclusive_StopRead h)
  refine ExclusiveOnceInitialized_of_interest ?_ h2
  simp only [End]
  show (Emit Event._end (DestroyConnection (StopWrite (StopRead w)))).interest = _
  simp

theorem exclusive_Connect (conninfo : String) {w : World} (h : ExclusiveOnceInitialized w) :
    ExclusiveOnceInitialized (Connect conninfo w).2 := by
  simp only [Connect]
  split
  · exact h
  · have h1 : ∀ c : Option PGconn × World,
        ({ c.2 with conn := { c.2.conn with connection_ := c.1 } } : World).interest =
          c.2.interest := fun _ => rfl
    have h0 : (PQconnectStart conninfo w).2.interest = w.interest := rfl
    split
    · refine ExclusiveOnceInitialized_of_interest ?_ h
      rw [interest_PQstatus, h1, h0]
    · split
      · refine ExclusiveOnceInitialized_of_interest ?_ h
        rw [interest_PQsetnonblocking, interest_PQstatus, h1, h0]
      · split
        · refine ExclusiveOnceInitialized_of_interest ?_ h
          rw [interest_PQsocket, interest_PQsetnonblocking, interest_PQstatus, h1, h0]
        · exact exclusive_StartWrite _

theorem exclusive_HandleConnectionIO {w : World} (h : ExclusiveOnceInitialized w) :
    ExclusiveOnceInitialized ( HandleConnectionIO w) := by
  simp only [ HandleConnectionIO]
  have hp : ExclusiveOnceInitialized (PQconnectPoll w).2 :=
    ExclusiveOnceInitialized_of_interest (interest_PQconnectPoll w) h
  split
  · exact exclusive_StartRead _
  · exact exclusive_StartWrite _
  · exact ExclusiveOnceInitialized_of_interest (interest_EmitLastError _)
      (exclusive_StopWrite (exclusive_StopRead hp))
  · exact ExclusiveOnceInitialized_of_interest (interest_Emit _ _) (exclusive_StartRead _)
  · exact hp

theorem exclusive_writable (revents : Nat) {w : World} (h : ExclusiveOnceInitialized w) :
    ExclusiveOnceInitialized (HandleIOEvent.writable revents w) := by
  simp only [HandleIOEvent.writable]
  split
  · split
    · exact exclusive_StartRead _
    · exact ExclusiveOnceInitialized_of_interest (interest_PQflush w) h
  · exact h

theorem exclusive_HandleIOEvent (revents : Nat) {w : World} (h : ExclusiveOnceInitialized w) :
    ExclusiveOnceInitialized (HandleIOEvent revents w) := by
  simp only [HandleIOEvent]
  split
  · exact exclusive_HandleConnectionIO h
  · have hc : ExclusiveOnceInitialized (PQconsumeInput w).2 :=
      ExclusiveOnceInitialized_of_interest (interest_PQconsumeInput w) h
    split
    · split
      · exact ExclusiveOnceInitialized_of_interest (interest_EmitLastError _) (exclusive_End hc)
      · have h1 : (if (PQconsumeInput w).2.conn.copyOutMode_ then
            (HandleCopyOut (PQconsumeInput w).2).2 else (PQconsumeInput w).2).interest =
            (PQconsumeInput w).2.interest := by
          split
          · exact interest_HandleCopyOut _
          · rfl
        generalize (if (PQconsumeInput w).2.conn.copyOutMode_ then
            (HandleCopyOut (PQconsumeInput w).2).2 else (PQconsumeInput w).2) = w1 at h1 ⊢
        have hc1 : ExclusiveOnceInitialized w1 := ExclusiveOnceInitialized_of_interest h1 hc
        split
        · exact ExclusiveOnceInitialized_of_interest (interest_results _) hc1
        · apply exclusive_writable
          refine ExclusiveOnceInitialized_of_interest ?_ hc1
          rw [interest_notifyLoop, interest_results]
    · exact exclusive_writable revents h

theorem exclusive_Dispatch (info : List JsValue) (b p : Bool) {w : World}
    (h : ExclusiveOnceInitialized w) :
    ExclusiveOnceInitialized (DispatchParameterizedQuery info b p w).2 := by
  simp only [DispatchParameterizedQuery]
  split
  · split
    · split
      · exact h
      · exact h
      · have hs : ∀ x : Int × World, ExclusiveOnceInitialized x.2 →
            ExclusiveOnceInitialized
              (if x.1 = 1 then ((none : Option String), x.2)
                else (some "Postgres returned non-1 result from query dispatch.",
                  EmitLastError x.2)).2 := by
          intro x hx
          split
          · exact hx
          · exact ExclusiveOnceInitialized_of_interest (interest_EmitLastError _) hx
        apply hs
        split
        · exact exclusive_StartWrite _
        · exact exclusive_StartWrite _
    · exact h
  · exact h

theorem exclusive_exec (op : Op) {w : World} (h : ExclusiveOnceInitialized w) :
    ExclusiveOnceInitialized (op.exec w) := by
  cases op with
  | connect info =>
    simp only [Op.exec, NAN_METHOD_Connect]
    split
    · rename_i conninfo _
      split
      · refine ExclusiveOnceInitialized_of_interest ?_ (exclusive_Connect (cString conninfo) h)
        simp
      · exact exclusive_Connect _ h
    · exact h
  | _sendQuery info b =>
    simp only [Op.exec, NAN_METHOD_SendQuery]
    split
    · split
      · exact ExclusiveOnceInitialized_of_interest (interest_PQerrorMessage _)
          (exclusive_StartWrite _)
      · exact ExclusiveOnceInitialized_of_interest (interest_Flush _) (exclusive_StartWrite _)
    · exact h
  | _sendQueryWithParams info b => exact exclusive_Dispatch info b false h
  | _sendPrepare a b c d => exact exclusive_StartWrite _
  | _sendQueryPrepared info b => exact exclusive_Dispatch info b true h
  | cancel =>
    simp only [Op.exec, NAN_METHOD_Cancel]
    have hc : ExclusiveOnceInitialized (Cancel w).2 :=
      ExclusiveOnceInitialized_of_interest (interest_log _ _) (exclusive_StartWrite _)
    split
    · refine ExclusiveOnceInitialized_of_interest ?_ hc
      simp
    · exact hc
  | end_ => exact exclusive_End h
  | _sendCopyFromChunk info =>
    simp only [Op.exec, NAN_METHOD_SendCopyFromChunk]
    split
    · exact h
    · exact h
  | _endCopyFrom info => exact h
  | io_event revents => exact exclusive_HandleIOEvent revents h
  | notice message => exact h

theorem exclusive_step (op : Op) {w : World} (h : ExclusiveOnceInitialized w) :
    ExclusiveOnceInitialized (step w op) := by
  simp only [step]
  split
  · exact h
  · exact exclusive_exec op h

theorem exclusive_run (ops : List Op) {w : World} (h : ExclusiveOnceInitialized w) :
    ExclusiveOnceInitialized (run w ops) := by
  induction ops generalizing w with
  | nil => exact h
  | cons op rest ih => exact ih (exclusive_step op h)

/-! ## C1: read interest and write interest -/

theorem Quiet_of_interest {w w1 : World} (h : w1.interest = w.interest) (hw : Quiet w) :
    Quiet w1 := by
  simp only [World.interest, Prod.mk.injEq] at h
  unfold Quiet at *
  rw [h.1, h.2.1]
  exact hw

theorem ioInitialized_of_interest {w w1 : World} (h : w1.interest = w.interest) :
    w1.conn.ioInitialized_ = w.conn.ioInitialized_ := by
  simp only [World.interest, Prod.mk.injEq] at h
  exact h.1

theorem ioInitialized_StartRead (w : World) :
    (StartRead w).conn.ioInitialized_ = w.conn.ioInitialized_ := by
  obtain ⟨⟨c, cg, io, co, ci, r, wr, e⟩, n, cs, ev, cl, ht⟩ := w
  cases io <;> cases wr <;> simp [StartRead, StopWrite, World.log]

theorem ioInitialized_StartWrite (w : World) :
    (StartWrite w).conn.ioInitialized_ = w.conn.ioInitialized_ := by
  obtain ⟨⟨c, cg, io, co, ci, r, wr, e⟩, n, cs, ev, cl, ht⟩ := w
  cases io <;> cases r <;> simp [StartWrite, StopRead, World.log]

theorem ioInitialized_StopRead (w : World) :
    (StopRead w).conn.ioInitialized_ = w.conn.ioInitialized_ := by
  obtain ⟨⟨c, cg, io, co, ci, r, wr, e⟩, n, cs, ev, cl, ht⟩ := w
  cases io <;> cases r <;> simp [StopRead, World.log]

theorem ioInitialized_StopWrite (w : World) :
    (StopWrite w).conn.ioInitialized_ = w.conn.ioInitialized_ := by
  obtain ⟨⟨c, cg, io, co, ci, r, wr, e⟩, n, cs, ev, cl, ht⟩ := w
  cases io <;> cases wr <;> simp [StopWrite, World.log]

theorem ioInitialized_End (w : World) : (End w).conn.ioInitialized_ = w.conn.ioInitialized_ := by
  have h : (End w).interest = (StopWrite (StopRead w)).interest := by
    simp only [End]
    show (Emit Event._end (DestroyConnection (StopWrite (StopRead w)))).interest = _
    simp
  rw [ioInitialized_of_interest h, ioInitialized_StopWrite, ioInitialized_StopRead]

theorem ioInitialized_HandleConnectionIO (w : World) :
    ( HandleConnectionIO w).conn.ioInitialized_ = w.conn.ioInitialized_ := by
  have hp : (PQconnectPoll w).2.conn.ioInitialized_ = w.conn.ioInitialized_ :=
    ioInitialized_of_interest (interest_PQconnectPoll w)
  simp only [ HandleConnectionIO]
  split
  · rw [ioInitialized_StartRead, hp]
  · rw [ioInitialized_StartWrite, hp]
  · rw [ioInitialized_of_interest (interest_EmitLastError _), ioInitialized_StopWrite,
      ioInitialized_StopRead, hp]
  · rw [ioInitialized_of_interest (interest_Emit _ _), ioInitialized_StartRead]
    exact hp
  · exact hp

theorem ioInitialized_writable (revents : Nat) (w : World) :
    (HandleIOEvent.writable revents w).conn.ioInitialized_ = w.conn.ioInitialized_ := by
  simp only [HandleIOEvent.writable]
  split
  · split
    · rw [ioInitialized_StartRead, ioInitialized_of_interest (interest_PQflush w)]
    · exact ioInitialized_of_interest (interest_PQflush w)
  · rfl

theorem ioInitialized_HandleIOEvent (revents : Nat) (w : World) :
    (HandleIOEvent revents w).conn.ioInitialized_ = w.conn.ioInitialized_ := by
  simp only [HandleIOEvent]
  split
  · exact ioInitialized_HandleConnectionIO w
  · have hc : (PQconsumeInput w).2.conn.ioInitialized_ = w.conn.ioInitialized_ :=
      ioInitialized_of_interest (interest_PQconsumeInput w)
    split
    · split
      · rw [ioInitialized_of_interest (interest_EmitLastError _), ioInitialized_End, hc]
      · have h1 : (if (PQconsumeInput w).2.conn.copyOutMode_ then
            (HandleCopyOut (PQconsumeInput w).2).2 else (PQconsumeInput w).2).interest =
            (PQconsumeInput w).2.interest := by
          split
          · exact interest_HandleCopyOut _
          · rfl
        generalize (if (PQconsumeInput w).2.conn.copyOutMode_ then
            (HandleCopyOut (PQconsumeInput w).2).2 else (PQconsumeInput w).2) = w1 at h1 ⊢
        have hc1 : w1.conn.ioInitialized_ = w.conn.ioInitialized_ :=
          (ioInitialized_of_interest h1).trans hc
        split
        · rw [ioInitialized_of_interest (interest_results _), hc1]
        · rw [ioInitialized_writable, ioInitialized_of_interest (interest_notifyLoop _ _),
            ioInitialized_of_interest (interest_results _), hc1]
    · exact ioInitialized_writable revents w

theorem quiet_StartWrite {w : World} (h : Quiet w) : Quiet (StartWrite w) := by
  obtain ⟨⟨c, cg, io, co, ci, r, wr, e⟩, n, cs, ev, cl, ht⟩ := w
  cases io <;> cases r <;> simp_all [StartWrite, StopRead, World.log, Quiet]

theorem quiet_StopRead {w : World} (h : Quiet w) : Quiet (StopRead w) := by
  obtain ⟨⟨c, cg, io, co, ci, r, wr, e⟩, n, cs, ev, cl, ht⟩ := w
  cases io <;> cases r <;> simp_all [StopRead, World.log, Quiet]

theorem quiet_StopWrite {w : World} (h : Quiet w) : Quiet (StopWrite w) := by
  obtain ⟨⟨c, cg, io, co, ci, r, wr, e⟩, n, cs, ev, cl, ht⟩ := w
  cases io <;> cases wr <;> simp_all [StopWrite, World.log, Quiet]

theorem quiet_End {w : World} (h : Quiet w) : Quiet (End w) := by
  refine Quiet_of_interest ?_ (quiet_StopWrite (quiet_StopRead h))
  simp only [End]
  show (Emit Event._end (DestroyConnection (StopWrite (StopRead w)))).interest = _
  simp

theorem quiet_Connect (conninfo : String) {w : World} (h : Quiet w) :
    Quiet (Connect conninfo w).2 := by
  simp only [Connect]
  split
  · exact h
  · have h1 : ∀ c : Option PGconn × World,
        ({ c.2 with conn := { c.2.conn with connection_ := c.1 } } : World).interest =
          c.2.interest := fun _ => rfl
    have h0 : (PQconnectStart conninfo w).2.interest = w.interest := rfl
    split
    · refine Quiet_of_interest ?_ h
      rw [interest_PQstatus, h1, h0]
    · split
      · refine Quiet_of_interest ?_ h
        rw [interest_PQsetnonblocking, interest_PQstatus, h1, h0]
      · split
        · refine Quiet_of_interest ?_ h
          rw [interest_PQsocket, interest_PQsetnonblocking, interest_PQstatus, h1, h0]
        · intro hio
          rw [ioInitialized_StartWrite] at hio
          simp at hio

theorem quiet_Dispatch (info : List JsValue) (b p : Bool) {w : World} (h : Quiet w) :
    Quiet (DispatchParameterizedQuery info b p w).2 := by
  simp only [DispatchParameterizedQuery]
  split
  · split
    · split
      · exact h
      · exact h
      · have hs : ∀ x : Int × World, Quiet x.2 →
            Quiet
              (if x.1 = 1 then ((none : Option String), x.2)
                else (some "Postgres returned non-1 result from query dispatch.",
                  EmitLastError x.2)).2 := by
          intro x hx
          split
          · exact hx
          · exact Quiet_of_interest (interest_EmitLastError _) hx
        have hd : ∀ f : Fn, Quiet (StartWrite (enableSingleRowMode b (PQsend f w).2)) :=
          fun f => quiet_StartWrite (Quiet_of_interest (by simp) h)
        apply hs
        split
        · exact hd _
        · exact hd _
    · exact h
  · exact h

theorem quiet_exec (op : Op) {w : World} (h : Quiet w) (hd : op.deliverable w = true) :
    Quiet (op.exec w) := by
  cases op with
  | connect info =>
    simp only [Op.exec, NAN_METHOD_Connect]
    split
    · rename_i conninfo _
      split
      · refine Quiet_of_interest ?_ (quiet_Connect (cString conninfo) h)
        simp
      · exact quiet_Connect _ h
    · exact h
  | _sendQuery info b =>
    have hd : ∀ f : Fn, Quiet (StartWrite (enableSingleRowMode b (PQsend f w).2)) :=
      fun f => quiet_StartWrite (Quiet_of_interest (by simp) h)
    simp only [Op.exec, NAN_METHOD_SendQuery]
    split
    · split
      · exact Quiet_of_interest (interest_PQerrorMessage _) (hd _)
      · exact Quiet_of_interest (interest_Flush _) (hd _)
    · exact h
  | _sendQueryWithParams info b => exact quiet_Dispatch info b false h
  | _sendPrepare a b c d => exact quiet_StartWrite (Quiet_of_interest (by simp) h)
  | _sendQueryPrepared info b => exact quiet_Dispatch info b true h
  | cancel =>
    simp only [Op.exec, NAN_METHOD_Cancel]
    have hc : Quiet (Cancel w).2 :=
      Quiet_of_interest (interest_log _ _)
        (quiet_StartWrite (Quiet_of_interest (by simp) h))
    split
    · refine Quiet_of_interest ?_ hc
      simp
    · exact hc
  | end_ => exact quiet_End h
  | _sendCopyFromChunk info =>
    simp only [Op.exec, NAN_METHOD_SendCopyFromChunk]
    split
    · exact h
    · exact h
  | _endCopyFrom info => exact h
  | io_event revents =>
    intro hio
    simp only [Op.exec, ioInitialized_HandleIOEvent] at hio
    simp only [Op.deliverable] at hd
    rw [hd] at hio
    exact Bool.noConfusion hio
  | notice message => exact h

theorem exclusive_of_quiet {w : World} (hq : Quiet w) (he : ExclusiveOnceInitialized w) :
    Exclusive w := by
  intro hrw
  cases hio : w.conn.ioInitialized_
  · rw [hq hio] at hrw
    exact Bool.noConfusion hrw.1
  · exact he hio hrw

theorem exclusive_receivable (ops : List Op) :
    ∀ (w : World), Quiet w → ExclusiveOnceInitialized w → receivable w ops = true →
      ∀ k : Nat, Exclusive (run w (ops.take k)) := by
  induction ops with
  | nil =>
    intro w hq he _ k
    simpa [run] using exclusive_of_quiet hq he
  | cons op rest ih =>
    intro w hq he hr k
    simp only [receivable, Bool.and_eq_true] at hr
    cases k with
    | zero => simpa [run] using exclusive_of_quiet hq he
    | succ k =>
      have hq1 : Quiet (step w op) := by
        simp only [step]
        split
        · exact hq
        · exact quiet_exec op hq hr.1
      exact ih (step w op) hq1 (exclusive_step op he) hr.2 k

/-- C1: for every finite sequence of public operations and readiness callbacks
the object can receive when freshly constructed (the callbacks are delivered by
libuv, which has them only for initialised poll handles), with arbitrary engine
answers, `reading_` and `writing_` are not both true after any step. -/
theorem C1_interests_never_both_set (nullConn : PGconn)
    (connectStart : List (Option PGconn)) (ops : List Op)
    (hops : receivable (World.fresh nullConn connectStart) ops = true) (k : Nat) :
    ¬ ((run (World.fresh nullConn connectStart) (ops.take k)).conn.reading_ = true ∧
       (run (World.fresh nullConn connectStart) (ops.take k)).conn.writing_ = true) :=
  exclusive_receivable ops (World.fresh nullConn connectStart) (fun _ => rfl)
    (fun h => by simp [World.fresh, Connection.new] at h) hops k

/-- C1 at a concrete run: a connect that succeeds, the handshake answering
needs-read and then done, a query, and the write-readiness callback that
follows. -/
theorem C1_interests_never_both_set_witness :
    receivable (World.fresh PGconn.quiet [some connectedHandle])
        [Op.connect [JsValue.string "host=db"], Op.io_event UV_WRITABLE,
         Op.io_event UV_READABLE, Op._sendQuery [JsValue.string "SELECT 1"] false,
         Op.io_event UV_WRITABLE] = true ∧
    ¬ ((run (World.fresh PGconn.quiet [some connectedHandle])
        ([Op.connect [JsValue.string "host=db"], Op.io_event UV_WRITABLE,
          Op.io_event UV_READABLE, Op._sendQuery [JsValue.string "SELECT 1"] false,
          Op.io_event UV_WRITABLE].take 5)).conn.reading_ = true ∧
       (run (World.fresh PGconn.quiet [some connectedHandle])
        ([Op.connect [JsValue.string "host=db"], Op.io_event UV_WRITABLE,
          Op.io_event UV_READABLE, Op._sendQuery [JsValue.string "SELECT 1"] false,
          Op.io_event UV_WRITABLE].take 5)).conn.writing_ = true) :=
  ⟨by decide, C1_interests_never_both_set _ _ _ (by decide) 5⟩

/-! ## More basic facts -/

@[simp] theorem engine_mk (w : World) (a b c d e f g : Bool) (cs : List (Option PGconn))
    (ev : List Event) (cl : List Call) (ht : Bool) :
    World.engine ⟨⟨w.conn.connection_, a, b, c, d, e, f, g⟩, w.nullConn, cs, ev, cl, ht⟩ =
      w.engine := rfl

@[simp] theorem engine_mk_conn (w : World) (cs : List (Option PGconn))
    (ev : List Event) (cl : List Call) (ht : Bool) :
    World.engine ⟨w.conn, w.nullConn, cs, ev, cl, ht⟩ = w.engine := rfl

@[simp] theorem log_nullConn (w : World) (f : Fn) : (w.log f).nullConn = w.nullConn := rfl

@[simp] theorem log_connectStart (w : World) (f : Fn) :
    (w.log f).connectStart = w.connectStart := rfl

@[simp] theorem Emit_nullConn (e : Event) (w : World) : (Emit e w).nullConn = w.nullConn := rfl

@[simp] theorem Emit_connectStart (e : Event) (w : World) :
    (Emit e w).connectStart = w.connectStart := rfl

/-! ## C2: the events of a result with rows -/

theorem foldl_append_singleton {α β : Type} (f : α → β) (l : List α) (init : List β) :
    l.foldl (fun acc x => acc ++ [f x]) init = init ++ l.map f := by
  induction l generalizing init with
  | nil => simp
  | cons a t ih => simp [ih]

theorem EmitRowDescription_eq (result : PGresult) (w : World) :
    EmitRowDescription result w =
      Emit (Event._rowDescription (emittedRowDescription result)) w := by
  simp only [EmitRowDescription, emittedRowDescription, foldl_append_singleton, List.nil_append]

theorem toInt32_of_lt (n : Nat) (h : n < 2147483648) : toInt32 n = Int.ofNat n := by
  have h1 : n % 4294967296 = n := Nat.mod_eq_of_lt (by omega)
  simp only [toInt32, h1, h, if_true]

/-- The row description emitted is the one of the result when every type id is
below `2^31`. -/
theorem emittedRowDescription_eq (result : PGresult)
    (h : ∀ i < result.nfields, result.ftype i < 2147483648) :
    emittedRowDescription result = rowDescriptionOf result := by
  simp only [emittedRowDescription, rowDescriptionOf]
  apply List.map_congr_left
  intro i hi
  rw [toInt32_of_lt _ (h i (List.mem_range.mp hi))]

theorem foldl_Emit {α : Type} (f : α → Event) (l : List α) (w : World) :
    l.foldl (fun w1 x => Emit (f x) w1) w = { w with events := w.events ++ l.map f } := by
  induction l generalizing w with
  | nil => simp
  | cons a t ih =>
    simp only [List.foldl_cons, ih, List.map_cons]
    simp [Emit]

theorem HandleTuplesResult_eq (result : PGresult) (w : World) :
    HandleTuplesResult result w =
      { w with events := w.events ++
          (List.range result.ntuples).map (fun r => Event._row (rowOf result r)) } := by
  have hrow : ∀ r : Nat,
      (List.range result.nfields).foldl
        (fun row fieldNumber =>
          if result.getisnull r fieldNumber then row ++ [none]
          else row ++ [some (result.getvalue r fieldNumber)]) [] = rowOf result r := by
    intro r
    have := foldl_append_singleton
      (fun f => if result.getisnull r f then none else some (result.getvalue r f))
      (List.range result.nfields) []
    simp only [List.nil_append] at this
    rw [rowOf, ← this]
    congr 1
    funext row fieldNumber
    split <;> rfl
  simp only [HandleTuplesResult, hrow]
  exact foldl_Emit (fun r => Event._row (rowOf result r)) _ w

theorem events_notifyLoop (fuel : Nat) (w : World) (hfuel : w.engine.notifies.length < fuel) :
    (HandleIOEvent.notifyLoop fuel w).events =
      w.events ++ (pendingNotifications w.engine.notifies).map notificationEvent := by
  induction fuel generalizing w with
  | zero => omega
  | succ n ih =>
    simp only [HandleIOEvent.notifyLoop, PQnotifies]
    cases hs : w.engine.notifies with
    | nil => simp [pendingNotifications]
    | cons a t =>
      cases a with
      | none => simp [pendingNotifications]
      | some notify =>
        simp only [List.headD_cons, List.tail_cons]
        rw [ih]
        · simp [pendingNotifications, notificationEvent]
        · rw [hs] at hfuel
          simp at hfuel ⊢
          omega

theorem events_writable (revents : Nat) (w : World) :
    (HandleIOEvent.writable revents w).events = w.events := by
  simp only [HandleIOEvent.writable]
  split
  · split
    · simp only [StartRead, StopWrite, PQflush]
      split
      · split <;> simp
      · simp
    · simp [PQflush]
  · rfl

theorem results_rows (w : World) (result : PGresult) (rest : List (Option PGresult))
    (hrun : w.halted = false)
    (hin : w.conn.copyInMode_ = false) (hout : w.conn.copyOutMode_ = false)
    (hbusy : w.engine.isBusy.headD 0 = 0)
    (hres : w.engine.getResult = some result :: rest) (hrest : rest.headD none = none)
    (hst : result.resultStatus = ExecStatusType.PGRES_TUPLES_OK ∨
      result.resultStatus = ExecStatusType.PGRES_SINGLE_TUPLE) :
    (HandleIOEvent.results w).events =
        w.events ++ [Event._rowDescription (emittedRowDescription result)] ++
          (List.range result.ntuples).map (fun r => Event._row (rowOf result r)) ++
          [Event._cmdStatus result.cmdStatus result.cmdTuples, Event._readyForQuery] ∧
      (HandleIOEvent.results w).engine.notifies = w.engine.notifies ∧
      (HandleIOEvent.results w).halted = false := by
  have hh : HandleResult result = fun w1 =>
      (true, EmitCommandMetaData result (HandleTuplesResult result (EmitRowDescription result w1))) := by
    funext w1
    simp only [HandleResult]
    rcases hst with h | h <;> rw [h]
  simp only [List.headD_eq_head?_getD] at hbusy hrest
  simp [HandleIOEvent.results, hin, hout, PQisBusy, hbusy, hres, HandleIOEvent.resultLoop,
    PQgetResult, hh, hrest, EmitCommandMetaData, HandleTuplesResult_eq, EmitRowDescription_eq,
    hrun]

/-- The events of a cycle that yields one result with rows.  In a read-readiness
cycle of a running process outside the handshake and the copy modes, in which
input is consumed, the engine is not busy and `PQgetResult` yields one result
with rows (`PGRES_TUPLES_OK` or `PGRES_SINGLE_TUPLE`) and then NULL, the events
emitted are, in this order: one row description (the name of every field, in
field order, with its type id converted to `int`), one row event per tuple in
tuple order (one value per field, null exactly where the engine reports null),
one command status, one ready-for-query, and then the notification events.  The
row description is the one of the result when every type id is below `2^31`. -/
theorem rows_event_sequence (w : World) (revents : Nat) (result : PGresult)
    (rest : List (Option PGresult)) (hrun : w.halted = false)
    (hconn : w.conn.connecting_ = false) (hread : revents &&& UV_READABLE ≠ 0)
    (hin : w.conn.copyInMode_ = false) (hout : w.conn.copyOutMode_ = false)
    (hconsumed : (PQconsumeInput w).1 ≠ 0) (hbusy : (PQisBusy w).1 = 0)
    (hres : w.engine.getResult = some result :: rest) (hrest : rest.headD none = none)
    (hst : result.resultStatus = ExecStatusType.PGRES_TUPLES_OK ∨
      result.resultStatus = ExecStatusType.PGRES_SINGLE_TUPLE) :
    (HandleIOEvent revents w).events =
        w.events ++ [Event._rowDescription (emittedRowDescription result)] ++
          (List.range result.ntuples).map (fun r => Event._row (rowOf result r)) ++
          [Event._cmdStatus result.cmdStatus result.cmdTuples, Event._readyForQuery] ++
          (pendingNotifications w.engine.notifies).map notificationEvent ∧
      ((∀ i < result.nfields, result.ftype i < 2147483648) →
        emittedRowDescription result = rowDescriptionOf result) := by
  have h1 := results_rows (PQconsumeInput w).2 result rest
    (by simpa [PQconsumeInput] using hrun)
    (by simpa [PQconsumeInput] using hin) (by simpa [PQconsumeInput] using hout)
    (by simpa [PQconsumeInput, PQisBusy] using hbusy)
    (by simpa [PQconsumeInput] using hres) hrest hst
  have hout1 : (PQconsumeInput w).2.conn.copyOutMode_ = false := by
    simpa [PQconsumeInput] using hout
  have hev : (PQconsumeInput w).2.events = w.events := by simp [PQconsumeInput]
  have hno : (PQconsumeInput w).2.engine.notifies = w.engine.notifies := by
    simp [PQconsumeInput]
  refine ⟨?_, emittedRowDescription_eq result⟩
  simp only [HandleIOEvent, hconn, hread, hconsumed, hout1, if_true, if_false, ne_eq,
    not_false_eq_true, Bool.false_eq_true, h1.2.2]
  rw [events_writable, events_notifyLoop _ _ (Nat.lt_succ_self _), h1.1, h1.2.1, hev, hno]

/-- C2, the code at the failing input: a cycle on the connected object reached
by `wideOidPending`, whose engine holds one result with rows, of one field
`geom` whose type id is 3000000000, and one tuple.  The events are a row
description, one row, the command status and ready-for-query, in this order,
as the claim has it; but the row description gives the field the type id
-1294967296, not its type id: `EmitRowDescription` stores the `Oid` that
`PQftype` returns, an `unsigned int`, in an `int`. -/
theorem C2_type_id_emitted_negative :
    eventsSince wideOidPending (HandleIOEvent UV_READABLE wideOidPending) =
        [Event._rowDescription [("geom", -1294967296)], Event._row [some "0101"],
         Event._cmdStatus "SELECT 1" "1", Event._readyForQuery] ∧
      rowDescriptionOf wideOid = [("geom", 3000000000)] ∧
      wideOidPending.engine.getResult.map (Option.map PGresult.resultStatus) =
        [some ExecStatusType.PGRES_TUPLES_OK, none] ∧
      wideOidPending.conn.flags = (false, true, false, false, true, false, false) := by
  decide

/-! ## C3: dispatch while a query is outstanding -/

theorem callsSince_append (w0 w1 : World) (cs : List Call) (h : w1.calls = w0.calls ++ cs) :
    callsSince w0 w1 = cs := by
  simp [callsSince, h]

theorem eventsSince_append (w0 w1 : World) (es : List Event) (h : w1.events = w0.events ++ es) :
    eventsSince w0 w1 = es := by
  simp [eventsSince, h]

theorem calls_StartWrite (w : World) :
    (StartWrite w).calls = w.calls ++
      ((if w.conn.reading_ && w.conn.ioInitialized_ then
          [{ live := w.conn.connection_.isSome, fn := Fn.uv_poll_stop Watcher.read_watcher_ }]
        else []) ++
        [{ live := w.conn.connection_.isSome, fn := Fn.uv_poll_start Watcher.write_watcher_ }]) := by
  obtain ⟨⟨c, cg, io, co, ci, r, wr, e⟩, n, cs, ev, cl, ht⟩ := w
  cases io <;> cases r <;> simp [StartWrite, StopRead, World.log]

theorem calls_StartRead (w : World) :
    (StartRead w).calls = w.calls ++
      ((if w.conn.writing_ && w.conn.ioInitialized_ then
          [{ live := w.conn.connection_.isSome, fn := Fn.uv_poll_stop Watcher.write_watcher_ }]
        else []) ++
        [{ live := w.conn.connection_.isSome, fn := Fn.uv_poll_start Watcher.read_watcher_ }]) := by
  obtain ⟨⟨c, cg, io, co, ci, r, wr, e⟩, n, cs, ev, cl, ht⟩ := w
  cases io <;> cases wr <;> simp [StartRead, StopWrite, World.log]

theorem conn_StartWrite (w : World) :
    (StartWrite w).conn =
      { w.conn with reading_ := w.conn.reading_ && !w.conn.ioInitialized_, writing_ := true } := by
  obtain ⟨⟨c, cg, io, co, ci, r, wr, e⟩, n, cs, ev, cl, ht⟩ := w
  cases io <;> cases r <;> simp [StartWrite, StopRead, World.log]

theorem conn_StartRead (w : World) :
    (StartRead w).conn =
      { w.conn with writing_ := w.conn.writing_ && !w.conn.ioInitialized_, reading_ := true } := by
  obtain ⟨⟨c, cg, io, co, ci, r, wr, e⟩, n, cs, ev, cl, ht⟩ := w
  cases io <;> cases wr <;> simp [StartRead, StopWrite, World.log]

theorem events_StartWrite (w : World) : (StartWrite w).events = w.events := by
  obtain ⟨⟨c, cg, io, co, ci, r, wr, e⟩, n, cs, ev, cl, ht⟩ := w
  cases io <;> cases r <;> simp [StartWrite, StopRead, World.log]

theorem events_StartRead (w : World) : (StartRead w).events = w.events := by
  obtain ⟨⟨c, cg, io, co, ci, r, wr, e⟩, n, cs, ev, cl, ht⟩ := w
  cases io <;> cases wr <;> simp [StartRead, StopWrite, World.log]

theorem engine_StartWrite (w : World) : (StartWrite w).engine = w.engine := by
  obtain ⟨⟨c, cg, io, co, ci, r, wr, e⟩, n, cs, ev, cl, ht⟩ := w
  cases io <;> cases r <;> simp [StartWrite, StopRead, World.log, World.engine]

theorem engine_StartRead (w : World) : (StartRead w).engine = w.engine := by
  obtain ⟨⟨c, cg, io, co, ci, r, wr, e⟩, n, cs, ev, cl, ht⟩ := w
  cases io <;> cases wr <;> simp [StartRead, StopWrite, World.log, World.engine]

@[simp] theorem isSend_uv_poll_start (x : Watcher) : (Fn.uv_poll_start x).isSend = false := rfl

@[simp] theorem isSend_uv_poll_stop (x : Watcher) : (Fn.uv_poll_stop x).isSend = false := rfl

@[simp] theorem isSend_PQsetSingleRowMode : Fn.PQsetSingleRowMode.isSend = false := rfl

@[simp] theorem isSend_PQerrorMessage : Fn.PQerrorMessage.isSend = false := rfl

@[simp] theorem isSend_PQflush : Fn.PQflush.isSend = false := rfl

/-- C4, as stated, fails: on the connected object reached by `connectedRun`,
two calls of `end` in succession emit two `_end` events. -/
theorem C4_end_twice_emits_two_end_events :
    (eventsSince connectedRun (NAN_METHOD_End (NAN_METHOD_End connectedRun).2).2).count
      Event._end = 2 := by
  decide

theorem End_End (w : World) :
    (End (End w)).conn = (End w).conn ∧ (End (End w)).calls = (End w).calls ∧
      (End (End w)).events = (End w).events ++ [Event._end] ∧
      (End w).events = w.events ++ [Event._end] := by
  obtain ⟨⟨c, cg, io, co, ci, r, wr, e⟩, n, cs, ev, cl, ht⟩ := w
  cases c <;> cases io <;> cases r <;> cases wr <;>
    simp [End, StopRead, StopWrite, DestroyConnection, World.log, Emit]

/-- C4, amended: in every state of the object, calling `end` twice in
succession raises no error and emits one `_end` event per call, two in total;
the second call makes no engine or notifier call (the handle is released by the
first call only) and leaves the fields of the object as they were after the
first call. -/
theorem C4_end_twice (w : World) :
    (NAN_METHOD_End w).1 = none ∧ (NAN_METHOD_End (NAN_METHOD_End w).2).1 = none ∧
      eventsSince w (NAN_METHOD_End w).2 = [Event._end] ∧
      eventsSince w (NAN_METHOD_End (NAN_METHOD_End w).2).2 = [Event._end, Event._end] ∧
      callsSince (NAN_METHOD_End w).2 (NAN_METHOD_End (NAN_METHOD_End w).2).2 = [] ∧
      (NAN_METHOD_End (NAN_METHOD_End w).2).2.conn = (NAN_METHOD_End w).2.conn ∧
      (NAN_METHOD_End w).2.conn.connection_.isSome = false ∧
      (NAN_METHOD_End w).2.conn.ended_ = true := by
  have h := End_End w
  refine ⟨rfl, rfl, ?_, ?_, ?_, h.1, ?_, rfl⟩
  · exact eventsSince_append _ _ _ h.2.2.2
  · refine eventsSince_append _ _ _ ?_
    show (End (End w)).events = _
    rw [h.2.2.1, h.2.2.2]
    simp
  · refine callsSince_append _ _ _ ?_
    show (End (End w)).calls = (End w).calls ++ []
    rw [h.2.1]
    simp
  · show (End w).conn.connection_.isSome = false
    simp only [End, DestroyConnection]
    split <;> simp_all

/-! ## The hex encoder -/

theorem hex_getD_eq_hexDigit (d : Nat) (h : d < 16) : hex.getD d (Char.ofNat 0) = hexDigit d := by
  interval_cases d <;> rfl

theorem hexDigit_ne_nul (d : Nat) (h : d < 16) : hexDigit d ≠ Char.ofNat 0 := by
  interval_cases d <;> decide

theorem source_digits (b : Nat) :
    [hex.getD ((b % 256) >>> 4) (Char.ofNat 0), hex.getD ((b % 256) &&& 15) (Char.ofNat 0)] =
      hexPair b := by
  have h1 : (b % 256) >>> 4 = b % 256 / 16 := by
    rw [Nat.shiftRight_eq_div_pow]
  have h2 : (b % 256) &&& 15 = b % 256 % 16 := Nat.and_pow_two_sub_one_eq_mod (b % 256) 4
  rw [h1, h2, hex_getD_eq_hexDigit _ (by omega), hex_getD_eq_hexDigit _ (by omega)]
  rfl

theorem uint32_of_lt (n : Nat) (h : n < 4294967296) : uint32 n = n :=
  Nat.mod_eq_of_lt h

/-- The loop of `MallocCHexString` on a buffer of fewer than `2^31 - 2` bytes,
entered at index `i` with the bytes `todo` of the buffer still to encode: it
encodes them, and then runs one round more, which loads `bufferData[n]` and
stores at `2n + 2` and `2n + 3`, and leaves through its test.  The counters do
not wrap, and `todo.length + 2` units of fuel are enough. -/
theorem MallocCHexString_loop_spec (data : Bytes) (garbage : Nat) (todo : List Nat)
    (hn : data.length < 2147483646) :
    ∀ (fuel i : Nat) (m : HexMem) (pre rest : List Char),
      data.drop i = todo → i + todo.length = data.length →
      m.cHexString = pre ++ rest → pre.length = 2 * i + 2 →
      rest.length = 2 * todo.length + 1 → todo.length + 2 ≤ fuel →
      MallocCHexString.loop data garbage (data.length * 2 + 3) fuel i (2 * i + 2) m =
        some
          { cHexString := pre ++ todo.flatMap hexPair ++ [hexDigit (garbage % 256 / 16)],
            reads := m.reads ++ List.range' i (todo.length + 1),
            writes := m.writes ++
              (List.range' i (todo.length + 1)).flatMap (fun j => [2 * j + 2, 2 * j + 3]) } := by
  induction todo with
  | nil =>
    intro fuel i m pre rest hd hi hm hpre hrest hfuel
    simp only [List.length_nil, Nat.add_zero] at hi hrest hfuel
    obtain ⟨f, rfl⟩ : ∃ f, fuel = f + 2 := ⟨fuel - 2, by omega⟩
    obtain ⟨c, rfl⟩ : ∃ c, rest = [c] := by
      cases rest with
      | nil => simp at hrest
      | cons c t =>
        cases t with
        | nil => exact ⟨c, rfl⟩
        | cons _ _ => simp at hrest
    have hk : 2 * i + 2 < data.length * 2 + 3 := by omega
    have hget : data.getD i garbage = garbage := by
      simp only [List.getD_eq_getElem?_getD]
      rw [List.getElem?_eq_none (by omega)]
      rfl
    have e0 : uint32 (2 * i + 2) = 2 * i + 2 := uint32_of_lt _ (by omega)
    have e1 : uint32 (2 * i + 2 + 1) = 2 * i + 2 + 1 := uint32_of_lt _ (by omega)
    have e2 : uint32 (2 * i + 2 + 2) = 2 * i + 2 + 2 := uint32_of_lt _ (by omega)
    have e3 : uint32 (i + 1) = i + 1 := uint32_of_lt _ (by omega)
    have hnext : ¬ 2 * i + 2 + 2 < data.length * 2 + 3 := by omega
    simp only [MallocCHexString.loop, hk, if_true, hget, HexMem.store, hm, Nat.add_zero, e0, e1,
      e2, e3, hnext, if_false]
    have hd1 : (garbage % 256) >>> 4 = garbage % 256 / 16 := by
      rw [Nat.shiftRight_eq_div_pow]
    simp only [Option.some.injEq, HexMem.mk.injEq]
    refine ⟨?_, ?_, ?_⟩
    · rw [List.set_eq_of_length_le (by simp; omega),
        List.set_append_right _ _ (by omega)]
      have hx := hex_getD_eq_hexDigit _ (show garbage % 256 / 16 < 16 by omega)
      simp only [List.getD_eq_getElem?_getD] at hx
      simp [hpre, hd1, hx]
    · simp [List.range']
    · simp [List.range']
  | cons b t ih =>
    intro fuel i m pre rest hd hi hm hpre hrest hfuel
    simp only [List.length_cons] at hi hrest hfuel
    obtain ⟨f, rfl⟩ : ∃ f, fuel = f + 1 := ⟨fuel - 1, by omega⟩
    obtain ⟨r0, r1, rest1, rfl⟩ : ∃ r0 r1 rest1, rest = r0 :: r1 :: rest1 := by
      cases rest with
      | nil => simp at hrest
      | cons r0 t0 =>
        cases t0 with
        | nil => simp at hrest
        | cons r1 rest1 => exact ⟨r0, r1, rest1, rfl⟩
    simp only [List.length_cons] at hrest
    have hk : 2 * i + 2 < data.length * 2 + 3 := by omega
    have hlt : i < data.length := by omega
    have hget : data.getD i garbage = b := by
      have h1 := List.drop_eq_getElem_cons hlt
      rw [hd] at h1
      simp only [List.getD_eq_getElem?_getD]
      rw [List.getElem?_eq_getElem hlt]
      injection h1 with h2 _
      simp [h2]
    have hdrop : data.drop (i + 1) = t := by
      have h1 := List.drop_eq_getElem_cons hlt
      rw [hd] at h1
      injection h1 with _ h3
      exact h3.symm
    have hblock : ((pre ++ r0 :: r1 :: rest1).set (2 * i + 2)
          (hex.getD ((b % 256) >>> 4) (Char.ofNat 0))).set (2 * i + 2 + 1)
          (hex.getD ((b % 256) &&& 15) (Char.ofNat 0)) =
        (pre ++ hexPair b) ++ rest1 := by
      rw [List.set_append_right _ _ (by omega), List.set_append_right _ _ (by omega)]
      have e1 : 2 * i + 2 - pre.length = 0 := by omega
      have e2 : 2 * i + 2 + 1 - pre.length = 1 := by omega
      rw [← source_digits]
      simp [e1, e2]
    have key := ih f (i + 1)
      { cHexString := (pre ++ hexPair b) ++ rest1, reads := m.reads ++ [i],
        writes := m.writes ++ [2 * i + 2] ++ [2 * i + 2 + 1] }
      (pre ++ hexPair b) rest1 hdrop (by omega) rfl (by simp [hexPair]; omega) (by omega)
      (by omega)
    have hk2 : 2 * (i + 1) + 2 = 2 * i + 2 + 2 := by ring
    rw [hk2] at key
    have e0 : uint32 (2 * i + 2) = 2 * i + 2 := uint32_of_lt _ (by omega)
    have e1 : uint32 (2 * i + 2 + 1) = 2 * i + 2 + 1 := uint32_of_lt _ (by omega)
    have e2 : uint32 (2 * i + 2 + 2) = 2 * i + 2 + 2 := uint32_of_lt _ (by omega)
    have e3 : uint32 (i + 1) = i + 1 := uint32_of_lt _ (by omega)
    simp only [MallocCHexString.loop, hk, if_true, hget, HexMem.store, hm, Nat.add_zero, hblock,
      e0, e1, e2, e3]
    rw [key]
    simp only [Option.some.injEq, HexMem.mk.injEq]
    refine ⟨?_, ?_, ?_⟩
    · simp
    · simp [List.range'_succ]
    · simp [List.range'_succ]

/-- On a buffer of `2^31 - 2` bytes or more the loop of `MallocCHexString` does
not end: the counter `k` is even and below `2^32`, hence always below
`hexStringLen`, which is at least `2^32 - 1`.  No amount of fuel is enough. -/
theorem MallocCHexString_loop_never_ends (data : Bytes) (garbage : Nat) (hexStringLen : Nat)
    (hlen : 4294967295 ≤ hexStringLen) :
    ∀ (fuel i k : Nat) (m : HexMem), k % 2 = 0 → k < 4294967296 →
      MallocCHexString.loop data garbage hexStringLen fuel i k m = none := by
  intro fuel
  induction fuel with
  | zero => intro i k m _ _; rfl
  | succ f ih =>
    intro i k m hk hlt
    have h1 : k < hexStringLen := by omega
    simp only [MallocCHexString.loop, h1, if_true]
    apply ih
    · simp only [uint32]; omega
    · simp only [uint32]; omega

theorem length_flatMap_hexPair (data : Bytes) : (data.flatMap hexPair).length = 2 * data.length := by
  induction data with
  | nil => rfl
  | cons b t ih =>
    rw [List.flatMap_cons, List.length_append, ih]
    simp only [hexPair, List.length_cons, List.length_nil]
    omega

theorem hexText_no_nul (data : Bytes) : ∀ c ∈ hexText data, c ≠ Char.ofNat 0 := by
  intro c hc
  simp only [hexText, List.mem_cons, List.mem_flatMap, hexPair] at hc
  rcases hc with rfl | rfl | ⟨b, -, h⟩
  · decide
  · decide
  · simp only [List.mem_cons, List.mem_singleton, List.not_mem_nil, or_false] at h
    rcases h with rfl | rfl
    · exact hexDigit_ne_nul _ (by omega)
    · exact hexDigit_ne_nul _ (by omega)

/-- The body of `MallocCHexString` on a buffer of fewer than `2^31 - 2` bytes:
it returns, and this is the block it returns and every index at which it loads
from the buffer and stores to the block. -/
theorem MallocCHexString_run_spec (data : Bytes) (garbage : Nat)
    (hn : data.length < 2147483646) :
    MallocCHexString.run data garbage =
      some
        { cHexString := hexText data ++ [Char.ofNat 0],
          reads := List.range' 0 (data.length + 1),
          writes := [0, 1, 2] ++
            (List.range' 0 (data.length + 1)).flatMap (fun j => [2 * j + 2, 2 * j + 3]) ++
            [data.length * 2 + 2] } := by
  have key := MallocCHexString_loop_spec data garbage data hn (data.length + 2) 0
    { cHexString := Char.ofNat 92 :: 'x' :: Char.ofNat 0 :: List.replicate (data.length * 2)
        (Char.ofNat 0),
      reads := [], writes := [0, 1, 2] }
    [Char.ofNat 92, 'x'] (Char.ofNat 0 :: List.replicate (data.length * 2) (Char.ofNat 0))
    rfl (by simp) rfl rfl (by simp; omega) (by omega)
  simp only [Nat.mul_zero, Nat.zero_add] at key
  have hm1 : ∀ m0 : HexMem,
      m0 = ⟨List.replicate (data.length * 2 + 3) (Char.ofNat 0), [], []⟩ →
      ((m0.store 0 (Char.ofNat 92)).store 1 'x').store 2 (Char.ofNat 0) =
        ⟨Char.ofNat 92 :: 'x' :: Char.ofNat 0 :: List.replicate (data.length * 2) (Char.ofNat 0),
          [], [0, 1, 2]⟩ := by
    intro m0 h0
    subst h0
    simp [HexMem.store, List.replicate_succ]
  simp only [MallocCHexString.run]
  rw [hm1 _ rfl, key]
  simp only [HexMem.store, Option.some.injEq, HexMem.mk.injEq]
  refine ⟨?_, ?_, ?_⟩
  · have hl : ([Char.ofNat 92, 'x'] ++ data.flatMap hexPair).length = data.length * 2 + 2 := by
      rw [List.length_append, length_flatMap_hexPair]
      simp only [List.length_cons, List.length_nil]
      omega
    rw [List.set_append_right _ _ (by rw [hl]; omega)]
    have e : data.length * 2 + 3 - 1 - ([Char.ofNat 92, 'x'] ++ data.flatMap hexPair).length = 0 := by
      rw [hl]; omega
    rw [e]
    simp [hexText]
  · simp
  · simp

/-- On a buffer of `2^31 - 2` bytes or more `MallocCHexString` does not
return. -/
theorem MallocCHexString_run_never_returns (data : Bytes) (garbage : Nat)
    (hn : 2147483646 ≤ data.length) : MallocCHexString.run data garbage = none := by
  simp only [MallocCHexString.run]
  rw [MallocCHexString_loop_never_ends data garbage _ (by omega) _ 0 2 _ rfl (by omega)]

/-- The C string `MallocCHexString` returns for a buffer of fewer than
`2^31 - 2` bytes is the hex text of the buffer. -/
theorem MallocCHexString_eq (data : Bytes) (hn : data.length < 2147483646) :
    MallocCHexString data = some (String.mk (hexText data)) := by
  simp only [MallocCHexString, MallocCHexString_run_spec data 0 hn]
  congr 2
  rw [List.takeWhile_append_of_pos (fun c hc => by simpa using hexText_no_nul data c hc)]
  simp

theorem MallocCHexString_never_returns (data : Bytes) (hn : 2147483646 ≤ data.length) :
    MallocCHexString data = none := by
  simp only [MallocCHexString, MallocCHexString_run_never_returns data 0 hn]


/-- On an array of fewer than `2^31` elements `len` is the length of the array,
and `ArgToCStringArray` is its loop over all the elements. -/
theorem ArgToCStringArray_eq_loop (params : List JsValue) (h : params.length < 2147483648) :
    ArgToCStringArray params = ArgToCStringArray.loop params [] := by
  have hneg : ¬ (Int.ofNat params.length < 0) := by
    simp only [Int.ofNat_eq_coe]; omega
  have ht : (Int.ofNat params.length).toNat = params.length := rfl
  simp only [ArgToCStringArray, toInt32_of_lt _ h, hneg, if_false, ht, List.take_length]

/-- The conversion of the parameters does not return when it gets to a buffer
of `2^31 - 2` bytes or more. -/
theorem ArgToCStringArray_long_buffer (data : Bytes) (rest : List JsValue)
    (hn : 2147483646 ≤ data.length) (hlen : rest.length + 1 < 2147483648) :
    ArgToCStringArray (JsValue.buffer data :: rest) = none := by
  have hpos : data.length > 0 := by omega
  rw [ArgToCStringArray_eq_loop _ (by rw [List.length_cons]; exact hlen)]
  simp only [ArgToCStringArray.loop, hpos, if_true, MallocCHexString_never_returns data hn]

/-! ## C5: malformed arguments -/

theorem HandleCopyOut_loop_spec (chunks : List CopyResp) (c : CopyResp) (rest : List CopyResp)
    (hc : c.copied ≤ 0) (fuel : Nat) (w : World)
    (hscript : w.engine.getCopyData = chunks ++ c :: rest)
    (hpos : ∀ x ∈ chunks, 0 < x.copied) (hfuel : chunks.length < fuel) :
    (HandleCopyOut.loop fuel w).1 = c.copied ∧
      (HandleCopyOut.loop fuel w).2.events = w.events ++ chunks.map copyDataEvent ∧
      (HandleCopyOut.loop fuel w).2.conn.flags = w.conn.flags ∧
      (HandleCopyOut.loop fuel w).2.engine = { w.engine with getCopyData := rest } ∧
      (HandleCopyOut.loop fuel w).2.calls = w.calls ++
        List.replicate (chunks.length + 1)
          { live := w.conn.connection_.isSome, fn := Fn.PQgetCopyData } := by
  induction chunks generalizing fuel w with
  | nil =>
    cases fuel with
    | zero => omega
    | succ n =>
      simp only [List.nil_append] at hscript
      have hn : ¬ c.copied > 0 := by omega
      simp [HandleCopyOut.loop, PQgetCopyData, hscript, hn, Connection.flags]
  | cons a t ih =>
    cases fuel with
    | zero => omega
    | succ n =>
      simp only [List.cons_append] at hscript
      have ha : a.copied > 0 := hpos a (by simp)
      simp only [HandleCopyOut.loop, PQgetCopyData, hscript, List.headD_cons, ha, if_true,
        List.tail_cons]
      have := ih n
        (Emit (Event.copyData (List.take a.copied.toNat a.buffer))
          ((w.setEngine { w.engine with getCopyData := t ++ c :: rest }).log Fn.PQgetCopyData))
        (by simp) (fun x hx => hpos x (by simp [hx])) (by simp at hfuel; omega)
      obtain ⟨h1, h2, h3, h4, h5⟩ := this
      refine ⟨h1, ?_, ?_, ?_, ?_⟩
      · rw [h2]; simp [copyDataEvent]
      · rw [h3]; simp [Connection.flags]
      · rw [h4]; simp
      · rw [h5]; simp [List.replicate_succ]

/-- C6: when the next answers of `PQgetCopyData` are `k ≥ 0` chunks of positive
length followed by a non-positive code `c`, `HandleCopyOut` emits exactly one
`copyData` event per chunk, in order, each carrying the chunk (the first
`copied` bytes of its buffer, the whole buffer when it has that length), and
nothing else.  If `c = 0` the copy-out flag is left as it was and the handler
returns false, and the guard of the result drain stays closed when the flag was
set; if `c` is `-1` or `-2` the flag is cleared and the handler returns true,
and the guard of the result drain is open unless the copy-in flag is set. -/
theorem C6_copy_out_handler (w : World) (chunks : List CopyResp) (c : CopyResp)
    (rest : List CopyResp) (hscript : w.engine.getCopyData = chunks ++ c :: rest)
    (hpos : ∀ x ∈ chunks, 0 < x.copied) (hc : c.copied ≤ 0) :
    eventsSince w (HandleCopyOut w).2 = chunks.map copyDataEvent ∧
      ((∀ x ∈ chunks, x.buffer.length = x.copied.toNat) →
        eventsSince w (HandleCopyOut w).2 = chunks.map (fun x => Event.copyData x.buffer)) ∧
      (c.copied = 0 →
        (HandleCopyOut w).1 = false ∧
        (HandleCopyOut w).2.conn.flags = w.conn.flags ∧
        (w.conn.copyOutMode_ = true →
          (!(HandleCopyOut w).2.conn.copyInMode_ && !(HandleCopyOut w).2.conn.copyOutMode_)
            = false)) ∧
      ((c.copied = -1 ∨ c.copied = -2) →
        (HandleCopyOut w).1 = true ∧
        (HandleCopyOut w).2.conn.copyOutMode_ = false ∧
        (HandleCopyOut w).2.conn.flags = { w.conn with copyOutMode_ := false }.flags ∧
        (w.conn.copyInMode_ = false →
          (!(HandleCopyOut w).2.conn.copyInMode_ && !(HandleCopyOut w).2.conn.copyOutMode_)
            = true)) := by
  have hlen : chunks.length < w.engine.getCopyData.length + 1 := by
    rw [hscript]; simp; omega
  obtain ⟨h1, h2, h3, -, -⟩ :=
    HandleCopyOut_loop_spec chunks c rest hc _ w hscript hpos hlen
  have hev : (HandleCopyOut w).2.events = w.events ++ chunks.map copyDataEvent := by
    rw [← h2]
    simp only [HandleCopyOut]
    split_ifs <;> rfl
  have hes := eventsSince_append _ _ _ hev
  refine ⟨hes, ?_, ?_, ?_⟩
  · intro hwf
    rw [hes]
    apply List.map_congr_left
    intro x hx
    simp [copyDataEvent, ← hwf x hx]
  · intro h0
    have hf : (HandleCopyOut w).2.conn.flags = w.conn.flags := by
      rw [← h3]
      simp only [HandleCopyOut, h1, h0, if_true]
    refine ⟨?_, hf, ?_⟩
    · simp only [HandleCopyOut, h1, h0, if_true]
    · intro hout
      simp only [Connection.flags, Prod.mk.injEq] at hf
      rw [hf.2.2.1, hout]
      simp
  · intro h12
    simp only [Connection.flags, Prod.mk.injEq] at h3
    have hne : c.copied ≠ 0 := by omega
    have hcases : (HandleCopyOut w) =
        (true, { (HandleCopyOut.loop (w.engine.getCopyData.length + 1) w).2 with
          conn := { (HandleCopyOut.loop (w.engine.getCopyData.length + 1) w).2.conn with
            copyOutMode_ := false } }) := by
      simp only [HandleCopyOut, h1, hne, if_false]
      rcases h12 with h | h
      · simp [h]
      · simp [h]
    rw [hcases]
    refine ⟨rfl, rfl, ?_, ?_⟩
    · simp [Connection.flags, h3]
    · intro hin
      simp [h3, hin]

/-- C6 at a concrete state: two chunks, then the end of the copy stream. -/
theorem C6_copy_out_handler_witness :
    eventsSince copyOutWorld (HandleCopyOut copyOutWorld).2 =
        [Event.copyData [1, 2, 3], Event.copyData [4, 5]] ∧
      (HandleCopyOut copyOutWorld).1 = true ∧
      (HandleCopyOut copyOutWorld).2.conn.copyOutMode_ = false :=
  ⟨(C6_copy_out_handler copyOutWorld
      [{ copied := 3, buffer := [1, 2, 3] }, { copied := 2, buffer := [4, 5] }]
      { copied := -1, buffer := [] } [] rfl (by decide) (by decide)).1,
   ((C6_copy_out_handler copyOutWorld
      [{ copied := 3, buffer := [1, 2, 3] }, { copied := 2, buffer := [4, 5] }]
      { copied := -1, buffer := [] } [] rfl (by decide) (by decide)).2.2.2 (Or.inl rfl)).1,
   ((C6_copy_out_handler copyOutWorld
      [{ copied := 3, buffer := [1, 2, 3] }, { copied := 2, buffer := [4, 5] }]
      { copied := -1, buffer := [] } [] rfl (by decide) (by decide)).2.2.2 (Or.inl rfl)).2.1⟩

/-! ## How the code extends the logs -/

theorem Extends.refl (Pc : Fn → Prop) (Pe : Event → Prop) (w : World) : Extends Pc Pe w w :=
  ⟨[], [], by simp, by simp, by simp, by simp⟩

theorem Extends.of_eq {Pc : Fn → Prop} {Pe : Event → Prop} {w w1 : World}
    (hc : w1.calls = w.calls) (he : w1.events = w.events) : Extends Pc Pe w w1 :=
  ⟨[], [], by simp [hc], by simp [he], by simp, by simp⟩

theorem Extends.trans {Pc : Fn → Prop} {Pe : Event → Prop} {w w1 w2 : World}
    (h1 : Extends Pc Pe w w1) (h2 : Extends Pc Pe w1 w2) : Extends Pc Pe w w2 := by
  obtain ⟨cs1, es1, hc1, he1, hp1, hq1⟩ := h1
  obtain ⟨cs2, es2, hc2, he2, hp2, hq2⟩ := h2
  refine ⟨cs1 ++ cs2, es1 ++ es2, by simp [hc2, hc1], by simp [he2, he1], ?_, ?_⟩
  · intro c hc
    rcases List.mem_append.mp hc with h | h
    · exact hp1 c h
    · exact hp2 c h
  · intro e he
    rcases List.mem_append.mp he with h | h
    · exact hq1 e h
    · exact hq2 e h

theorem Extends.mono {Pc Qc : Fn → Prop} {Pe Qe : Event → Prop} {w w1 : World}
    (h : Extends Pc Pe w w1) (hc : ∀ f, Pc f → Qc f) (he : ∀ e, Pe e → Qe e) :
    Extends Qc Qe w w1 := by
  obtain ⟨cs, es, h1, h2, h3, h4⟩ := h
  exact ⟨cs, es, h1, h2, fun c hm => hc _ (h3 c hm), fun e hm => he _ (h4 e hm)⟩

theorem Extends.log {Pc : Fn → Prop} {Pe : Event → Prop} (w : World) (f : Fn) (h : Pc f) :
    Extends Pc Pe w (w.log f) :=
  ⟨[{ live := w.conn.connection_.isSome, fn := f }], [], rfl, by simp, by simpa using h,
    by simp⟩

theorem Extends.emit {Pc : Fn → Prop} {Pe : Event → Prop} (w : World) (e : Event) (h : Pe e) :
    Extends Pc Pe w (Emit e w) :=
  ⟨[], [e], by simp, rfl, by simp, by simpa using h⟩

theorem Extends.engineCall {Pc : Fn → Prop} {Pe : Event → Prop} (w : World) (c : PGconn)
    (f : Fn) (h : Pc f) : Extends Pc Pe w ((w.setEngine c).log f) :=
  (Extends.of_eq (setEngine_calls w c) (setEngine_events w c)).trans (Extends.log _ f h)

theorem Extends.calls_mem {Pc : Fn → Prop} {Pe : Event → Prop} {w w1 : World}
    (h : Extends Pc Pe w w1) : ∀ c ∈ callsSince w w1, Pc c.fn := by
  obtain ⟨cs, es, h1, h2, h3, h4⟩ := h
  rw [callsSince_append _ _ _ h1]
  exact h3

theorem Extends.events_mem {Pc : Fn → Prop} {Pe : Event → Prop} {w w1 : World}
    (h : Extends Pc Pe w w1) : ∀ e ∈ eventsSince w w1, Pe e := by
  obtain ⟨cs, es, h1, h2, h3, h4⟩ := h
  rw [eventsSince_append _ _ _ h2]
  exact h4

theorem extends_StopRead {Pc : Fn → Prop} {Pe : Event → Prop} (w : World)
    (h : Pc (Fn.uv_poll_stop Watcher.read_watcher_)) : Extends Pc Pe w (StopRead w) := by
  simp only [StopRead]
  split
  · exact (Extends.log w _ h).trans (Extends.of_eq rfl rfl)
  · exact Extends.refl _ _ _

theorem extends_StopWrite {Pc : Fn → Prop} {Pe : Event → Prop} (w : World)
    (h : Pc (Fn.uv_poll_stop Watcher.write_watcher_)) : Extends Pc Pe w (StopWrite w) := by
  simp only [StopWrite]
  split
  · exact (Extends.log w _ h).trans (Extends.of_eq rfl rfl)
  · exact Extends.refl _ _ _

theorem extends_StartRead {Pc : Fn → Prop} {Pe : Event → Prop} (w : World)
    (h1 : Pc (Fn.uv_poll_stop Watcher.write_watcher_))
    (h2 : Pc (Fn.uv_poll_start Watcher.read_watcher_)) : Extends Pc Pe w (StartRead w) := by
  simp only [StartRead]
  have h3 : Extends Pc Pe w (if w.conn.writing_ then StopWrite w else w) := by
    split
    · exact extends_StopWrite w h1
    · exact Extends.refl _ _ _
  exact (h3.trans (Extends.log _ _ h2)).trans (Extends.of_eq rfl rfl)

theorem extends_StartWrite {Pc : Fn → Prop} {Pe : Event → Prop} (w : World)
    (h1 : Pc (Fn.uv_poll_stop Watcher.read_watcher_))
    (h2 : Pc (Fn.uv_poll_start Watcher.write_watcher_)) : Extends Pc Pe w (StartWrite w) := by
  simp only [StartWrite]
  have h3 : Extends Pc Pe w (if w.conn.reading_ then StopRead w else w) := by
    split
    · exact extends_StopRead w h1
    · exact Extends.refl _ _ _
  exact (h3.trans (Extends.log _ _ h2)).trans (Extends.of_eq rfl rfl)

theorem extends_EmitLastError {Pc : Fn → Prop} {Pe : Event → Prop} (w : World)
    (h1 : Pc Fn.PQerrorMessage) (h2 : ∀ a, Pe (Event._error a)) :
    Extends Pc Pe w (EmitLastError w) :=
  (Extends.engineCall w _ _ h1).trans (Extends.emit _ _ (h2 _))

theorem extends_DestroyConnection {Pc : Fn → Prop} {Pe : Event → Prop} (w : World)
    (h1 : Pc Fn.PQfinish) : Extends Pc Pe w (DestroyConnection w) := by
  simp only [DestroyConnection]
  split
  · exact (Extends.log w _ h1).trans (Extends.of_eq rfl rfl)
  · exact Extends.refl _ _ _

theorem extends_End {Pc : Fn → Prop} {Pe : Event → Prop} (w : World)
    (h1 : Pc (Fn.uv_poll_stop Watcher.read_watcher_))
    (h2 : Pc (Fn.uv_poll_stop Watcher.write_watcher_)) (h3 : Pc Fn.PQfinish)
    (h4 : Pe Event._end) : Extends Pc Pe w (End w) :=
  ((((extends_StopRead w h1).trans (extends_StopWrite _ h2)).trans
    (extends_DestroyConnection _ h3)).trans (Extends.emit _ _ h4)).trans (Extends.of_eq rfl rfl)

theorem extends_HandleConnection {Pc : Fn → Prop} {Pe : Event → Prop} (w : World)
    (h0 : Pc Fn.PQconnectPoll) (h1 : ∀ x, Pc (Fn.uv_poll_stop x))
    (h2 : ∀ x, Pc (Fn.uv_poll_start x)) (h3 : Pc Fn.PQerrorMessage)
    (h4 : ∀ a, Pe (Event._error a)) (h5 : Pe Event.connect) :
    Extends Pc Pe w ( HandleConnectionIO w) := by
  simp only [ HandleConnectionIO]
  have hp : Extends Pc Pe w (PQconnectPoll w).2 := Extends.engineCall w _ _ h0
  split
  · exact hp.trans (extends_StartRead _ (h1 _) (h2 _))
  · exact hp.trans (extends_StartWrite _ (h1 _) (h2 _))
  · exact hp.trans (((extends_StopRead _ (h1 _)).trans (extends_StopWrite _ (h1 _))).trans
      (extends_EmitLastError _ h3 h4))
  · have hq : Extends Pc Pe (PQconnectPoll w).2
        ({ (PQconnectPoll w).2 with
            conn := { (PQconnectPoll w).2.conn with connecting_ := false } } : World) :=
      Extends.of_eq rfl rfl
    exact hp.trans ((hq.trans (extends_StartRead _ (h1 _) (h2 _))).trans
      (Extends.emit _ _ h5))
  · exact hp

theorem extends_HandleCopyOut_loop {Pc : Fn → Prop} {Pe : Event → Prop}
    (h1 : Pc Fn.PQgetCopyData) (h2 : ∀ b, Pe (Event.copyData b)) (fuel : Nat) (w : World) :
    Extends Pc Pe w (HandleCopyOut.loop fuel w).2 := by
  induction fuel generalizing w with
  | zero => exact Extends.refl _ _ _
  | succ n ih =>
    simp only [HandleCopyOut.loop]
    split
    · exact ((Extends.engineCall w _ _ h1).trans (Extends.emit _ _ (h2 _))).trans (ih _)
    · exact Extends.engineCall w _ _ h1

theorem extends_HandleCopyOut {Pc : Fn → Prop} {Pe : Event → Prop}
    (h1 : Pc Fn.PQgetCopyData) (h2 : ∀ b, Pe (Event.copyData b)) (w : World) :
    Extends Pc Pe w (HandleCopyOut w).2 := by
  have h := @extends_HandleCopyOut_loop Pc Pe h1 h2 (w.engine.getCopyData.length + 1) w
  simp only [HandleCopyOut]
  split_ifs
  · exact h
  · exact h.trans (Extends.of_eq rfl rfl)
  · exact h.trans (Extends.of_eq rfl rfl)
  · exact h

theorem extends_notifyLoop {Pc : Fn → Prop} {Pe : Event → Prop}
    (h1 : Pc Fn.PQnotifies) (h2 : ∀ a b, Pe (Event.notification a b)) (fuel : Nat)
    (w : World) : Extends Pc Pe w (HandleIOEvent.notifyLoop fuel w) := by
  induction fuel generalizing w with
  | zero => exact Extends.refl _ _ _
  | succ n ih =>
    simp only [HandleIOEvent.notifyLoop]
    split
    · exact Extends.engineCall w _ _ h1
    · exact ((Extends.engineCall w _ _ h1).trans (Extends.emit _ _ (h2 _ _))).trans (ih _)

theorem extends_writable {Pc : Fn → Prop} {Pe : Event → Prop} (revents : Nat) (w : World)
    (h0 : Pc Fn.PQflush) (h1 : ∀ x, Pc (Fn.uv_poll_stop x))
    (h2 : ∀ x, Pc (Fn.uv_poll_start x)) :
    Extends Pc Pe w (HandleIOEvent.writable revents w) := by
  simp only [HandleIOEvent.writable]
  split
  · split
    · exact (Extends.engineCall w _ _ h0).trans (extends_StartRead _ (h1 _) (h2 _))
    · exact Extends.engineCall w _ _ h0
  · exact Extends.refl _ _ _

theorem extends_HandleResult {Pc : Fn → Prop} {Pe : Event → Prop} (result : PGresult)
    (hs : result.resultStatus ≠ ExecStatusType.PGRES_COPY_IN)
    (h1 : Pc Fn.PQgetCopyData) (h2 : ∀ e, e.isData = true → Pe e) (w : World) :
    Extends Pc Pe w (HandleResult result w).2 := by
  simp only [HandleResult]
  split
  · rw [EmitRowDescription_eq, HandleTuplesResult_eq, EmitCommandMetaData]
    refine ⟨[], _, by simp, by simp; rfl, by simp, ?_⟩
    intro e he
    apply h2
    simp at he
    rcases he with rfl | ⟨r, -, rfl⟩ | rfl <;> rfl
  · rw [EmitRowDescription_eq, HandleTuplesResult_eq, EmitCommandMetaData]
    refine ⟨[], _, by simp, by simp; rfl, by simp, ?_⟩
    intro e he
    apply h2
    simp at he
    rcases he with rfl | ⟨r, -, rfl⟩ | rfl <;> rfl
  · simp only [HandleErrorResult]
    split
    · exact Extends.refl _ _ _
    · exact Extends.of_eq rfl rfl
  · exact Extends.emit _ _ (h2 _ rfl)
  · exact Extends.emit _ _ (h2 _ rfl)
  · rename_i h
    exact absurd h hs
  · have hq : Extends Pc Pe w
        ({ w with conn := { w.conn with copyOutMode_ := true } } : World) :=
      Extends.of_eq rfl rfl
    exact (hq.trans (Extends.emit _ Event.copyOutResponse (h2 _ rfl))).trans
      (extends_HandleCopyOut h1 (fun b => h2 (Event.copyData b) rfl) _)
  · exact Extends.refl _ _ _

/-! ## C7: the copy-in result -/

theorem isData_ne_copyIn {e : Event} (h : e.isData = true) : e ≠ Event.copyInResponse := by
  intro he; subst he; simp [Event.isData] at h

theorem isData_ne_ready {e : Event} (h : e.isData = true) : e ≠ Event._readyForQuery := by
  intro he; subst he; simp [Event.isData] at h

theorem HandleResult_copy_in (result : PGresult) (w : World)
    (hs : result.resultStatus = ExecStatusType.PGRES_COPY_IN) :
    HandleResult result w =
      (false, Emit Event.copyInResponse { w with conn := { w.conn with copyInMode_ := true } }) := by
  simp only [HandleResult, hs]

theorem resultLoop_copy_in (fuel : Nat) (d : Bool) (w : World) :
    ∃ cs es, (HandleIOEvent.resultLoop fuel d w).2.calls = w.calls ++ cs ∧
      (HandleIOEvent.resultLoop fuel d w).2.events = w.events ++ es ∧
      Event._readyForQuery ∉ es ∧
      (NoCopyIn cs es ∨
        (EndsInCopyIn cs es ∧ (HandleIOEvent.resultLoop fuel d w).1 = false ∧
          (HandleIOEvent.resultLoop fuel d w).2.conn.copyInMode_ = true)) := by
  induction fuel generalizing d w with
  | zero => exact ⟨[], [], by simp [HandleIOEvent.resultLoop], by simp [HandleIOEvent.resultLoop],
      by simp, Or.inl ⟨by simp, by simp⟩⟩
  | succ n ih =>
    simp only [HandleIOEvent.resultLoop]
    cases hr : (PQgetResult w).1 with
    | none =>
      refine ⟨[{ live := w.conn.connection_.isSome, fn := Fn.PQgetResult none }], [], ?_, ?_,
        by simp, Or.inl ⟨by simp [Fn.isCopyInFetch], by simp⟩⟩
      · simp only [PQgetResult] at hr
        simp only [PQgetResult, log_calls, setEngine_calls, setEngine_isSome, hr, Option.map_none']
      · simp [PQgetResult]
    | some result =>
      have hcall : (PQgetResult w).2.calls = w.calls ++
          [{ live := w.conn.connection_.isSome,
             fn := Fn.PQgetResult (some result.resultStatus) }] := by
        simp only [PQgetResult] at hr
        simp only [PQgetResult, log_calls, setEngine_calls, setEngine_isSome, hr, Option.map_some']
      have hevs : (PQgetResult w).2.events = w.events := by simp [PQgetResult]
      simp only []
      by_cases hs : result.resultStatus = ExecStatusType.PGRES_COPY_IN
      · rw [HandleResult_copy_in result _ hs]
        simp only [Bool.not_false, if_true, ite_self]
        refine ⟨_, [Event.copyInResponse], hcall, ?_, by simp,
          Or.inr ⟨⟨[], _, rfl, ?_, by simp, by simp, by simp⟩, ?_, ?_⟩⟩
        · simp [hevs]
        · simp [hs, Fn.isCopyInFetch]
        · simp
        · simp
      · obtain ⟨cs1, es1, hc1, he1, hp1, hq1⟩ :=
          @extends_HandleResult (fun f => f = Fn.PQgetCopyData)
            (fun e => e.isData = true) result hs rfl (fun e h => h) (PQgetResult w).2
        obtain ⟨c0, hc0⟩ : ∃ c0 : Call,
            c0 = ⟨w.conn.connection_.isSome, Fn.PQgetResult (some result.resultStatus)⟩ :=
          ⟨_, rfl⟩
        rw [← hc0] at hcall
        have hfirst : c0.fn.isCopyInFetch = false := by
          rw [hc0]
          cases hst : result.resultStatus <;> simp_all [Fn.isCopyInFetch]
        have hcs1 : ∀ c ∈ cs1, c.fn.isCopyInFetch = false := by
          intro c hc
          rw [hp1 c hc]
          rfl
        have hes1 : Event.copyInResponse ∉ es1 := fun h => isData_ne_copyIn (hq1 _ h) rfl
        have hes1r : Event._readyForQuery ∉ es1 := fun h => isData_ne_ready (hq1 _ h) rfl
        have hstop : ∃ cs es,
            (HandleResult result (PQgetResult w).2).2.calls = w.calls ++ cs ∧
            (HandleResult result (PQgetResult w).2).2.events = w.events ++ es ∧
            Event._readyForQuery ∉ es ∧
            (NoCopyIn cs es ∨
              (EndsInCopyIn cs es ∧ (HandleResult result (PQgetResult w).2).1 = false ∧
                (HandleResult result (PQgetResult w).2).2.conn.copyInMode_ = true)) := by
          refine ⟨c0 :: cs1, es1, ?_, ?_, hes1r, Or.inl ⟨?_, hes1⟩⟩
          · rw [hc1, hcall]; simp
          · rw [he1, hevs]
          · intro c hc
            rcases List.mem_cons.mp hc with rfl | h
            · exact hfirst
            · exact hcs1 c h
        split
        · exact hstop
        split
        · exact hstop
        · obtain ⟨cs2, es2, hc2, he2, hr2, h2⟩ :=
            ih (HandleResult result (PQgetResult w).2).1 (HandleResult result (PQgetResult w).2).2
          refine ⟨c0 :: (cs1 ++ cs2), es1 ++ es2, ?_, ?_, ?_, ?_⟩
          · rw [hc2, hc1, hcall]; simp
          · rw [he2, he1, hevs]; simp
          · simp [hes1r, hr2]
          · rcases h2 with ⟨h2a, h2b⟩ | ⟨⟨pre, c, hpre, hc, hx, hcount, hrdy⟩, h2b, h2c⟩
            · left
              refine ⟨?_, by simp [hes1, h2b]⟩
              intro c hc
              rcases List.mem_cons.mp hc with rfl | h
              · exact hfirst
              · rcases List.mem_append.mp h with h | h
                · exact hcs1 c h
                · exact h2a c h
            · right
              refine ⟨⟨c0 :: (cs1 ++ pre), c, by simp [hpre], hc, ?_, ?_, by simp [hes1r, hrdy]⟩,
                h2b, h2c⟩
              · intro x hx1
                rcases List.mem_cons.mp hx1 with rfl | h
                · exact hfirst
                · rcases List.mem_append.mp h with h | h
                  · exact hcs1 x h
                  · exact hx x h
              · rw [List.count_append, hcount, List.count_eq_zero_of_not_mem hes1]

theorem copyInMode_HandleCopyOut_loop (fuel : Nat) (w : World) :
    (HandleCopyOut.loop fuel w).2.conn.copyInMode_ = w.conn.copyInMode_ := by
  induction fuel generalizing w with
  | zero => rfl
  | succ n ih =>
    simp only [HandleCopyOut.loop]
    split
    · rw [ih]; simp [PQgetCopyData]
    · simp [PQgetCopyData]

theorem copyInMode_HandleCopyOut (w : World) :
    (HandleCopyOut w).2.conn.copyInMode_ = w.conn.copyInMode_ := by
  have h := copyInMode_HandleCopyOut_loop (w.engine.getCopyData.length + 1) w
  simp only [HandleCopyOut]
  split_ifs <;> exact h

theorem copyInMode_notifyLoop (fuel : Nat) (w : World) :
    (HandleIOEvent.notifyLoop fuel w).conn.copyInMode_ = w.conn.copyInMode_ := by
  induction fuel generalizing w with
  | zero => rfl
  | succ n ih =>
    simp only [HandleIOEvent.notifyLoop]
    split
    · simp [PQnotifies]
    · rw [ih]; simp [PQnotifies]

theorem copyInMode_writable (revents : Nat) (w : World) :
    (HandleIOEvent.writable revents w).conn.copyInMode_ = w.conn.copyInMode_ := by
  simp only [HandleIOEvent.writable]
  split
  · split
    · rw [conn_StartRead]; simp [PQflush]
    · simp [PQflush]
  · rfl

theorem results_copy_in (w : World) :
    ∃ cs es, (HandleIOEvent.results w).calls = w.calls ++ cs ∧
      (HandleIOEvent.results w).events = w.events ++ es ∧
      (NoCopyIn cs es ∨
        (EndsInCopyIn cs es ∧ (HandleIOEvent.results w).conn.copyInMode_ = true)) := by
  simp only [HandleIOEvent.results]
  split
  · obtain ⟨c0, hc0⟩ : ∃ c0 : Call, c0 = ⟨w.conn.connection_.isSome, Fn.PQisBusy⟩ := ⟨_, rfl⟩
    have hcall : (PQisBusy w).2.calls = w.calls ++ [c0] := by rw [hc0]; simp [PQisBusy]
    have hevs : (PQisBusy w).2.events = w.events := by simp [PQisBusy]
    have hfirst : c0.fn.isCopyInFetch = false := by rw [hc0]; rfl
    split
    · obtain ⟨cs, es, h1, h2, h3, h4⟩ := resultLoop_copy_in
        ((PQisBusy w).2.engine.getResult.length + 1) false (PQisBusy w).2
      rcases h4 with ⟨h4a, h4b⟩ | ⟨⟨pre, c, hpre, hc, hx, hcount, hrdy⟩, h4b, h4c⟩
      · have hplain : ∃ cs1 es1,
            (HandleIOEvent.resultLoop ((PQisBusy w).2.engine.getResult.length + 1) false
              (PQisBusy w).2).2.calls = w.calls ++ cs1 ∧
            (HandleIOEvent.resultLoop ((PQisBusy w).2.engine.getResult.length + 1) false
              (PQisBusy w).2).2.events = w.events ++ es1 ∧
            (NoCopyIn cs1 es1 ∨
              (EndsInCopyIn cs1 es1 ∧
                (HandleIOEvent.resultLoop ((PQisBusy w).2.engine.getResult.length + 1) false
                  (PQisBusy w).2).2.conn.copyInMode_ = true)) := by
          refine ⟨c0 :: cs, es, ?_, ?_, Or.inl ⟨?_, h4b⟩⟩
          · rw [h1, hcall]; simp
          · rw [h2, hevs]
          · intro x hx
            rcases List.mem_cons.mp hx with rfl | h
            · exact hfirst
            · exact h4a x h
        split
        · exact hplain
        split
        · refine ⟨c0 :: cs, es ++ [Event._readyForQuery], ?_, ?_, Or.inl ⟨?_, ?_⟩⟩
          · rw [Emit_calls, h1, hcall]; simp
          · rw [Emit_events, h2, hevs]; simp
          · intro x hx
            rcases List.mem_cons.mp hx with rfl | h
            · exact hfirst
            · exact h4a x h
          · simp [h4b]
        · exact hplain
      · rw [h4b]
        simp only [Bool.false_eq_true, if_false, ite_self]
        refine ⟨c0 :: cs, es, ?_, ?_, Or.inr ⟨⟨c0 :: pre, c, by simp [hpre], hc, ?_, hcount, hrdy⟩,
          h4c⟩⟩
        · rw [h1, hcall]; simp
        · rw [h2, hevs]
        · intro x hx1
          rcases List.mem_cons.mp hx1 with rfl | h
          · exact hfirst
          · exact hx x h
    · exact ⟨[c0], [], hcall, by simp [hevs], Or.inl ⟨by simpa using hfirst, by simp⟩⟩
  · exact ⟨[], [], by simp, by simp, Or.inl ⟨by simp, by simp⟩⟩

theorem isGetResult_of_isCopyInFetch {f : Fn} (h : f.isCopyInFetch = true) :
    f.isGetResult = true := by
  cases f <;> simp_all [Fn.isCopyInFetch, Fn.isGetResult]

/-- Calls that are no `PQgetResult`, events that are neither `copyInResponse`
nor `_readyForQuery`: what a cycle logs outside its result drain. -/
theorem extends_outside_drain_before (w : World) :
    Extends (fun f => f.isGetResult = false)
      (fun e => e ≠ Event.copyInResponse ∧ e ≠ Event._readyForQuery) (PQconsumeInput w).2
      (if (PQconsumeInput w).2.conn.copyOutMode_ then (HandleCopyOut (PQconsumeInput w).2).2
        else (PQconsumeInput w).2) := by
  split
  · exact @extends_HandleCopyOut (fun f => f.isGetResult = false)
      (fun e => e ≠ Event.copyInResponse ∧ e ≠ Event._readyForQuery) rfl
      (fun b => ⟨by simp, by simp⟩) _
  · exact Extends.refl _ _ _

theorem extends_outside_drain_after (revents : Nat) (w : World) :
    Extends (fun f => f.isGetResult = false)
      (fun e => e ≠ Event.copyInResponse ∧ e ≠ Event._readyForQuery) w
      (if w.halted then w
        else HandleIOEvent.writable revents
          (HandleIOEvent.notifyLoop (w.engine.notifies.length + 1) w)) := by
  split
  · exact Extends.refl _ _ _
  · exact (@extends_notifyLoop (fun f => f.isGetResult = false)
        (fun e => e ≠ Event.copyInResponse ∧ e ≠ Event._readyForQuery) rfl
        (fun a b => ⟨by simp, by simp⟩) _ w).trans
      (@extends_writable (fun f => f.isGetResult = false)
        (fun e => e ≠ Event.copyInResponse ∧ e ≠ Event._readyForQuery) revents _ rfl
        (fun _ => rfl) (fun _ => rfl))

theorem copyInMode_outside_drain_after (revents : Nat) (w : World) :
    (if w.halted then w
      else HandleIOEvent.writable revents
        (HandleIOEvent.notifyLoop (w.engine.notifies.length + 1) w)).conn.copyInMode_ =
      w.conn.copyInMode_ := by
  split
  · rfl
  · rw [copyInMode_writable, copyInMode_notifyLoop]

theorem extends_consumeInput_failed (w : World) :
    Extends (fun f => f.isFetch = false) (fun e => e = Event._end ∨ ∃ a, e = Event._error a) w
      (EmitLastError (End (PQconsumeInput w).2)) :=
  have h1 : Extends (fun f => f.isFetch = false)
      (fun e => e = Event._end ∨ ∃ a, e = Event._error a) w (PQconsumeInput w).2 :=
    Extends.engineCall w _ _ rfl
  (h1.trans
    (@extends_End (fun f => f.isFetch = false)
      (fun e => e = Event._end ∨ ∃ a, e = Event._error a) _ rfl rfl rfl (Or.inl rfl))).trans
    (@extends_EmitLastError (fun f => f.isFetch = false)
      (fun e => e = Event._end ∨ ∃ a, e = Event._error a) _ rfl (fun a => Or.inr ⟨a, rfl⟩))

theorem isGetResult_of_not_isFetch {f : Fn} (h : f.isFetch = false) : f.isGetResult = false := by
  cases f <;> simp_all [Fn.isFetch, Fn.isGetResult]

theorem extends_HandleIOEvent_in_copy_in (w : World) (revents : Nat)
    (h : w.conn.copyInMode_ = true) :
    Extends (fun f => f.isGetResult = false) (fun _ => True) w (HandleIOEvent revents w) := by
  simp only [HandleIOEvent]
  split
  · exact @extends_HandleConnection (fun f => f.isGetResult = false) (fun _ => True) w rfl
      (fun _ => rfl) (fun _ => rfl) rfl (fun _ => trivial) trivial
  · split
    · split
      · exact (extends_consumeInput_failed w).mono (fun f => isGetResult_of_not_isFetch)
          (fun _ _ => trivial)
      · have h1 : (if (PQconsumeInput w).2.conn.copyOutMode_ then
            (HandleCopyOut (PQconsumeInput w).2).2 else (PQconsumeInput w).2).conn.copyInMode_
            = true := by
          split
          · rw [copyInMode_HandleCopyOut]; simpa [PQconsumeInput] using h
          · simpa [PQconsumeInput] using h
        have h2 : ∀ w1 : World, w1.conn.copyInMode_ = true → HandleIOEvent.results w1 = w1 := by
          intro w1 hw1
          simp [HandleIOEvent.results, hw1]
        rw [h2 _ h1]
        have hA : Extends (fun f => f.isGetResult = false) (fun _ : Event => True) w
            (PQconsumeInput w).2 := Extends.engineCall w _ _ rfl
        exact (hA.trans ((extends_outside_drain_before w).mono (fun _ hf => hf)
          (fun _ _ => trivial))).trans
          ((extends_outside_drain_after revents _).mono (fun _ hf => hf) (fun _ _ => trivial))
    · exact @extends_writable (fun f => f.isGetResult = false) (fun _ => True) revents w rfl
        (fun _ => rfl) (fun _ => rfl)

/-- C7: in a cycle in which the result drain fetches a copy-in result, the
object enters the copy-in mode, exactly one `copyInResponse` event is emitted
and no `_readyForQuery` event, and the fetch of the copy-in result is the last
`PQgetResult` call of the cycle (and its only fetch of a copy-in result); and
in every cycle that starts with the copy-in flag set, no `PQgetResult` call is
made. -/
theorem C7_copy_in_result (w : World) (revents : Nat)
    (hfetch : ∃ c ∈ callsSince w (HandleIOEvent revents w), c.fn.isCopyInFetch = true) :
    (HandleIOEvent revents w).conn.copyInMode_ = true ∧
      (eventsSince w (HandleIOEvent revents w)).count Event.copyInResponse = 1 ∧
      Event._readyForQuery ∉ eventsSince w (HandleIOEvent revents w) ∧
      (∃ before c after, callsSince w (HandleIOEvent revents w) = before ++ c :: after ∧
        c.fn.isCopyInFetch = true ∧ (∀ x ∈ before, x.fn.isCopyInFetch = false) ∧
        ∀ x ∈ after, x.fn.isGetResult = false) ∧
      (∀ (w2 : World) (revents2 : Nat), w2.conn.copyInMode_ = true →
        ∀ c ∈ callsSince w2 (HandleIOEvent revents2 w2), c.fn.isGetResult = false) := by
  have hlater : ∀ (w2 : World) (revents2 : Nat), w2.conn.copyInMode_ = true →
      ∀ c ∈ callsSince w2 (HandleIOEvent revents2 w2), c.fn.isGetResult = false :=
    fun w2 revents2 h2 => (extends_HandleIOEvent_in_copy_in w2 revents2 h2).calls_mem
  have hno : ∀ {w1 : World}, Extends (fun f => f.isGetResult = false) (fun _ => True) w w1 →
      ¬ ∃ c ∈ callsSince w w1, c.fn.isCopyInFetch = true := by
    rintro w1 hext ⟨c, hc, hf⟩
    have : c.fn.isGetResult = false := hext.calls_mem c hc
    rw [isGetResult_of_isCopyInFetch hf] at this
    exact Bool.noConfusion this
  by_cases hconn : w.conn.connecting_ = true
  · exfalso
    refine hno ?_ hfetch
    have : HandleIOEvent revents w = HandleConnectionIO w := by simp [HandleIOEvent, hconn]
    rw [this]
    exact @extends_HandleConnection (fun f => f.isGetResult = false) (fun _ => True) w rfl
      (fun _ => rfl) (fun _ => rfl) rfl (fun _ => trivial) trivial
  by_cases hread : revents &&& UV_READABLE ≠ 0
  swap
  · exfalso
    refine hno ?_ hfetch
    have : HandleIOEvent revents w = HandleIOEvent.writable revents w := by
      simp only [HandleIOEvent, hconn, hread, if_false, Bool.false_eq_true, not_true_eq_false]
    rw [this]
    exact @extends_writable (fun f => f.isGetResult = false) (fun _ => True) revents w rfl
      (fun _ => rfl) (fun _ => rfl)
  by_cases hcons : (PQconsumeInput w).1 = 0
  · exfalso
    refine hno ?_ hfetch
    have : HandleIOEvent revents w = EmitLastError (End (PQconsumeInput w).2) := by
      simp only [HandleIOEvent, hconn, hread, hcons, if_true, if_false, Bool.false_eq_true,
        ne_eq, not_false_eq_true]
    rw [this]
    exact (extends_consumeInput_failed w).mono (fun f => isGetResult_of_not_isFetch)
      (fun _ _ => trivial)
  obtain ⟨w1, hw1⟩ : ∃ w1 : World, w1 = (if (PQconsumeInput w).2.conn.copyOutMode_ then
      (HandleCopyOut (PQconsumeInput w).2).2 else (PQconsumeInput w).2) := ⟨_, rfl⟩
  have heq : HandleIOEvent revents w =
      if (HandleIOEvent.results w1).halted then HandleIOEvent.results w1
      else HandleIOEvent.writable revents
        (HandleIOEvent.notifyLoop ((HandleIOEvent.results w1).engine.notifies.length + 1)
          (HandleIOEvent.results w1)) := by
    simp only [HandleIOEvent, hconn, hread, hcons, if_true, if_false, hw1, Bool.false_eq_true,
      ne_eq, not_false_eq_true]
  have hA0 : Extends (fun f => f.isGetResult = false)
      (fun e => e ≠ Event.copyInResponse ∧ e ≠ Event._readyForQuery) w (PQconsumeInput w).2 :=
    Extends.engineCall w _ _ rfl
  obtain ⟨csA, esA, hcA, heA, hpA, hqA⟩ := hA0.trans (hw1 ▸ extends_outside_drain_before w)
  obtain ⟨cs, es, hcB, heB, hB⟩ := results_copy_in w1
  obtain ⟨csC, esC, hcC, heC, hpC, hqC⟩ :=
    extends_outside_drain_after revents (HandleIOEvent.results w1)
  rw [← heq] at hcC heC
  have hcalls : (HandleIOEvent revents w).calls = w.calls ++ (csA ++ cs ++ csC) := by
    rw [hcC, hcB, hcA]; simp
  have hevents : (HandleIOEvent revents w).events = w.events ++ (esA ++ es ++ esC) := by
    rw [heC, heB, heA]; simp
  have hmode : (HandleIOEvent revents w).conn.copyInMode_ =
      (HandleIOEvent.results w1).conn.copyInMode_ := by
    rw [heq, copyInMode_outside_drain_after]
  rw [callsSince_append _ _ _ hcalls] at hfetch ⊢
  rw [eventsSince_append _ _ _ hevents]
  have hnA : ∀ x ∈ csA, x.fn.isCopyInFetch = false := by
    intro x hx
    cases hf : x.fn.isCopyInFetch
    · rfl
    · have : x.fn.isGetResult = false := hpA x hx
      rw [isGetResult_of_isCopyInFetch hf] at this
      exact Bool.noConfusion this
  have hnC : ∀ x ∈ csC, x.fn.isCopyInFetch = false := by
    intro x hx
    cases hf : x.fn.isCopyInFetch
    · rfl
    · have : x.fn.isGetResult = false := hpC x hx
      rw [isGetResult_of_isCopyInFetch hf] at this
      exact Bool.noConfusion this
  rcases hB with ⟨hB1, hB2⟩ | ⟨⟨pre, c, hpre, hc, hx, hcount, hrdy⟩, hB2⟩
  · exfalso
    obtain ⟨c, hc, hf⟩ := hfetch
    simp only [List.mem_append] at hc
    rcases hc with (h | h) | h
    · rw [hnA c h] at hf; exact Bool.noConfusion hf
    · rw [hB1 c h] at hf; exact Bool.noConfusion hf
    · rw [hnC c h] at hf; exact Bool.noConfusion hf
  · refine ⟨hmode.trans hB2, ?_, ?_, ⟨csA ++ pre, c, csC, by simp [hpre], hc, ?_, hpC⟩, hlater⟩
    · rw [List.count_append, List.count_append, hcount,
        List.count_eq_zero_of_not_mem (fun h => (hqA _ h).1 rfl),
        List.count_eq_zero_of_not_mem (fun h => (hqC _ h).1 rfl)]
    · simp only [List.mem_append, not_or]
      exact ⟨⟨fun h => (hqA _ h).2 rfl, hrdy⟩, fun h => (hqC _ h).2 rfl⟩
    · intro x hx1
      rcases List.mem_append.mp hx1 with h | h
      · exact hnA x h
      · exact hx x h

/-- C7 at a concrete cycle: the engine holds a copy-in result. -/
theorem C7_copy_in_result_witness :
    (HandleIOEvent UV_READABLE copyInPending).conn.copyInMode_ = true ∧
      (eventsSince copyInPending (HandleIOEvent UV_READABLE copyInPending)).count
        Event.copyInResponse = 1 ∧
      Event._readyForQuery ∉ eventsSince copyInPending (HandleIOEvent UV_READABLE copyInPending) :=
  ⟨(C7_copy_in_result copyInPending UV_READABLE (by decide)).1,
   (C7_copy_in_result copyInPending UV_READABLE (by decide)).2.1,
   (C7_copy_in_result copyInPending UV_READABLE (by decide)).2.2.1⟩

/-! ## C8: notifications -/

theorem engine_HandleCopyOut_loop (fuel : Nat) (w : World) :
    (HandleCopyOut.loop fuel w).2.engine =
      { w.engine with getCopyData := (HandleCopyOut.loop fuel w).2.engine.getCopyData } := by
  induction fuel generalizing w with
  | zero => rfl
  | succ n ih =>
    simp only [HandleCopyOut.loop]
    split
    · rw [ih]; simp [PQgetCopyData]
    · simp [PQgetCopyData]

theorem engine_HandleCopyOut (w : World) :
    (HandleCopyOut w).2.engine =
      { w.engine with getCopyData := (HandleCopyOut w).2.engine.getCopyData } := by
  have h := engine_HandleCopyOut_loop (w.engine.getCopyData.length + 1) w
  simp only [HandleCopyOut]
  split_ifs
  · exact h
  · simpa using h
  · simpa using h
  · exact h

theorem engine_HandleResult (result : PGresult) (w : World) :
    (HandleResult result w).2.engine =
      { w.engine with getCopyData := (HandleResult result w).2.engine.getCopyData } := by
  simp only [HandleResult]
  split
  all_goals first
    | (rw [engine_HandleCopyOut]; simp)
    | (simp only [HandleErrorResult]; split <;> simp)
    | (simp [EmitCommandMetaData, HandleTuplesResult_eq, EmitRowDescription_eq])

theorem notifies_resultLoop (fuel : Nat) (d : Bool) (w : World) :
    (HandleIOEvent.resultLoop fuel d w).2.engine.notifies = w.engine.notifies := by
  induction fuel generalizing d w with
  | zero => rfl
  | succ n ih =>
    simp only [HandleIOEvent.resultLoop]
    split
    · simp [PQgetResult]
    · split
      · simp only []
        rw [engine_HandleResult]; simp [PQgetResult]
      · split
        · simp only []
          rw [engine_HandleResult]; simp [PQgetResult]
        · rw [ih, engine_HandleResult]; simp [PQgetResult]

theorem notifies_results (w : World) :
    (HandleIOEvent.results w).engine.notifies = w.engine.notifies := by
  simp only [HandleIOEvent.results]
  split
  · split
    · split
      · simp [notifies_resultLoop, PQisBusy]
      · split
        · simp [notifies_resultLoop, PQisBusy]
        · simp [notifies_resultLoop, PQisBusy]
    · simp [PQisBusy]
  · rfl

theorem extends_resultLoop {Pc : Fn → Prop} {Pe : Event → Prop}
    (hg : ∀ s, Pc (Fn.PQgetResult s)) (hcd : Pc Fn.PQgetCopyData)
    (hd : ∀ e, e.isData = true → Pe e) (hci : Pe Event.copyInResponse) (fuel : Nat) (d : Bool)
    (w : World) : Extends Pc Pe w (HandleIOEvent.resultLoop fuel d w).2 := by
  induction fuel generalizing d w with
  | zero => exact Extends.refl _ _ _
  | succ n ih =>
    simp only [HandleIOEvent.resultLoop]
    have hp : Extends Pc Pe w (PQgetResult w).2 := Extends.engineCall w _ _ (hg _)
    split
    · exact hp
    · rename_i result _
      have hh : Extends Pc Pe (PQgetResult w).2 (HandleResult result (PQgetResult w).2).2 := by
        by_cases hs : result.resultStatus = ExecStatusType.PGRES_COPY_IN
        · rw [HandleResult_copy_in result _ hs]
          have hq : Extends Pc Pe (PQgetResult w).2
              ({ (PQgetResult w).2 with
                  conn := { (PQgetResult w).2.conn with copyInMode_ := true } } : World) :=
            Extends.of_eq rfl rfl
          exact hq.trans (Extends.emit _ _ hci)
        · exact extends_HandleResult result hs hcd hd _
      split
      · exact hp.trans hh
      · split
        · exact hp.trans hh
        · exact (hp.trans hh).trans (ih _ _)

theorem extends_results {Pc : Fn → Prop} {Pe : Event → Prop}
    (hb : Pc Fn.PQisBusy) (hg : ∀ s, Pc (Fn.PQgetResult s)) (hcd : Pc Fn.PQgetCopyData)
    (hd : ∀ e, e.isData = true → Pe e) (hci : Pe Event.copyInResponse)
    (hr : Pe Event._readyForQuery) (w : World) : Extends Pc Pe w (HandleIOEvent.results w) := by
  simp only [HandleIOEvent.results]
  have hp : Extends Pc Pe w (PQisBusy w).2 := Extends.engineCall w _ _ hb
  split
  · split
    · have hl := @extends_resultLoop Pc Pe hg hcd hd hci
        ((PQisBusy w).2.engine.getResult.length + 1) false (PQisBusy w).2
      split
      · exact hp.trans hl
      · split
        · exact (hp.trans hl).trans (Extends.emit _ _ hr)
        · exact hp.trans hl
    · exact hp
  · exact Extends.refl _ _ _

theorem isData_not_notification {e : Event} (h : e.isData = true) : e.isNotification = false := by
  cases e <;> simp_all [Event.isData, Event.isNotification]

theorem HandleCopyOut_no_chunk (w : World) (h : (PQgetCopyData w).1.copied ≤ 0) :
    (HandleCopyOut w).2.events = w.events ∧
      (HandleCopyOut w).2.engine = { w.engine with getCopyData := w.engine.getCopyData.tail } := by
  have hn : ¬ (PQgetCopyData w).1.copied > 0 := by omega
  have hl : HandleCopyOut.loop (w.engine.getCopyData.length + 1) w =
      ((PQgetCopyData w).1.copied, (PQgetCopyData w).2) := by
    simp only [HandleCopyOut.loop, hn, if_false]
  simp only [HandleCopyOut, hl]
  split_ifs <;> simp [PQgetCopyData]

theorem results_no_result (w : World) (h : (PQgetResult w).1 = none) :
    (HandleIOEvent.results w).events = w.events := by
  simp only [HandleIOEvent.results]
  split
  · split
    · have hb : (PQgetResult (PQisBusy w).2).1 = none := by
        simp only [PQgetResult] at h
        simp only [PQgetResult, PQisBusy, log_engine, engine_setEngine, h]
      simp only [HandleIOEvent.resultLoop, hb]
      simp [PQgetResult, PQisBusy]
    · simp [PQisBusy]
  · rfl

/-- What a read-readiness callback does with the notifications, in every cycle
the process survives.  Outside the handshake and with input consumed, whatever
the copy flags are, the events of the cycle are result events (none of them a
notification) followed by exactly one notification event per notification the
engine has pending, in the engine's order, each with its channel and payload;
and when neither a copy chunk nor a result object is available there are no
result events: the cycle emits just the notification events, and no
`_readyForQuery`. -/
theorem notifications_after_results (w : World) (revents : Nat)
    (hconn : w.conn.connecting_ = false) (hread : revents &&& UV_READABLE ≠ 0)
    (hconsumed : (PQconsumeInput w).1 ≠ 0)
    (hlive : (HandleIOEvent revents w).halted = false) :
    ∃ resultEvents : List Event,
      (∀ e ∈ resultEvents, e.isNotification = false) ∧
      eventsSince w (HandleIOEvent revents w) =
        resultEvents ++ (pendingNotifications w.engine.notifies).map notificationEvent ∧
      (((w.conn.copyOutMode_ = true → (PQgetCopyData w).1.copied ≤ 0) ∧
          (PQgetResult w).1 = none) →
        resultEvents = [] ∧
        eventsSince w (HandleIOEvent revents w) =
          (pendingNotifications w.engine.notifies).map notificationEvent) := by
  obtain ⟨w1, hw1⟩ : ∃ w1 : World, w1 = (if (PQconsumeInput w).2.conn.copyOutMode_ then
      (HandleCopyOut (PQconsumeInput w).2).2 else (PQconsumeInput w).2) := ⟨_, rfl⟩
  have heq0 : HandleIOEvent revents w =
      if (HandleIOEvent.results w1).halted then HandleIOEvent.results w1
      else HandleIOEvent.writable revents
        (HandleIOEvent.notifyLoop ((HandleIOEvent.results w1).engine.notifies.length + 1)
          (HandleIOEvent.results w1)) := by
    simp only [HandleIOEvent, hconn, hread, hconsumed, if_true, if_false, hw1,
      Bool.false_eq_true, ne_eq, not_false_eq_true]
  have hres : (HandleIOEvent.results w1).halted = false := by
    cases hh : (HandleIOEvent.results w1).halted
    · rfl
    · rw [heq0] at hlive
      simp only [hh, if_true] at hlive
      exact Bool.noConfusion hlive
  have heq : HandleIOEvent revents w = HandleIOEvent.writable revents
      (HandleIOEvent.notifyLoop ((HandleIOEvent.results w1).engine.notifies.length + 1)
        (HandleIOEvent.results w1)) := by
    rw [heq0]
    simp only [hres, Bool.false_eq_true, if_false]
  have hA0 : Extends (fun _ => True) (fun e => e.isNotification = false) w
      (PQconsumeInput w).2 := Extends.engineCall w _ _ trivial
  have hA1 : Extends (fun _ => True) (fun e => e.isNotification = false) (PQconsumeInput w).2
      w1 := by
    rw [hw1]
    split
    · exact @extends_HandleCopyOut (fun _ => True) (fun e => e.isNotification = false) trivial
        (fun b => rfl) _
    · exact Extends.refl _ _ _
  have hB : Extends (fun _ => True) (fun e => e.isNotification = false) w1
      (HandleIOEvent.results w1) :=
    @extends_results (fun _ => True) (fun e => e.isNotification = false) trivial
      (fun _ => trivial) trivial (fun e => isData_not_notification) rfl rfl w1
  obtain ⟨cs, es, hcs, hes, -, hq⟩ := (hA0.trans hA1).trans hB
  have hnot1 : w1.engine.notifies = w.engine.notifies := by
    rw [hw1]
    split
    · rw [engine_HandleCopyOut]; simp [PQconsumeInput]
    · simp [PQconsumeInput]
  have hnot : (HandleIOEvent.results w1).engine.notifies = w.engine.notifies := by
    rw [notifies_results, hnot1]
  have hev : (HandleIOEvent revents w).events =
      w.events ++ (es ++ (pendingNotifications w.engine.notifies).map notificationEvent) := by
    rw [heq, events_writable, events_notifyLoop _ _ (Nat.lt_succ_self _), hnot, hes]
    simp
  have hsince := eventsSince_append _ _ _ hev
  refine ⟨es, hq, hsince, ?_⟩
  rintro ⟨hcopy, hres⟩
  have h1 : w1.events = w.events ∧ (PQgetResult w1).1 = none := by
    rw [hw1]
    split
    · rename_i hout
      have hout0 : w.conn.copyOutMode_ = true := by simpa [PQconsumeInput] using hout
      have hle : (PQgetCopyData (PQconsumeInput w).2).1.copied ≤ 0 := by
        simpa [PQgetCopyData, PQconsumeInput] using hcopy hout0
      obtain ⟨ha, hb⟩ := HandleCopyOut_no_chunk _ hle
      refine ⟨by rw [ha]; simp [PQconsumeInput], ?_⟩
      simp only [PQgetResult] at hres
      simp only [PQgetResult, hb]
      simpa [PQconsumeInput] using hres
    · refine ⟨by simp [PQconsumeInput], ?_⟩
      simp only [PQgetResult] at hres
      simp only [PQgetResult]
      simpa [PQconsumeInput] using hres
  have h2 : (HandleIOEvent.results w1).events = w.events := by
    rw [results_no_result w1 h1.2, h1.1]
  have hnil : es = [] := by
    rw [h2] at hes
    exact List.self_eq_append_right.mp hes
  refine ⟨hnil, ?_⟩
  rw [hsince, hnil]
  simp

/-- The cycle of `notifications_after_results` at a concrete state: an idle
object, two notifications pending, no result object. -/
theorem notifications_after_results_listening :
    eventsSince listening (HandleIOEvent UV_READABLE listening) =
      [Event.notification "jobs" "7", Event.notification "jobs" "8"] :=
  (notifications_after_results listening UV_READABLE rfl (by decide) (by decide)
      (by decide)).elim
    (fun _ h => (h.2.2 ⟨fun _ => by decide, rfl⟩).2)

theorem halted_StartRead (w : World) : (StartRead w).halted = w.halted := by
  obtain ⟨⟨c, cg, io, co, ci, r, wr, e⟩, n, cs, ev, cl, ht⟩ := w
  cases io <;> cases wr <;> simp [StartRead, StopWrite, World.log]

theorem halted_HandleCopyOut_loop (fuel : Nat) (w : World) :
    (HandleCopyOut.loop fuel w).2.halted = w.halted := by
  induction fuel generalizing w with
  | zero => rfl
  | succ n ih =>
    simp only [HandleCopyOut.loop]
    split
    · rw [ih]; simp [PQgetCopyData]
    · simp [PQgetCopyData]

theorem halted_HandleCopyOut (w : World) : (HandleCopyOut w).2.halted = w.halted := by
  have h := halted_HandleCopyOut_loop (w.engine.getCopyData.length + 1) w
  simp only [HandleCopyOut]
  split_ifs <;> exact h

theorem halted_notifyLoop (fuel : Nat) (w : World) :
    (HandleIOEvent.notifyLoop fuel w).halted = w.halted := by
  induction fuel generalizing w with
  | zero => rfl
  | succ n ih =>
    simp only [HandleIOEvent.notifyLoop]
    split
    · simp [PQnotifies]
    · rw [ih]; simp [PQnotifies]

theorem halted_writable (revents : Nat) (w : World) :
    (HandleIOEvent.writable revents w).halted = w.halted := by
  simp only [HandleIOEvent.writable]
  split
  · split
    · rw [halted_StartRead]; simp [PQflush]
    · simp [PQflush]
  · rfl

/-- The process dies in `HandleResult` on a fatal result, and on no other. -/
theorem halted_HandleResult (result : PGresult) (w : World) :
    (HandleResult result w).2.halted = (w.halted || result.fatal) := by
  simp only [HandleResult, PGresult.fatal]
  cases hs : result.resultStatus <;>
    simp [EmitCommandMetaData, HandleTuplesResult_eq, EmitRowDescription_eq,
      halted_HandleCopyOut, HandleErrorResult]
  cases result.resultErrorField DiagField.PG_DIAG_MESSAGE_PRIMARY <;> simp

theorem halted_resultLoop (fuel : Nat) (d : Bool) (w : World) (hrun : w.halted = false)
    (hok : ∀ result, some result ∈ w.engine.getResult → result.fatal = false) :
    (HandleIOEvent.resultLoop fuel d w).2.halted = false := by
  induction fuel generalizing d w with
  | zero => exact hrun
  | succ n ih =>
    have hp : (PQgetResult w).2.halted = false := by simpa [PQgetResult] using hrun
    simp only [HandleIOEvent.resultLoop]
    split
    · exact hp
    · rename_i result hres
      have hmem : some result ∈ w.engine.getResult := by
        cases hs : w.engine.getResult with
        | nil => simp [PQgetResult, hs] at hres
        | cons a t =>
          simp [PQgetResult, hs] at hres
          simp [hres]
      have hh : (HandleResult result (PQgetResult w).2).2.halted = false := by
        rw [halted_HandleResult, hp, hok result hmem]
        rfl
      split
      · exact hh
      · split
        · exact hh
        · apply ih _ _ hh
          intro r hr
          apply hok
          rw [engine_HandleResult] at hr
          simp only [PQgetResult, log_engine, engine_setEngine] at hr
          exact List.mem_of_mem_tail hr

theorem halted_results (w : World) (hrun : w.halted = false)
    (hok : ∀ result, some result ∈ w.engine.getResult → result.fatal = false) :
    (HandleIOEvent.results w).halted = false := by
  simp only [HandleIOEvent.results]
  split
  · have hb : (PQisBusy w).2.halted = false := by simpa [PQisBusy] using hrun
    split
    · have hl := halted_resultLoop ((PQisBusy w).2.engine.getResult.length + 1) false
        (PQisBusy w).2 hb (by simpa [PQisBusy] using hok)
      split
      · exact hl
      · split
        · simpa using hl
        · exact hl
    · exact hb
  · exact hrun

/-- A read-readiness cycle outside the handshake whose input is consumed is
survived by the process when no result the engine holds is fatal. -/
theorem cycle_survived (w : World) (revents : Nat) (hrun : w.halted = false)
    (hconn : w.conn.connecting_ = false) (hread : revents &&& UV_READABLE ≠ 0)
    (hconsumed : (PQconsumeInput w).1 ≠ 0)
    (hok : ∀ result, some result ∈ w.engine.getResult → result.fatal = false) :
    (HandleIOEvent revents w).halted = false := by
  have hc : (PQconsumeInput w).2.halted = false := by simpa [PQconsumeInput] using hrun
  have h1 : (if (PQconsumeInput w).2.conn.copyOutMode_ then
      (HandleCopyOut (PQconsumeInput w).2).2 else (PQconsumeInput w).2).halted = false := by
    split
    · rw [halted_HandleCopyOut]; exact hc
    · exact hc
  have h2 : (if (PQconsumeInput w).2.conn.copyOutMode_ then
      (HandleCopyOut (PQconsumeInput w).2).2 else (PQconsumeInput w).2).engine.getResult =
      w.engine.getResult := by
    split
    · rw [engine_HandleCopyOut]; simp [PQconsumeInput]
    · simp [PQconsumeInput]
  simp only [HandleIOEvent, hconn, hread, hconsumed, if_true, if_false, Bool.false_eq_true,
    ne_eq, not_false_eq_true]
  generalize (if (PQconsumeInput w).2.conn.copyOutMode_ then
      (HandleCopyOut (PQconsumeInput w).2).2 else (PQconsumeInput w).2) = w1 at h1 h2 ⊢
  have h3 := halted_results w1 h1 (by rw [h2]; exact hok)
  simp only [h3, Bool.false_eq_true, if_false]
  rw [halted_writable, halted_notifyLoop, h3]


/-- C8, the code at the failing input: a read-readiness callback on the
connected object reached by `errorPending`, which sent a query; input is
consumed, the engine holds the error result of the query (`PGRES_FATAL_ERROR`,
with its primary message) and one pending notification.  The cycle fetches the
error result and the process dies in `HandleErrorResult`, which calls
`msg->Set` on a handle that holds no object: no event at all is emitted,
`PQnotifies` is not called and the pending notification is not delivered. -/
theorem C8_error_result_ends_the_process :
    errorPending.halted = false ∧
      errorPending.conn.flags = (false, true, false, false, true, false, false) ∧
      pendingNotifications errorPending.engine.notifies = [{ relname := "jobs", extra := "7" }] ∧
      (HandleIOEvent UV_READABLE errorPending).halted = true ∧
      eventsSince errorPending (HandleIOEvent UV_READABLE errorPending) = [] ∧
      callsSince errorPending (HandleIOEvent UV_READABLE errorPending) =
        [{ live := true, fn := Fn.PQconsumeInput }, { live := true, fn := Fn.PQisBusy },
         { live := true, fn := Fn.PQgetResult (some ExecStatusType.PGRES_FATAL_ERROR) }] := by
  decide

/-! ## C9: input cannot be consumed -/

/-- What the code does when input cannot be consumed, in every state with a
live handle outside the handshake: it emits `_end` and then an `_error` whose
message is the answer of `PQerrorMessage` through the NULL handle, because
`End` has released the handle and reset `connection_` before `EmitLastError`
reads the error text. -/
theorem consumeInput_failed (w : World) (c : PGconn) (revents : Nat)
    (hc : w.conn.connection_ = some c) (hconn : w.conn.connecting_ = false)
    (hread : revents &&& UV_READABLE ≠ 0) (hfail : (PQconsumeInput w).1 = 0) :
    eventsSince w (HandleIOEvent revents w) =
        [Event._end, Event._error (ErrorArg.exception (w.nullConn.errorMessage.headD ""))] ∧
      (∀ x ∈ callsSince w (HandleIOEvent revents w), x.fn.isFetch = false) ∧
      (HandleIOEvent revents w).conn.connection_.isSome = false ∧
      (HandleIOEvent revents w).conn.ended_ = true ∧
      (w.conn.ioInitialized_ = true →
        (HandleIOEvent revents w).conn.reading_ = false ∧
        (HandleIOEvent revents w).conn.writing_ = false) := by
  have heq : HandleIOEvent revents w = EmitLastError (End (PQconsumeInput w).2) := by
    simp only [HandleIOEvent, hconn, hread, hfail, if_true, if_false, Bool.false_eq_true,
      ne_eq, not_false_eq_true]
  rw [heq]
  refine ⟨?_, (extends_consumeInput_failed w).calls_mem, ?_, ?_, ?_⟩
  · refine eventsSince_append _ _ _ ?_
    obtain ⟨⟨c0, cg, io, co, ci, r, wr, e⟩, n, cs, ev, cl, ht⟩ := w
    simp only at hc
    subst hc
    cases io <;> cases r <;> cases wr <;>
      simp [EmitLastError, EmitError, End, StopRead, StopWrite, DestroyConnection,
        PQconsumeInput, PQerrorMessage, World.log, World.setEngine, World.engine, Emit]
  · obtain ⟨⟨c0, cg, io, co, ci, r, wr, e⟩, n, cs, ev, cl, ht⟩ := w
    simp only at hc
    subst hc
    cases io <;> cases r <;> cases wr <;>
      simp [EmitLastError, EmitError, End, StopRead, StopWrite, DestroyConnection,
        PQconsumeInput, PQerrorMessage, World.log, World.setEngine, World.engine, Emit]
  · obtain ⟨⟨c0, cg, io, co, ci, r, wr, e⟩, n, cs, ev, cl, ht⟩ := w
    simp only at hc
    subst hc
    cases io <;> cases r <;> cases wr <;>
      simp [EmitLastError, EmitError, End, StopRead, StopWrite, DestroyConnection,
        PQconsumeInput, PQerrorMessage, World.log, World.setEngine, World.engine, Emit]
  · intro hio
    obtain ⟨⟨c0, cg, io, co, ci, r, wr, e⟩, n, cs, ev, cl, ht⟩ := w
    simp only at hc hio
    subst hc hio
    cases r <;> cases wr <;>
      simp [EmitLastError, EmitError, End, StopRead, StopWrite, DestroyConnection,
        PQconsumeInput, PQerrorMessage, World.log, World.setEngine, World.engine, Emit]

/-- C9, the code at the failing input: a connected object (reached by a
connect and its handshake) whose handle holds the error text "server closed
the connection unexpectedly" and whose `PQconsumeInput` fails.  The cycle emits `_end` and then an `_error` whose
message is the engine's text for a NULL handle, not the error text of the
connection: the last call, `PQerrorMessage`, is made after `PQfinish`, with
`connection_` already NULL.  The other parts of the claim hold: nothing is
fetched, both interests are cleared, the handle is released, `ended_` is set. -/
theorem C9_error_text_read_after_release :
    eventsSince brokenSocket (HandleIOEvent UV_READABLE brokenSocket) =
        [Event._end, Event._error (ErrorArg.exception "connection pointer is NULL")] ∧
      brokenSocket.engine.errorMessage = ["server closed the connection unexpectedly"] ∧
      callsSince brokenSocket (HandleIOEvent UV_READABLE brokenSocket) =
        [{ live := true, fn := Fn.PQconsumeInput },
         { live := true, fn := Fn.uv_poll_stop Watcher.read_watcher_ },
         { live := true, fn := Fn.PQfinish },
         { live := false, fn := Fn.PQerrorMessage }] ∧
      (HandleIOEvent UV_READABLE brokenSocket).conn.flags =
        (false, true, false, false, false, false, true) ∧
      (HandleIOEvent UV_READABLE brokenSocket).conn.connection_.isSome = false := by
  decide

/-! ## C10: the handshake -/

theorem HandleIOEvent_connecting (w : World) (revents : Nat) (hconn : w.conn.connecting_ = true) :
    HandleIOEvent revents w = HandleConnectionIO w := by
  simp only [HandleIOEvent, hconn, if_true]

/-- C10: a callback delivered during the handshake, the poll handles being
initialised.  If `PQconnectPoll` answers `PGRES_POLLING_READING`, the read
handle is started, `reading_` is set and `writing_` is cleared (the write
handle stopped if it was set); if it answers `PGRES_POLLING_WRITING`, the
write handle is started, `writing_` is set and `reading_` is cleared; if it
answers `PGRES_POLLING_OK`, `connecting_` is cleared, the other mode flags stay,
the read handle is started, `reading_` is set, `writing_` is cleared and
exactly one `connect` event is emitted.  In the first two cases no event is
emitted and `connecting_` stays set.  Whatever the answer, no result, copy chunk
or notification is fetched. -/
theorem C10_handshake_step (w : World) (revents : Nat) (hconn : w.conn.connecting_ = true)
    (hinit : w.conn.ioInitialized_ = true) :
    ((PQconnectPoll w).1 = PostgresPollingStatusType.PGRES_POLLING_READING →
        (HandleIOEvent revents w).conn.reading_ = true ∧
        (HandleIOEvent revents w).conn.writing_ = false ∧
        (HandleIOEvent revents w).conn.connecting_ = true ∧
        eventsSince w (HandleIOEvent revents w) = [] ∧
        callsSince w (HandleIOEvent revents w) =
          { live := w.conn.connection_.isSome, fn := Fn.PQconnectPoll } ::
            ((if w.conn.writing_ then
                [{ live := w.conn.connection_.isSome,
                   fn := Fn.uv_poll_stop Watcher.write_watcher_ }]
              else []) ++
              [{ live := w.conn.connection_.isSome,
                 fn := Fn.uv_poll_start Watcher.read_watcher_ }])) ∧
      ((PQconnectPoll w).1 = PostgresPollingStatusType.PGRES_POLLING_WRITING →
        (HandleIOEvent revents w).conn.writing_ = true ∧
        (HandleIOEvent revents w).conn.reading_ = false ∧
        (HandleIOEvent revents w).conn.connecting_ = true ∧
        eventsSince w (HandleIOEvent revents w) = [] ∧
        callsSince w (HandleIOEvent revents w) =
          { live := w.conn.connection_.isSome, fn := Fn.PQconnectPoll } ::
            ((if w.conn.reading_ then
                [{ live := w.conn.connection_.isSome,
                   fn := Fn.uv_poll_stop Watcher.read_watcher_ }]
              else []) ++
              [{ live := w.conn.connection_.isSome,
                 fn := Fn.uv_poll_start Watcher.write_watcher_ }])) ∧
      ((PQconnectPoll w).1 = PostgresPollingStatusType.PGRES_POLLING_OK →
        (HandleIOEvent revents w).conn.connecting_ = false ∧
        (HandleIOEvent revents w).conn.modeFlags =
          { w.conn with connecting_ := false }.modeFlags ∧
        (HandleIOEvent revents w).conn.reading_ = true ∧
        (HandleIOEvent revents w).conn.writing_ = false ∧
        eventsSince w (HandleIOEvent revents w) = [Event.connect] ∧
        callsSince w (HandleIOEvent revents w) =
          { live := w.conn.connection_.isSome, fn := Fn.PQconnectPoll } ::
            ((if w.conn.writing_ then
                [{ live := w.conn.connection_.isSome,
                   fn := Fn.uv_poll_stop Watcher.write_watcher_ }]
              else []) ++
              [{ live := w.conn.connection_.isSome,
                 fn := Fn.uv_poll_start Watcher.read_watcher_ }])) ∧
      (∀ c ∈ callsSince w (HandleIOEvent revents w), c.fn.isFetch = false) := by
  rw [HandleIOEvent_connecting w revents hconn]
  refine ⟨?_, ?_, ?_, ?_⟩
  · intro hp
    simp only [ HandleConnectionIO, hp]
    refine ⟨by rw [conn_StartRead], ?_, ?_, ?_, ?_⟩
    · rw [conn_StartRead]; simp [PQconnectPoll, hinit]
    · rw [conn_StartRead]; simp [PQconnectPoll, hconn]
    · exact eventsSince_append _ _ _ (by rw [events_StartRead]; simp [PQconnectPoll])
    · refine callsSince_append _ _ _ ?_
      rw [calls_StartRead]
      simp [PQconnectPoll, hinit]
  · intro hp
    simp only [ HandleConnectionIO, hp]
    refine ⟨by rw [conn_StartWrite], ?_, ?_, ?_, ?_⟩
    · rw [conn_StartWrite]; simp [PQconnectPoll, hinit]
    · rw [conn_StartWrite]; simp [PQconnectPoll, hconn]
    · exact eventsSince_append _ _ _ (by rw [events_StartWrite]; simp [PQconnectPoll])
    · refine callsSince_append _ _ _ ?_
      rw [calls_StartWrite]
      simp [PQconnectPoll, hinit]
  · intro hp
    simp only [ HandleConnectionIO, hp]
    refine ⟨?_, ?_, ?_, ?_, ?_, ?_⟩
    · rw [Emit_conn, conn_StartRead]
    · rw [Emit_conn, conn_StartRead]; simp [PQconnectPoll, Connection.modeFlags]
    · rw [Emit_conn, conn_StartRead]
    · rw [Emit_conn, conn_StartRead]; simp [PQconnectPoll, hinit]
    · exact eventsSince_append _ _ _ (by rw [Emit_events, events_StartRead]; simp [PQconnectPoll])
    · refine callsSince_append _ _ _ ?_
      rw [Emit_calls, calls_StartRead]
      simp [PQconnectPoll, hinit]
  · exact (@extends_HandleConnection (fun f => f.isFetch = false) (fun _ => True) w rfl
      (fun _ => rfl) (fun _ => rfl) rfl (fun _ => trivial) trivial).calls_mem

/-- C10 at a concrete handshake: the engine answers needs-read to the first
callback. -/
theorem C10_handshake_step_witness :
    (HandleIOEvent UV_WRITABLE (handshaking connectedHandle)).conn.reading_ = true ∧
      (HandleIOEvent UV_WRITABLE (handshaking connectedHandle)).conn.writing_ = false ∧
      (∀ c ∈ callsSince (handshaking connectedHandle)
          (HandleIOEvent UV_WRITABLE (handshaking connectedHandle)), c.fn.isFetch = false) :=
  ⟨((C10_handshake_step (handshaking connectedHandle) UV_WRITABLE rfl rfl).1 rfl).1,
   ((C10_handshake_step (handshaking connectedHandle) UV_WRITABLE rfl rfl).1 rfl).2.1,
   (C10_handshake_step (handshaking connectedHandle) UV_WRITABLE rfl rfl).2.2.2⟩

/-! ## The loops leave through their own test

The three `while` loops are given one unit of fuel more than the script they
consume is long.  More fuel changes nothing: the fuel never runs out. -/

theorem HandleCopyOut_loop_fuel (fuel : Nat) (w : World)
    (h : w.engine.getCopyData.length < fuel) :
    HandleCopyOut.loop fuel w = HandleCopyOut.loop (w.engine.getCopyData.length + 1) w := by
  induction fuel generalizing w with
  | zero => omega
  | succ n ih =>
    simp only [HandleCopyOut.loop]
    split
    · rename_i hpos
      cases hs : w.engine.getCopyData with
      | nil => simp [PQgetCopyData, hs] at hpos
      | cons a t =>
        have ht : (Emit (Event.copyData (List.take (PQgetCopyData w).1.copied.toNat
            (PQgetCopyData w).1.buffer)) (PQgetCopyData w).2).engine.getCopyData = t := by
          simp [PQgetCopyData, hs]
        rw [ih _ (by rw [ht]; rw [hs] at h; simp at h; omega), ht]
        simp
    · rfl

theorem resultLoop_fuel (fuel : Nat) (d : Bool) (w : World)
    (h : w.engine.getResult.length < fuel) :
    HandleIOEvent.resultLoop fuel d w =
      HandleIOEvent.resultLoop (w.engine.getResult.length + 1) d w := by
  induction fuel generalizing d w with
  | zero => omega
  | succ n ih =>
    simp only [HandleIOEvent.resultLoop]
    split
    · rfl
    · rename_i result hres
      split
      · rfl
      · cases hs : w.engine.getResult with
        | nil => simp [PQgetResult, hs] at hres
        | cons a t =>
          have ht : (HandleResult result (PQgetResult w).2).2.engine.getResult = t := by
            rw [engine_HandleResult]
            simp [PQgetResult, hs]
          rw [ih _ _ (by rw [ht]; rw [hs] at h; simp at h; omega), ht]
          simp

theorem notifyLoop_fuel (fuel : Nat) (w : World) (h : w.engine.notifies.length < fuel) :
    HandleIOEvent.notifyLoop fuel w =
      HandleIOEvent.notifyLoop (w.engine.notifies.length + 1) w := by
  induction fuel generalizing w with
  | zero => omega
  | succ n ih =>
    simp only [HandleIOEvent.notifyLoop]
    split
    · rfl
    · rename_i notify hres
      cases hs : w.engine.notifies with
      | nil => simp [PQnotifies, hs] at hres
      | cons a t =>
        have ht : (Emit (Event.notification notify.relname notify.extra)
            (PQnotifies w).2).engine.notifies = t := by
          simp [PQnotifies, hs]
        rw [ih _ (by rw [ht]; rw [hs] at h; simp at h; omega), ht]
        simp

/-! ## C11: the handshake fails -/

/-- C11, as stated, fails: after a connect that succeeds and a callback to
which `PQconnectPoll` answers `PGRES_POLLING_FAILED`, the error is reported and
both interests are cleared, but `connecting_` is still set: the object is still
in the handshake. -/
theorem C11_still_connecting_after_failed_poll :
    failedHandshake.conn.connecting_ = true ∧
      failedHandshake.events =
        [Event._error (ErrorArg.exception "could not connect to server")] ∧
      failedHandshake.conn.reading_ = false ∧ failedHandshake.conn.writing_ = false := by
  decide

/-- C11, amended: in a callback delivered during the handshake, the poll
handles being initialised, to which `PQconnectPoll` answers
`PGRES_POLLING_FAILED`: both interests are cleared (the handles that were
started are stopped), exactly one `_error` event is emitted and it carries the
answer of `PQerrorMessage` on the handle of the connection, which is not
released; the binding has no failed mode: `connecting_` stays set and the other
mode flags are as before. -/
theorem C11_handshake_failed (w : World) (revents : Nat) (hconn : w.conn.connecting_ = true)
    (hinit : w.conn.ioInitialized_ = true)
    (hp : (PQconnectPoll w).1 = PostgresPollingStatusType.PGRES_POLLING_FAILED) :
    (HandleIOEvent revents w).conn.reading_ = false ∧
      (HandleIOEvent revents w).conn.writing_ = false ∧
      eventsSince w (HandleIOEvent revents w) =
        [Event._error (ErrorArg.exception (PQerrorMessage w).1)] ∧
      callsSince w (HandleIOEvent revents w) =
        { live := w.conn.connection_.isSome, fn := Fn.PQconnectPoll } ::
          ((if w.conn.reading_ then
              [{ live := w.conn.connection_.isSome,
                 fn := Fn.uv_poll_stop Watcher.read_watcher_ }]
            else []) ++
           ((if w.conn.writing_ then
              [{ live := w.conn.connection_.isSome,
                 fn := Fn.uv_poll_stop Watcher.write_watcher_ }]
            else []) ++
            [{ live := w.conn.connection_.isSome, fn := Fn.PQerrorMessage }])) ∧
      (HandleIOEvent revents w).conn.connection_.isSome = w.conn.connection_.isSome ∧
      (HandleIOEvent revents w).conn.connecting_ = true ∧
      (HandleIOEvent revents w).conn.modeFlags = w.conn.modeFlags := by
  rw [HandleIOEvent_connecting w revents hconn]
  simp only [ HandleConnectionIO, hp]
  obtain ⟨⟨c, cg, io, co, ci, r, wr, e⟩, n, cs, ev, cl, ht⟩ := w
  simp only at hconn hinit
  subst hconn hinit
  refine ⟨?_, ?_, ?_, ?_, ?_, ?_, ?_⟩
  · cases c <;> cases r <;> cases wr <;>
      simp [EmitLastError, EmitError, StopRead, StopWrite, PQconnectPoll, PQerrorMessage,
        World.log, World.setEngine, World.engine, Emit]
  · cases c <;> cases r <;> cases wr <;>
      simp [EmitLastError, EmitError, StopRead, StopWrite, PQconnectPoll, PQerrorMessage,
        World.log, World.setEngine, World.engine, Emit]
  · refine eventsSince_append _ _ _ ?_
    cases c <;> cases r <;> cases wr <;>
      simp [EmitLastError, EmitError, StopRead, StopWrite, PQconnectPoll, PQerrorMessage,
        World.log, World.setEngine, World.engine, Emit]
  · refine callsSince_append _ _ _ ?_
    cases c <;> cases r <;> cases wr <;>
      simp [EmitLastError, EmitError, StopRead, StopWrite, PQconnectPoll, PQerrorMessage,
        World.log, World.setEngine, World.engine, Emit]
  · cases c <;> cases r <;> cases wr <;>
      simp [EmitLastError, EmitError, StopRead, StopWrite, PQconnectPoll, PQerrorMessage,
        World.log, World.setEngine, World.engine, Emit]
  · cases c <;> cases r <;> cases wr <;>
      simp [EmitLastError, EmitError, StopRead, StopWrite, PQconnectPoll, PQerrorMessage,
        World.log, World.setEngine, World.engine, Emit]
  · cases c <;> cases r <;> cases wr <;>
      simp [EmitLastError, EmitError, StopRead, StopWrite, PQconnectPoll, PQerrorMessage,
        World.log, World.setEngine, World.engine, Emit, Connection.modeFlags]

/-- C11, amended, at a concrete handshake: the first callback after a connect,
answered `PGRES_POLLING_FAILED`. -/
theorem C11_handshake_failed_witness :
    (HandleIOEvent UV_WRITABLE (handshaking failingHandle)).conn.reading_ = false ∧
      (HandleIOEvent UV_WRITABLE (handshaking failingHandle)).conn.writing_ = false ∧
      eventsSince (handshaking failingHandle)
          (HandleIOEvent UV_WRITABLE (handshaking failingHandle)) =
        [Event._error (ErrorArg.exception "could not connect to server")] ∧
      (HandleIOEvent UV_WRITABLE (handshaking failingHandle)).conn.connecting_ = true :=
  ⟨(C11_handshake_failed (handshaking failingHandle) UV_WRITABLE rfl rfl rfl).1,
   (C11_handshake_failed (handshaking failingHandle) UV_WRITABLE rfl rfl rfl).2.1,
   (C11_handshake_failed (handshaking failingHandle) UV_WRITABLE rfl rfl rfl).2.2.1,
   (C11_handshake_failed (handshaking failingHandle) UV_WRITABLE rfl rfl rfl).2.2.2.2.2.1⟩

/-! ## C12: write interest until the flush is complete -/

theorem interest_dispatch (w : World) (f : Fn) (b : Bool) :
    (StartWrite (enableSingleRowMode b (PQsend f w).2)).interest =
      (w.conn.ioInitialized_, w.conn.reading_ && !w.conn.ioInitialized_, true) := by
  simp only [World.interest, conn_StartWrite]
  cases b <;> simp [enableSingleRowMode, PQsend]

theorem interest_NAN_METHOD_SendQuery (w : World) (info : List JsValue) (s : String)
    (singleRowMode : Bool) (h0 : arg info 0 = JsValue.string s) :
    (NAN_METHOD_SendQuery info singleRowMode w).2.interest =
      (w.conn.ioInitialized_, w.conn.reading_ && !w.conn.ioInitialized_, true) := by
  simp only [NAN_METHOD_SendQuery, h0, Send]
  split
  · simp only [GetLastError, interest_PQerrorMessage, interest_dispatch]
  · simp only [interest_Flush, interest_dispatch]

theorem interest_DispatchParameterizedQuery (w : World) (info : List JsValue) (s : String)
    (jsParams : List JsValue) (paramValues : List (Option String)) (singleRowMode : Bool)
    (isPrepared : Bool) (h0 : arg info 0 = JsValue.string s)
    (h1 : arg info 1 = JsValue.array jsParams)
    (hp : ArgToCStringArray jsParams = some (some paramValues)) :
    (DispatchParameterizedQuery info singleRowMode isPrepared w).2.interest =
      (w.conn.ioInitialized_, w.conn.reading_ && !w.conn.ioInitialized_, true) := by
  simp only [DispatchParameterizedQuery, h0, h1, hp, SendPreparedQuery, SendQueryParams]
  cases isPrepared
  · simp only [Bool.false_eq_true, if_false]
    split
    · exact interest_dispatch _ _ _
    · simp only [interest_EmitLastError, interest_dispatch]
  · simp only [if_true]
    split
    · exact interest_dispatch _ _ _
    · simp only [interest_EmitLastError, interest_dispatch]

theorem writable_only (w : World) (revents : Nat) (hnc : w.conn.connecting_ = false)
    (hw : revents &&& UV_WRITABLE ≠ 0) (hr : revents &&& UV_READABLE = 0) :
    HandleIOEvent revents w =
      if (PQflush w).1 = 0 then StartRead (PQflush w).2 else (PQflush w).2 := by
  simp only [HandleIOEvent, HandleIOEvent.writable, hnc, hw, hr, if_true, if_false,
    Bool.false_eq_true, ne_eq, not_true_eq_false, not_false_eq_true]

/-- C12: on an object whose poll handles are initialised, each of the four
dispatch operations leaves `writing_` set and `reading_` cleared: `_sendQuery`
called with a string as query text, `_sendQueryWithParams` and
`_sendQueryPrepared` called with a string and an array of parameters that
`ArgToCStringArray` converts, `_sendPrepare` called with anything.  On a
write-readiness callback outside the handshake, if `PQflush` answers 0 the
write handle is stopped and the read handle started (`reading_` set, `writing_`
cleared); if it answers anything else nothing but the flush is done and both
flags stay as they were.  So, write interest being registered and read interest
cleared before the callback, the object switches to read interest if and only
if the flush is complete, and otherwise write interest stays registered and read
interest cleared. -/
theorem C12_write_interest_until_flushed (w w2 : World) (info : List JsValue) (s : String)
    (jsParams : List JsValue) (paramValues : List (Option String))
    (queryName queryText : String) (length : Int) (singleRowMode : Bool) (revents : Nat)
    (hinit : w.conn.ioInitialized_ = true)
    (hinit2 : w2.conn.ioInitialized_ = true) (hnc : w2.conn.connecting_ = false)
    (hw : revents &&& UV_WRITABLE ≠ 0) (hr : revents &&& UV_READABLE = 0) :
    (arg info 0 = JsValue.string s →
        (NAN_METHOD_SendQuery info singleRowMode w).2.conn.writing_ = true ∧
        (NAN_METHOD_SendQuery info singleRowMode w).2.conn.reading_ = false) ∧
      (arg info 0 = JsValue.string s → arg info 1 = JsValue.array jsParams →
        ArgToCStringArray jsParams = some (some paramValues) →
          ((NAN_METHOD_SendQueryWithParams info singleRowMode w).2.conn.writing_ = true ∧
            (NAN_METHOD_SendQueryWithParams info singleRowMode w).2.conn.reading_ = false) ∧
          ((NAN_METHOD_SendQueryPrepared info singleRowMode w).2.conn.writing_ = true ∧
            (NAN_METHOD_SendQueryPrepared info singleRowMode w).2.conn.reading_ = false)) ∧
      ((NAN_METHOD_SendPrepare queryName queryText length singleRowMode w).2.conn.writing_ = true ∧
        (NAN_METHOD_SendPrepare queryName queryText length singleRowMode w).2.conn.reading_
          = false) ∧
      ((PQflush w2).1 = 0 →
        (HandleIOEvent revents w2).conn.reading_ = true ∧
        (HandleIOEvent revents w2).conn.writing_ = false ∧
        callsSince w2 (HandleIOEvent revents w2) =
          { live := w2.conn.connection_.isSome, fn := Fn.PQflush } ::
            ((if w2.conn.writing_ then
                [{ live := w2.conn.connection_.isSome,
                   fn := Fn.uv_poll_stop Watcher.write_watcher_ }]
              else []) ++
              [{ live := w2.conn.connection_.isSome,
                 fn := Fn.uv_poll_start Watcher.read_watcher_ }])) ∧
      ((PQflush w2).1 ≠ 0 →
        (HandleIOEvent revents w2).conn.reading_ = w2.conn.reading_ ∧
        (HandleIOEvent revents w2).conn.writing_ = w2.conn.writing_ ∧
        callsSince w2 (HandleIOEvent revents w2) =
          [{ live := w2.conn.connection_.isSome, fn := Fn.PQflush }]) ∧
      (w2.conn.writing_ = true → w2.conn.reading_ = false →
        (((HandleIOEvent revents w2).conn.reading_ = true ∧
            (HandleIOEvent revents w2).conn.writing_ = false) ↔ (PQflush w2).1 = 0) ∧
        ((PQflush w2).1 ≠ 0 →
          (HandleIOEvent revents w2).conn.writing_ = true ∧
          (HandleIOEvent revents w2).conn.reading_ = false)) := by
  have hflags : ∀ w1 : World,
      w1.interest = (w.conn.ioInitialized_, w.conn.reading_ && !w.conn.ioInitialized_, true) →
      w1.conn.writing_ = true ∧ w1.conn.reading_ = false := by
    intro w1 h
    simp only [World.interest, Prod.mk.injEq, hinit] at h
    exact ⟨h.2.2, by simpa using h.2.1⟩
  have hzero : (PQflush w2).1 = 0 →
      (HandleIOEvent revents w2).conn.reading_ = true ∧
      (HandleIOEvent revents w2).conn.writing_ = false ∧
      callsSince w2 (HandleIOEvent revents w2) =
        { live := w2.conn.connection_.isSome, fn := Fn.PQflush } ::
          ((if w2.conn.writing_ then
              [{ live := w2.conn.connection_.isSome,
                 fn := Fn.uv_poll_stop Watcher.write_watcher_ }]
            else []) ++
            [{ live := w2.conn.connection_.isSome,
               fn := Fn.uv_poll_start Watcher.read_watcher_ }]) := by
    intro hf
    rw [writable_only w2 revents hnc hw hr]
    simp only [hf, if_true]
    refine ⟨by rw [conn_StartRead], ?_, ?_⟩
    · rw [conn_StartRead]; simp [PQflush, hinit2]
    · refine callsSince_append _ _ _ ?_
      rw [calls_StartRead]
      simp [PQflush, hinit2]
  have hnonzero : (PQflush w2).1 ≠ 0 →
      (HandleIOEvent revents w2).conn.reading_ = w2.conn.reading_ ∧
      (HandleIOEvent revents w2).conn.writing_ = w2.conn.writing_ ∧
      callsSince w2 (HandleIOEvent revents w2) =
        [{ live := w2.conn.connection_.isSome, fn := Fn.PQflush }] := by
    intro hf
    rw [writable_only w2 revents hnc hw hr]
    simp only [hf, if_false]
    refine ⟨by simp [PQflush], by simp [PQflush], ?_⟩
    exact callsSince_append _ _ _ (by simp [PQflush])
  refine ⟨fun h0 => hflags _ (interest_NAN_METHOD_SendQuery w info s singleRowMode h0),
    fun h0 h1 hp =>
      ⟨hflags _ (interest_DispatchParameterizedQuery w info s jsParams paramValues
          singleRowMode false h0 h1 hp),
        hflags _ (interest_DispatchParameterizedQuery w info s jsParams paramValues
          singleRowMode true h0 h1 hp)⟩,
    hflags _ (interest_dispatch w _ singleRowMode),
    hzero, hnonzero, ?_⟩
  intro hwr hrd
  refine ⟨⟨?_, fun hf => ⟨(hzero hf).1, (hzero hf).2.1⟩⟩, ?_⟩
  · rintro ⟨h3, h4⟩
    by_contra hf
    have := (hnonzero hf).2.1
    rw [h4, hwr] at this
    exact Bool.noConfusion this
  · intro hf
    exact ⟨(hnonzero hf).2.1.trans hwr, (hnonzero hf).1.trans hrd⟩

/-- C12 at a concrete object: a connected idle object, the simple query
`_sendQuery ("SELECT 1")`, a parameterised query with one null parameter, and
the write-readiness callback that follows the simple query, its flush
complete. -/
theorem C12_write_interest_until_flushed_witness :
    ((NAN_METHOD_SendQuery [JsValue.string "SELECT 1"] false connectedRun).2.conn.writing_ = true ∧
        (NAN_METHOD_SendQuery [JsValue.string "SELECT 1"] false connectedRun).2.conn.reading_
          = false) ∧
      ((NAN_METHOD_SendQueryWithParams
          [JsValue.string "SELECT $1", JsValue.array [JsValue.null]] false
          connectedRun).2.conn.writing_ = true ∧
        (NAN_METHOD_SendQueryWithParams
          [JsValue.string "SELECT $1", JsValue.array [JsValue.null]] false
          connectedRun).2.conn.reading_ = false) ∧
      ((HandleIOEvent UV_WRITABLE
          (NAN_METHOD_SendQuery [JsValue.string "SELECT 1"] false connectedRun).2).conn.reading_
          = true ∧
        (HandleIOEvent UV_WRITABLE
          (NAN_METHOD_SendQuery [JsValue.string "SELECT 1"] false connectedRun).2).conn.writing_
          = false) :=
  ⟨(C12_write_interest_until_flushed connectedRun
      (NAN_METHOD_SendQuery [JsValue.string "SELECT 1"] false connectedRun).2
      [JsValue.string "SELECT 1"] "SELECT 1" [] [] "q" "SELECT 1" 0 false
      UV_WRITABLE rfl rfl rfl (by decide) (by decide)).1 rfl,
   ((C12_write_interest_until_flushed connectedRun
      (NAN_METHOD_SendQuery [JsValue.string "SELECT 1"] false connectedRun).2
      [JsValue.string "SELECT $1", JsValue.array [JsValue.null]] "SELECT $1" [JsValue.null]
      [none] "q" "SELECT 1" 0 false
      UV_WRITABLE rfl rfl rfl (by decide) (by decide)).2.1 rfl rfl rfl).1,
   ⟨((C12_write_interest_until_flushed connectedRun
      (NAN_METHOD_SendQuery [JsValue.string "SELECT 1"] false connectedRun).2
      [JsValue.string "SELECT 1"] "SELECT 1" [] [] "q" "SELECT 1" 0 false
      UV_WRITABLE rfl rfl rfl (by decide) (by decide)).2.2.2.1 rfl).1,
    ((C12_write_interest_until_flushed connectedRun
      (NAN_METHOD_SendQuery [JsValue.string "SELECT 1"] false connectedRun).2
      [JsValue.string "SELECT 1"] "SELECT 1" [] [] "q" "SELECT 1" 0 false
      UV_WRITABLE rfl rfl rfl (by decide) (by decide)).2.2.2.1 rfl).2.1⟩⟩

/-! ## C13 and C14: the hex encoder -/

/-- What `MallocCHexString` returns for a buffer of `n < 2^31 - 2` bytes: the
call returns; the block holds a backslash, an `x`, then for each byte in buffer
order its two lowercase hexadecimal digits, high nibble first, then a NUL; that
text holds no NUL and has `2n + 2` characters, so it is the C string returned,
and the parameter `ArgToCStringArray` passes on for a buffer of at least one
byte.  The byte the loop loads from beyond the buffer does not show in it. -/
theorem MallocCHexString_hex_text (data : Bytes) (garbage : Nat)
    (hn : data.length < 2147483646) :
    (MallocCHexString.run data garbage).map HexMem.cHexString =
        some (hexText data ++ [Char.ofNat 0]) ∧
      MallocCHexString data = some (String.mk (hexText data)) ∧
      (String.mk (hexText data)).length = 2 * data.length + 2 ∧
      (∀ c ∈ hexText data, c ≠ Char.ofNat 0) ∧
      hexText data = Char.ofNat 92 :: 'x' ::
        data.flatMap (fun b => [hexDigit (b % 256 / 16), hexDigit (b % 256 % 16)]) ∧
      (0 < data.length →
        ArgToCStringArray [JsValue.buffer data] =
          some (some [some (String.mk (hexText data))])) := by
  have hs := MallocCHexString_eq data hn
  refine ⟨by rw [MallocCHexString_run_spec data garbage hn]; rfl, hs, ?_, hexText_no_nul data,
    rfl, ?_⟩
  · simp only [String.length, hexText, List.length_cons, length_flatMap_hexPair]
  · intro hpos
    rw [ArgToCStringArray_eq_loop _ (by simp)]
    simp [ArgToCStringArray.loop, hpos, hs]

/-- The hex text of a concrete buffer: the three bytes `01 ff 10`. -/
theorem MallocCHexString_hex_text_example :
    MallocCHexString [1, 255, 16] = some "\\x01ff10" ∧
      ArgToCStringArray [JsValue.buffer [1, 255, 16]] = some (some [some "\\x01ff10"]) :=
  ⟨(MallocCHexString_hex_text [1, 255, 16] 0 (by decide)).2.1,
   (MallocCHexString_hex_text [1, 255, 16] 0 (by decide)).2.2.2.2.2 (by decide)⟩

/-- C13, the code at the failing input, a buffer of `2^31 - 1` bytes (here all
zero): `hexStringLen` is `2^32 + 1`, above every value of the counter `k` of the
loop, a `uint32_t`, so the test `k < hexStringLen` never fails: whatever the
fuel, the loop does not leave, `MallocCHexString` produces no text, and the
conversion of the parameters does not return.  The same holds from `2^31 - 2`
bytes on (`MallocCHexString_loop_never_ends`); on every shorter buffer the text
is the one of the claim (`MallocCHexString_hex_text`). -/
theorem C13_hex_encoder_never_returns :
    (List.replicate 2147483647 0).length * 2 + 3 = 4294967297 ∧
      (∀ (fuel : Nat) (m : HexMem),
        MallocCHexString.loop (List.replicate 2147483647 0) 0 4294967297 fuel 0 2 m = none) ∧
      MallocCHexString.run (List.replicate 2147483647 0) 0 = none ∧
      MallocCHexString (List.replicate 2147483647 0) = none ∧
      ArgToCStringArray [JsValue.buffer (List.replicate 2147483647 0)] = none := by
  have hlen : (List.replicate 2147483647 0).length = 2147483647 := List.length_replicate _ _
  have hge : 2147483646 ≤ (List.replicate 2147483647 0).length := by rw [hlen]; omega
  exact ⟨by rw [hlen],
    fun fuel m => MallocCHexString_loop_never_ends _ 0 4294967297 (by omega) fuel 0 2 m rfl
      (by omega),
    MallocCHexString_run_never_returns _ 0 hge,
    MallocCHexString_never_returns _ hge,
    ArgToCStringArray_long_buffer _ [] hge (by decide)⟩

/-- The loop of `MallocCHexString` runs `n + 1` rounds on a buffer of
`n < 2^31 - 2` bytes: it loads from index `n` of the buffer and stores to index
`2n + 3` of the block of `2n + 3` bytes. -/
theorem MallocCHexString_oversteps (data : Bytes) (garbage : Nat)
    (hn : data.length < 2147483646) :
    ∃ m, MallocCHexString.run data garbage = some m ∧ data.length ∈ m.reads ∧
      (2 * data.length + 3) ∈ m.writes ∧ m.cHexString.length = 2 * data.length + 3 := by
  refine ⟨_, MallocCHexString_run_spec data garbage hn, ?_, ?_, ?_⟩
  · simp [List.mem_range']
  · simp only [List.mem_append, List.mem_flatMap, List.mem_range']
    left; right
    exact ⟨data.length, ⟨data.length, by omega, by omega⟩, by simp⟩
  · simp only [hexText, List.length_append, List.length_cons, List.length_nil,
      length_flatMap_hexPair]

/-- C14, the code at the failing input, a buffer of the one byte `0xab`: the
block has 5 bytes; the loop runs two rounds, it loads from the indices 0 and 1
of the one-byte buffer and stores to the indices 2, 3, 4 and 5 of the block:
the load at 1 and the store at 5 are out of bounds. -/
theorem C14_hex_encoder_out_of_bounds :
    ∃ m, MallocCHexString.run [171] 0 = some m ∧
      m.reads = [0, 1] ∧
      m.writes = [0, 1, 2, 2, 3, 4, 5, 4] ∧
      m.cHexString.length = 5 ∧
      ¬ (∀ i ∈ m.reads, i < [171].length) ∧
      ¬ (∀ k ∈ m.writes, k < 2 * [171].length + 3) :=
  ⟨{ cHexString := [Char.ofNat 92, 'x', 'a', 'b', Char.ofNat 0], reads := [0, 1],
     writes := [0, 1, 2, 2, 3, 4, 5, 4] },
    by decide, rfl, rfl, rfl, by decide, by decide⟩

end PgBinding
